import Mathlib

/-!
# primus (libglfork.cpp): a verification development

A shallow embedding of the bookkeeping and pipeline code of `libglfork.cpp`:
the context and drawable registries, the buffer-swap orchestration, the
worker pipeline with its four semaphores, the two worker threads statement
by statement, the search for a visual that fits an fbconfig, the library
path loader, the daemon handshake, the procedure-address lookup and the
profiler.

Conventions of the embedding.
* GLX handles and pointers (`GLXContext`, `GLXFBConfig`, `GLXDrawable`,
  `pthread_t`, function pointers) are natural numbers; `0` is the null handle.
* `std::map<K, V>` is an association list with unique keys; `operator[]`
  value-initialises a missing entry (all fields zero).
* C strings are lists of characters without the terminating NUL.
* `exit(1)` (through `die_if`) on the application thread is the result `none`
  or an outcome named `exited`; on the readback thread it runs the static
  destructors there, which the worker models follow into `reap_workers`.
-/

namespace Primus

/-! ## `std::map` as an association list -/

/-- Registry: the entries of a `std::map<Nat, α>`. -/
abbrev Registry (α : Type) := List (Nat × α)

/-- Find the entry of key `k` (`std::map::find`). -/
def Registry.find {α : Type} (m : Registry α) (k : Nat) : Option α :=
  match m with
  | [] => none
  | (k', v) :: rest => if k' = k then some v else Registry.find rest k

/-- Remove the entry of key `k` (`std::map::erase`). -/
def Registry.erase {α : Type} (m : Registry α) (k : Nat) : Registry α :=
  m.filter (fun e => e.1 ≠ k)

/-- Store `v` under key `k`, replacing an older entry (`m[k] = v`). -/
def Registry.set {α : Type} (m : Registry α) (k : Nat) (v : α) : Registry α :=
  (k, v) :: Registry.erase m k

/-- Key membership (`DrawablesInfo::known`). -/
def Registry.known {α : Type} (m : Registry α) (k : Nat) : Bool :=
  (Registry.find m k).isSome

/-- Apply `f` to every mapped value (a loop over all entries). -/
def Registry.mapVals {α : Type} (m : Registry α) (f : α → α) : Registry α :=
  m.map (fun e => (e.1, f e.2))

/-! ## Context registry (`ContextInfo`, `ContextsInfo`) -/

/-- Two's-complement wrap of a C `int` (32 bits). -/
def wrapInt32 (x : Int) : Int := (x + 2147483648) % 4294967296 - 2147483648

/-- Source `struct ContextInfo`. -/
structure ContextInfo where
  fbconfig : Nat
  sharegroup : Int
deriving DecidableEq, Repr

/-- The context registry `primus.contexts` together with the function-local
`static int nsharegroups` of `ContextsInfo::record`. -/
structure ContextsInfo where
  entries : Registry ContextInfo
  nsharegroups : Int
deriving DecidableEq, Repr

/-- The registry at program start: no entry, counter zero. -/
def ContextsInfo.empty : ContextsInfo := ⟨[], 0⟩

/-- Value-initialised `ContextInfo`, what `operator[]` inserts for a missing key. -/
def ContextInfo.zero : ContextInfo := ⟨0, 0⟩

/-- The expression `(*this)[k]` of a `std::map`: the entry of `k`, inserted
value-initialised when missing. Returns the map after the access and the entry. -/
def ContextsInfo.index (m : Registry ContextInfo) (k : Nat) : Registry ContextInfo × ContextInfo :=
  match Registry.find m k with
  | some v => (m, v)
  | none => (Registry.set m k ContextInfo.zero, ContextInfo.zero)

/-- Source `ContextsInfo::record(ctx, config, share)`:
`int sharegroup = share ? (*this)[share].sharegroup : nsharegroups++;`
`(*this)[ctx] = (ContextInfo){config, sharegroup};` -/
def ContextsInfo.record (c : ContextsInfo) (ctx config share : Nat) : ContextsInfo :=
  if share ≠ 0 then
    let acc := ContextsInfo.index c.entries share
    { entries := Registry.set acc.1 ctx ⟨config, acc.2.sharegroup⟩,
      nsharegroups := c.nsharegroups }
  else
    { entries := Registry.set c.entries ctx ⟨config, c.nsharegroups⟩,
      nsharegroups := wrapInt32 (c.nsharegroups + 1) }

/-- One call of `record`: the arguments `(ctx, config, share)`. -/
structure RecordCall where
  ctx : Nat
  config : Nat
  share : Nat
deriving DecidableEq, Repr

/-- Run a sequence of `record` calls, in order. -/
def ContextsInfo.recordAll (c : ContextsInfo) (calls : List RecordCall) : ContextsInfo :=
  calls.foldl (fun acc k => ContextsInfo.record acc k.ctx k.config k.share) c

/-- The share-group id the registry holds for `ctx`, if `ctx` is recorded. -/
def ContextsInfo.sharegroupOf (c : ContextsInfo) (ctx : Nat) : Option Int :=
  (Registry.find c.entries ctx).map (fun i => i.sharegroup)

/-- The share-list links of a sequence of creations: `(ctx, share)` for every
creation with a non-null share list. -/
def shareLinks (calls : List RecordCall) : List (Nat × Nat) :=
  (calls.filter (fun k => k.share ≠ 0)).map (fun k => (k.ctx, k.share))

/-- Two contexts are connected through share-list links: the equivalence
generated by the links. -/
def Connected (calls : List RecordCall) : Nat → Nat → Prop :=
  Relation.EqvGen (fun a b => (a, b) ∈ shareLinks calls)

/-- A sequence of creations as the GLX client produces it: every created
handle is non-null and new, every share list is null or a context created
earlier in the sequence (`seen` are the contexts created before). -/
def WellFormedCreations (seen : List Nat) : List RecordCall → Prop
  | [] => True
  | k :: rest =>
      k.ctx ≠ 0 ∧ k.ctx ∉ seen ∧ (k.share = 0 ∨ k.share ∈ seen) ∧
        WellFormedCreations (k.ctx :: seen) rest

/-- Every non-null share argument names an entry the registry holds at the
time of the call. -/
def SharesRecorded (c : ContextsInfo) : List RecordCall → Prop
  | [] => True
  | k :: rest =>
      (k.share ≠ 0 → Registry.known c.entries k.share = true) ∧
        SharesRecorded (ContextsInfo.record c k.ctx k.config k.share) rest

/-- Invariant of the registry along a run of `record` calls whose non-null
share arguments are recorded: every id lies in `[0, nsharegroups)`. -/
def IdsBelowCounter (c : ContextsInfo) : Prop :=
  0 ≤ c.nsharegroups ∧
    ∀ k i, Registry.find c.entries k = some i → 0 ≤ i.sharegroup ∧ i.sharegroup < c.nsharegroups

/-- Invariant of the registry along a well-formed sequence of creations:
`seen` are the recorded contexts, `links` the share-list links so far. -/
structure CreationInv (c : ContextsInfo) (seen : List Nat) (links : List (Nat × Nat)) : Prop where
  keys : ∀ k, Registry.known c.entries k = true ↔ k ∈ seen
  ids : IdsBelowCounter c
  linked : ∀ a b, (a, b) ∈ links → c.sharegroupOf a = c.sharegroupOf b
  linkSeen : ∀ a b, (a, b) ∈ links → a ∈ seen ∧ b ∈ seen
  conn : ∀ a b ia ib, Registry.find c.entries a = some ia → Registry.find c.entries b = some ib →
    ia.sharegroup = ib.sharegroup → Relation.EqvGen (fun x y => (x, y) ∈ links) a b

instance WellFormedCreations.instDecidable :
    (seen : List Nat) → (calls : List RecordCall) → Decidable (WellFormedCreations seen calls)
  | _, [] => isTrue trivial
  | seen, k :: rest =>
    haveI := WellFormedCreations.instDecidable (k.ctx :: seen) rest
    inferInstanceAs (Decidable (k.ctx ≠ 0 ∧ k.ctx ∉ seen ∧ (k.share = 0 ∨ k.share ∈ seen) ∧
      WellFormedCreations (k.ctx :: seen) rest))

instance SharesRecorded.instDecidable :
    (c : ContextsInfo) → (calls : List RecordCall) → Decidable (SharesRecorded c calls)
  | _, [] => isTrue trivial
  | c, k :: rest =>
    haveI := SharesRecorded.instDecidable (ContextsInfo.record c k.ctx k.config k.share) rest
    inferInstanceAs (Decidable ((k.share ≠ 0 → Registry.known c.entries k.share = true) ∧
      SharesRecorded (ContextsInfo.record c k.ctx k.config k.share) rest))

/-! ## Library path loader (`mdlopen`)

`mdlopen` collects the text of `dlerror()` for every entry that fails to load
in `char errors[1024]`: line 39 is
`errors_ptr += snprintf(errors_ptr, errors_end - errors_ptr, fmt, dlerror())`
with the text and a newline as format.
`snprintf` returns the length the text would have had without truncation, so
`errors_ptr` moves past `errors_end` once more than 1024 bytes of error text
have been produced; the size argument of the next call, the difference
`errors_end - errors_ptr` converted to `size_t`, is then huge and that call
writes outside the array. The embedding keeps the offset
`errors_ptr - errors` and ends a run at such a write. `strdupa` is taken to
succeed. -/

/-- The statements `if ((c = strchr(p, ':'))) *c = 0;`: the string `p` up to
its first colon, and the rest after that colon (`c + 1`) when there is one;
`none` stands for `c == NULL`. -/
def cutAtColon : List Char → List Char × Option (List Char)
  | [] => ([], none)
  | ch :: rest =>
      if ch = ':' then ([], some rest)
      else ((ch :: (cutAtColon rest).1), (cutAtColon rest).2)

/-- How a call of `mdlopen` ends: with a handle, in `exit(1)`, or in a write
outside `errors` (line 39 reached with `errors_ptr` past `errors_end`), after
which the behaviour of the program is undefined. -/
inductive LoadOutcome where
  | loaded (handle : Nat)
  | exited
  | overrun
deriving DecidableEq, Repr

/-- What a run of `mdlopen` did: the paths passed to `dlopen`, in order, and
the way it ended. -/
structure LoadRun where
  attempts : List (List Char)
  outcome : LoadOutcome
deriving DecidableEq, Repr

/-- Size of the array `errors`. -/
def errorsSize : Nat := 1024

/-- The loop of `mdlopen`, `fuel` iterations at most (`none`: fuel used up).
`dlopen p` is `some handle` when the library loads and `none` when `dlopen`
returns null; `dlerrorLen p` is the length of the text `dlerror()` returns
after `dlopen(p)` failed; `used` is `errors_ptr - errors`. With
`used ≤ 1024` the call of `snprintf` in line 39 is given the size
`1024 - used` and stays inside the array; it returns `dlerrorLen p + 1`
whatever it wrote. -/
def mdlopenLoop (dlopen : List Char → Option Nat) (dlerrorLen : List Char → Nat) :
    Nat → Nat → List Char → Option LoadRun
  | 0, _, _ => none
  | fuel + 1, used, p =>
      let entry := (cutAtColon p).1
      if entry.head? ≠ some '/' then
        some ⟨[], LoadOutcome.exited⟩            -- die_if(p[0] != '/')
      else
        match dlopen entry with
        | some handle => some ⟨[entry], LoadOutcome.loaded handle⟩
        | none =>
          if errorsSize < used then
            some ⟨[entry], LoadOutcome.overrun⟩    -- line 39 writes past `errors_end`
          else
            match (cutAtColon p).2 with
            | none => some ⟨[entry], LoadOutcome.exited⟩   -- die_if(true) after the loop
            | some rest =>
              (mdlopenLoop dlopen dlerrorLen fuel (used + (dlerrorLen entry + 1)) rest).map
                (fun r => ⟨entry :: r.attempts, r.outcome⟩)

/-- Source `mdlopen(paths, flag)`: the loop entered with `errors_ptr = errors`.
Every iteration consumes at least the entry it cuts off, so
`paths.length + 1` iterations suffice. -/
def mdlopen (dlopen : List Char → Option Nat) (dlerrorLen : List Char → Nat)
    (paths : List Char) : Option LoadRun :=
  mdlopenLoop dlopen dlerrorLen (paths.length + 1) 0 paths

/-- A colon-separated list: the entries joined with `:`. -/
def joinColon : List (List Char) → List Char
  | [] => []
  | [e] => e
  | e :: rest => e ++ ':' :: joinColon rest

/-- An entry is absolute when it starts with `/`. -/
def isAbsolute (e : List Char) : Bool := e.head? == some '/'

/-- Bytes of error text line 39 is asked to add for the entries of a list,
should each of them fail: the text of `dlerror()` and a newline. -/
def errorBytes (dlerrorLen : List Char → Nat) (entries : List (List Char)) : Nat :=
  (entries.map (fun e => dlerrorLen e + 1)).sum

/-- The loader as the specification words it, over the list of entries:
each entry must be absolute, entries are tried in order, the first success
is returned, and the loader exits when none loads. To be compared with
`mdlopen`. -/
def loadFirst (dlopen : List Char → Option Nat) : List (List Char) → LoadRun
  | [] => ⟨[], LoadOutcome.exited⟩
  | e :: rest =>
      if isAbsolute e = false then ⟨[], LoadOutcome.exited⟩
      else
        match dlopen e with
        | some handle => ⟨[e], LoadOutcome.loaded handle⟩
        | none => ⟨e :: (loadFirst dlopen rest).attempts, (loadFirst dlopen rest).outcome⟩


/-- A `dlopen` under which only `/c` loads, with handle 9. -/
def onlyC (p : List Char) : Option Nat := if p = ['/', 'c'] then some 9 else none

/-- A `dlerror` whose text for `/a` has 1100 bytes and for every other entry
60 bytes. -/
def longErrorA (p : List Char) : Nat := if p = ['/', 'a'] then 1100 else 60
/-! ## Startup handshake: the `Q LibraryPath` query (`EarlyInitializer`)

The reply of the daemon is received into `static char c[256]` with
`recv(sock, &c, 255, 0)`; the embedding keeps the buffer as a list of bytes
and reads C strings from it up to the first NUL. -/

/-- The NUL byte. -/
def NUL : Char := Char.ofNat 0

/-- The C string stored at the start of `buf`: the bytes before the first NUL. -/
def cstr : List Char → List Char
  | [] => []
  | ch :: rest => if ch = NUL then [] else ch :: cstr rest

/-- The call `recv(sock, &c, 255, 0)` for a message `msg`: at most 255 bytes
of the message overwrite the start of the buffer, the rest of the buffer
keeps its content. -/
def recvInto (c : List Char) (msg : List Char) : List Char :=
  msg.take 255 ++ c.drop (msg.take 255).length

/-- The statement `*strchrnul(c, '\n') = 0`: the first newline of the C
string becomes NUL; a string without newline is unchanged. -/
def cutAtNewline : List Char → List Char
  | [] => []
  | ch :: rest =>
      if ch = NUL then ch :: rest
      else if ch = '\n' then NUL :: rest
      else ch :: cutAtNewline rest

/-- The call `strchrnul(s, ':')` on the C string `s`, as the pair of the
bytes before the result and the string the result points to. -/
def spanColon : List Char → List Char × List Char
  | [] => ([], [])
  | ch :: rest =>
      if ch = ':' then ([], ch :: rest)
      else (ch :: (spanColon rest).1, (spanColon rest).2)

/-- The text appended to every path. -/
def libGLSuffix : List Char := "/libGL.so.1".toList

/-- The loop `for (p = c + 7; *p; npaths++, p = strchrnul(p + 1, ':'));`
from position `p`, `fuel` iterations at most (`none`: fuel used up). -/
def countPaths : Nat → List Char → Option Nat
  | _, [] => some 0
  | 0, _ :: _ => none
  | fuel + 1, _ :: rest => (countPaths fuel (spanColon rest).2).map (fun n => n + 1)

/-- The loop `for (p = c + 7; *p; p = n) { n = strchrnul(p + 1, ':');
b += sprintf(b, "%.*s/libGL.so.1", (int)(n - p), p); }` from position `p`:
the text written to `bblibs` (`none`: fuel used up). -/
def buildLibs : Nat → List Char → Option (List Char)
  | _, [] => some []
  | 0, _ :: _ => none
  | fuel + 1, ch :: rest =>
      (buildLibs fuel (spanColon rest).2).map
        (fun out => (ch :: (spanColon rest).1) ++ libGLSuffix ++ out)

/-- How the `PRIMUS_libGLa` part of the handshake ends. -/
inductive HandshakeResult where
  | exited                                   -- `die_if`: unexpected query response
  | outOfFuel                                -- a loop of the embedding ran out of fuel
  | env (libGLa : Option (List Char))        -- value of `PRIMUS_libGLa` afterwards
deriving DecidableEq, Repr

/-- The block `if (!getenv("PRIMUS_libGLa")) { ... }` of `EarlyInitializer`:
`libGLa` is the value of the variable before, `c` the content of the static
buffer, `reply` what the daemon sends in answer to `Q LibraryPath`. -/
def libraryPathQuery (libGLa : Option (List Char)) (c reply : List Char) : HandshakeResult :=
  match libGLa with
  | some v => HandshakeResult.env (some v)
  | none =>
    let c1 := recvInto c reply
    if c1.take 7 ≠ "Value: ".toList then HandshakeResult.exited
    else
      let value := cstr ((cutAtNewline c1).drop 7)
      match countPaths value.length value with
      | none => HandshakeResult.outOfFuel
      | some 0 => HandshakeResult.env none
      | some (_ + 1) =>
        match buildLibs value.length value with
        | none => HandshakeResult.outOfFuel
        | some bblibs => HandshakeResult.env (some bblibs)

/-- The reply `"Value: " p1:...:pn "\n"` followed by `tail`. -/
def libraryPathReply (paths : List (List Char)) (tail : List Char) : List Char :=
  "Value: ".toList ++ joinColon paths ++ '\n' :: tail

/-- A byte that may occur in a path of the list: not the separator, not the
newline that ends the value, not NUL. -/
def pathChar (ch : Char) : Bool := ch != ':' && ch != '\n' && ch != NUL

/-- The entries `s1, ..., sk` written as `:s1:s2...:sk`: what follows the
first entry in a colon-separated list. -/
def colonSegs : List (List Char) → List Char
  | [] => []
  | s :: rest => ':' :: s ++ colonSegs rest

/-! ## Procedure-address lookup (`glXGetProcAddress`)

The tables `redefined_names` and `redefined_fns` are generated by the
preprocessor from `glx-reimpl.def`, `glxext-reimpl.def` and
`glx-dpyredir.def`, which are not part of the sources at hand. The
embedding takes the list of names these files declare, in include order, and
the address of the function primus defines under each name. -/

/-- The test `memcmp(procName, "glX", 3)`: `true` when the result is
non-zero, that is when the first three bytes are not `g`, `l`, `X`. A name
shorter than three bytes differs at or before its terminating NUL. -/
def memcmpGlX (procName : String) : Bool :=
  procName.toList.take 3 != ['g', 'l', 'X']

/-- The loop `for (i = 0; i < n_redefined; i++) if (!strcmp(procName,
redefined_names[i])) return redefined_fns[i];` followed by `return NULL`,
started at the index where the two lists begin. -/
def scanRedefined : List String → List Nat → String → Nat
  | name :: names, fn :: fns, procName =>
      if procName = name then fn else scanRedefined names fns procName
  | _, _, _ => 0

/-- The array `redefined_names`: one string per declared prototype. -/
def redefined_names (protos : List String) : List String := protos

/-- The array `redefined_fns`: the primus function of each declared
prototype, in the same order. -/
def redefined_fns (primusFn : String → Nat) (protos : List String) : List Nat :=
  protos.map primusFn

/-- Source `glXGetProcAddress(procName)`. `aGetProc` is the A-side
`primus.afns.glXGetProcAddress`. -/
def glXGetProcAddress (protos : List String) (primusFn : String → Nat)
    (aGetProc : String → Nat) (procName : String) : Nat :=
  if memcmpGlX procName then
    aGetProc procName
  else
    scanRedefined (redefined_names protos) (redefined_fns primusFn protos) procName

/-- Source `glXGetProcAddressARB(procName)`. -/
def glXGetProcAddressARB (protos : List String) (primusFn : String → Nat)
    (aGetProc : String → Nat) (procName : String) : Nat :=
  glXGetProcAddress protos primusFn aGetProc procName

/-! ## Profiler (`class Profiler`)

The time fields of the profiler are of type `double`. The embedding leaves
the type of these values and the arithmetic on them open (`DoubleOps`): what
is proved about `tick` holds for whatever `+`, `-`, `*`, `/` and `<` do,
rounding included. The timestamp `tv_sec + 1e-9 * tv_nsec` read from
`clock_gettime(CLOCK_MONOTONIC)` is supplied by the caller. The array
`state_time` has `nstates` elements from the constructor on, so `nstates` is
the length of the list that stands for it. -/

/-- The operations of `double` that `Profiler` uses: conversion from `int`
(`nframes` and the constants 0, 5 and 100), the four arithmetic operations,
and `<`. -/
structure DoubleOps (D : Type) where
  ofInt : Int → D
  add : D → D → D
  sub : D → D → D
  mul : D → D → D
  div : D → D → D
  lt : D → D → Bool

/-- Exact arithmetic on rationals. It agrees with `double` where operands and
result are representable, as IEEE 754 operations are correctly rounded; it
serves to evaluate `tick` at such values. -/
def exactOps : DoubleOps ℚ :=
  { ofInt := fun i => (i : ℚ), add := fun a b => a + b, sub := fun a b => a - b,
    mul := fun a b => a * b, div := fun a b => a / b, lt := fun a b => decide (a < b) }

/-- Source `class Profiler`: the mutable fields (`name` and `state_names` are
not changed by `tick`). -/
structure Profiler (D : Type) where
  state : Nat
  state_time : List D
  prev_timestamp : D
  print_timestamp : D
  nframes : Int

/-- The field `nstates`: the number of elements of `state_time`. -/
def Profiler.nstates {D : Type} (p : Profiler D) : Nat := p.state_time.length

/-- Largest value of `int`. -/
def intMax : Int := 2147483647

/-- Size of the array `buf` of line 305. -/
def bufSize : Nat := 64

/-- The values formatted into the line of `primus_perf`: frames per second
and the percentage of the period spent in each state. -/
structure PerfLine (D : Type) where
  fps : D
  percent : List D

/-- How a call of `tick` ends: it returns, leaving the profiler `p` and
having printed `printed` (if anything), or its behaviour is undefined
(remainder by zero, an element outside `state_time`, overflow of `nframes`,
a write outside `buf`). -/
inductive TickEnd (D : Type) where
  | returned (p : Profiler D) (printed : Option (PerfLine D))
  | undefined

/-- Constructor `Profiler(name, state_names)` run at time `timestamp` with
`nstates` state names. -/
def Profiler.init {D : Type} (ops : DoubleOps D) (nstates : Nat) (timestamp : D) : Profiler D :=
  { state := 0, state_time := List.replicate nstates (ops.ofInt 0),
    prev_timestamp := timestamp, print_timestamp := timestamp, nframes := 0 }

/-- The statement `state_time[i] += d`, for `i` inside the array. -/
def creditState {D : Type} (ops : DoubleOps D) : List D → Nat → D → List D
  | [], _, _ => []
  | t :: ts, 0, d => ops.add t d :: ts
  | t :: ts, i + 1, d => t :: creditState ops ts i d

/-- The loop of lines 306 and 307 over the lengths of the texts to format,
`used` being `cbuf - buf`: `snprintf` is given the size `64 - used` and
returns the length of the whole text, so `cbuf` passes `end` once more than
64 characters have been asked for, and the next call writes outside `buf`
(`false`). -/
def fillBuf : List Nat → Nat → Bool
  | [], _ => true
  | n :: rest, used => if bufSize < used then false else fillBuf rest (used + n)

/-- Whether a call of `tick` goes on past line 303 to the report block of
lines 305 to 312: the negation of `state != 0 || period < 5` for the state
and the period computed by that call. -/
def Profiler.reports {D : Type} (ops : DoubleOps D) (p : Profiler D) (timestamp : D)
    (state_reset : Bool) : Bool :=
  let state0 := if state_reset then 0 else p.state
  let state1 := (state0 + 1) % p.nstates
  let period := ops.sub timestamp p.print_timestamp
  !(state1 != 0 || ops.lt period (ops.ofInt 5))

/-- Source `Profiler::tick(state_reset)` run at time `timestamp` with
`primus.loglevel = loglevel`. `textLen v i` is the number of characters
line 307 formats for the percentage `v` and the name of state `i`.
`primus_perf` prints when `loglevel >= 2`; lines 305 to 307 and 310 to 312
do not depend on it. -/
def Profiler.tick {D : Type} (ops : DoubleOps D) (textLen : D → Nat → Nat) (loglevel : Int)
    (p : Profiler D) (timestamp : D) (state_reset : Bool) : TickEnd D :=
  let state0 := if state_reset then 0 else p.state
  if p.nstates ≤ state0 then TickEnd.undefined      -- `state_time[state]` outside the array
  else
    let times := creditState ops p.state_time state0 (ops.sub timestamp p.prev_timestamp)
    let state1 := (state0 + 1) % p.nstates
    let nframes := p.nframes + (if state1 = 0 then 1 else 0)
    if state1 = 0 ∧ intMax ≤ p.nframes then TickEnd.undefined    -- `nframes += 1` overflows
    else
      let period := ops.sub timestamp p.print_timestamp
      if p.reports ops timestamp state_reset = false then
        TickEnd.returned
          { state := state1, state_time := times, prev_timestamp := timestamp,
            print_timestamp := p.print_timestamp, nframes := nframes } none
      else
        let percent := times.map (fun t => ops.div (ops.mul (ops.ofInt 100) t) period)
        if fillBuf (percent.enum.map (fun iv => textLen iv.2 iv.1)) 0 = false then
          TickEnd.undefined                          -- line 307 writes outside `buf`
        else
          TickEnd.returned
            { state := state1, state_time := List.replicate p.nstates (ops.ofInt 0),
              prev_timestamp := timestamp, print_timestamp := timestamp, nframes := 0 }
            (if 2 ≤ loglevel then some { fps := ops.div (ops.ofInt nframes) period,
                                         percent := percent }
             else none)

/-- A profiler with one state that has counted four frames in the four
seconds since its construction at time 0. -/
def fourFrames : Profiler ℚ :=
  { state := 0, state_time := [4], prev_timestamp := 4, print_timestamp := 0, nframes := 4 }

/-- A profiler with one state whose `nframes` is the largest `int`. -/
def fullFrames : Profiler ℚ :=
  { state := 0, state_time := [0], prev_timestamp := 0, print_timestamp := 0,
    nframes := intMax }

/-- Twelve characters for every state, as in `, 100.0% app`. -/
def twelveChars (_ : ℚ) (_ : Nat) : Nat := 12
/-! ## Drawable registry and the GLX entry points that maintain it

The application-thread code is embedded as functions on `PrimusState`. The
answers of the X server and of the A-side library are arguments (window
geometry, the current context, handles of created objects); the A-side
pbuffers are kept in a table that records the attributes each one was
created with, with handles that are never null and never reused. The two
worker threads appear through what they do to the shared `DrawableInfo`
while the application thread waits for them; their semaphores are part of
the pipeline model further down. -/

/-- Source `DrawableInfo::kind`. -/
inductive DrawableKind where
  | XWindow | Window | Pixmap | Pbuffer
deriving DecidableEq, Repr

/-- Source `DrawableInfo::ReinitTodo`. -/
inductive ReinitTodo where
  | NONE | RESIZE | SHUTDOWN
deriving DecidableEq, Repr

/-- The anonymous struct of `DrawableInfo::r` and `DrawableInfo::d`: the
thread handle (`0`: no worker) and the reinit request handed to the worker. -/
structure WorkerRec where
  worker : Nat
  reinit : ReinitTodo
deriving DecidableEq, Repr

/-- Source `struct DrawableInfo` (without `pixeldata` and `sync`). -/
structure DrawableInfo where
  kind : DrawableKind
  fbconfig : Nat
  pbuffer : Nat
  window : Nat
  width : Int
  height : Int
  reinit : ReinitTodo
  actx : Nat
  r : WorkerRec
  d : WorkerRec
deriving DecidableEq, Repr

/-- Value-initialised `DrawableInfo`, what `primus.drawables[k]` inserts for
a missing key. -/
def DrawableInfo.zero : DrawableInfo :=
  { kind := DrawableKind.XWindow, fbconfig := 0, pbuffer := 0, window := 0, width := 0,
    height := 0, reinit := ReinitTodo.NONE, actx := 0,
    r := ⟨0, ReinitTodo.NONE⟩, d := ⟨0, ReinitTodo.NONE⟩ }

/-- What an A-side pbuffer was created with: the fbconfig and the values of
`GLX_PBUFFER_WIDTH` and `GLX_PBUFFER_HEIGHT`. -/
structure PbufferAttrs where
  fbconfig : Nat
  width : Int
  height : Int
deriving DecidableEq, Repr

/-- The A-side library as far as pbuffers go: the live pbuffers with their
creation attributes and the next unused handle. -/
structure ASide where
  pbuffers : Registry PbufferAttrs
  next : Nat
deriving DecidableEq, Repr

/-- A-side `glXCreatePbuffer(adpy, fbconfig, {WIDTH, w, HEIGHT, h, ...})`. -/
def ASide.createPbuffer (a : ASide) (fbconfig : Nat) (w h : Int) : Nat × ASide :=
  (a.next, { pbuffers := Registry.set a.pbuffers a.next ⟨fbconfig, w, h⟩, next := a.next + 1 })

/-- A-side `glXDestroyPbuffer(adpy, pbuffer)`. -/
def ASide.destroyPbuffer (a : ASide) (pbuffer : Nat) : ASide :=
  { a with pbuffers := Registry.erase a.pbuffers pbuffer }

/-- The thread-local `tsdata` (without `dpy`). -/
structure TsData where
  drawable : Nat
  read_drawable : Nat
deriving DecidableEq, Repr

/-- Process-wide data of `primus` that the entry points below read and
write, the thread-local binding of the application thread, and the number
of worker threads created so far. -/
structure PrimusState where
  drawables : Registry DrawableInfo
  contexts : ContextsInfo
  tsdata : TsData
  aside : ASide
  nthreads : Nat
deriving DecidableEq, Repr

/-- The state at program start. -/
def PrimusState.init : PrimusState :=
  { drawables := [], contexts := ContextsInfo.empty, tsdata := ⟨0, 0⟩,
    aside := ⟨[], 1⟩, nthreads := 0 }

/-- Source `DrawableInfo::reap_workers`: with a readback worker present,
request SHUTDOWN, wait for the handshake (the readback worker copies the
request to `d.reinit`, both workers leave) and join both threads. -/
def DrawableInfo.reap_workers (di : DrawableInfo) : DrawableInfo :=
  if di.r.worker ≠ 0 then
    { di with r := ⟨0, ReinitTodo.SHUTDOWN⟩, d := ⟨0, ReinitTodo.SHUTDOWN⟩ }
  else di

/-- The two `spawn_worker` calls of `glXSwapBuffers`, display worker first;
`tid` is the number of threads created before. -/
def DrawableInfo.spawn_workers (di : DrawableInfo) (tid : Nat) : DrawableInfo :=
  { di with d := ⟨tid + 1, ReinitTodo.RESIZE⟩, r := ⟨tid + 2, ReinitTodo.RESIZE⟩ }

/-- Source `create_pbuffer(di)` followed by the assignment to `di.pbuffer`. -/
def create_pbuffer (a : ASide) (di : DrawableInfo) : DrawableInfo × ASide :=
  ({ di with pbuffer := (a.createPbuffer di.fbconfig di.width di.height).1 },
    (a.createPbuffer di.fbconfig di.width di.height).2)

/-- The display worker records one `ConfigureNotify` event:
`di.reinit = di.RESIZE; di.width = ...; di.height = ...;`. -/
def recordConfigure (di : DrawableInfo) (ev : Int × Int) : DrawableInfo :=
  { di with reinit := ReinitTodo.RESIZE, width := ev.1, height := ev.2 }

/-- What the workers do to the shared record while `glXSwapBuffers` waits on
`r.relsem`: a pending reinit request is passed to the display worker and
cleared by both (a SHUTDOWN request stays, the workers leave). -/
def serveSwap (di : DrawableInfo) : DrawableInfo :=
  match di.r.reinit with
  | ReinitTodo.NONE => di
  | ReinitTodo.RESIZE => { di with r := ⟨di.r.worker, ReinitTodo.NONE⟩,
                                   d := ⟨di.d.worker, ReinitTodo.NONE⟩ }
  | ReinitTodo.SHUTDOWN => { di with d := ⟨di.d.worker, ReinitTodo.SHUTDOWN⟩ }

/-- The block of `lookup_pbuffer` for an unknown drawable: a plain X window,
with the fbconfig of the context and the geometry of the window. -/
def rawWindowEntry (fbconfig draw : Nat) (geom : Int × Int) : DrawableInfo :=
  { DrawableInfo.zero with kind := DrawableKind.XWindow, fbconfig := fbconfig,
                           window := draw, width := geom.1, height := geom.2 }

/-- The block of `lookup_pbuffer` for a known drawable whose fbconfig differs
from the one of the context: with a pbuffer present the workers are reaped,
the pbuffer is destroyed and `di.pbuffer = 0`; the fbconfig is adopted. -/
def adoptFbconfig (a : ASide) (di : DrawableInfo) (fbconfig : Nat) : DrawableInfo × ASide :=
  if di.pbuffer ≠ 0 then
    ({ DrawableInfo.reap_workers di with pbuffer := 0, fbconfig := fbconfig },
      a.destroyPbuffer di.pbuffer)
  else ({ di with fbconfig := fbconfig }, a)

/-- The statement `if (!di.pbuffer) di.pbuffer = create_pbuffer(di);`. -/
def ensureBacking (p : DrawableInfo × ASide) : DrawableInfo × ASide :=
  if p.1.pbuffer = 0 then create_pbuffer p.2 p.1 else p

/-- The state after `lookup_pbuffer` wrote the entry of `draw`: `entries` is
the context registry after the subscripts, `made` the entry and the A-side. -/
def PrimusState.withEntry (s : PrimusState) (draw : Nat) (entries : Registry ContextInfo)
    (made : DrawableInfo × ASide) : PrimusState :=
  { s with drawables := Registry.set s.drawables draw made.1,
           contexts := { s.contexts with entries := entries },
           aside := made.2 }

/-- The part of `lookup_pbuffer` for a drawable whose entry `di` exists. -/
def lookupKnown (s : PrimusState) (draw ctx : Nat) (di : DrawableInfo) : PrimusState × Nat :=
  let acc := if ctx ≠ 0 then ContextsInfo.index s.contexts.entries ctx
             else (s.contexts.entries, ContextInfo.zero)
  let made := ensureBacking
    (if ctx ≠ 0 ∧ di.fbconfig ≠ acc.2.fbconfig then adoptFbconfig s.aside di acc.2.fbconfig
     else (di, s.aside))
  (s.withEntry draw acc.1 made, made.1.pbuffer)

/-- Source `lookup_pbuffer(dpy, draw, ctx)`; `geom` is what `note_geometry`
reports for `draw`. `none`: `assert(ctx)` fails. -/
def lookup_pbuffer (s : PrimusState) (geom : Int × Int) (draw ctx : Nat) :
    Option (PrimusState × Nat) :=
  if draw = 0 then some (s, 0)
  else
    match Registry.find s.drawables draw with
    | none =>
      if ctx = 0 then none
      else
        let acc := ContextsInfo.index s.contexts.entries ctx
        let made := create_pbuffer s.aside (rawWindowEntry acc.2.fbconfig draw geom)
        some (s.withEntry draw acc.1 made, made.1.pbuffer)
    | some di => some (lookupKnown s draw ctx di)

/-- Source `glXMakeCurrent(dpy, drawable, ctx)`. -/
def glXMakeCurrent (s : PrimusState) (geom : Int × Int) (drawable ctx : Nat) :
    Option PrimusState :=
  (lookup_pbuffer s geom drawable ctx).map
    (fun r => { r.1 with tsdata := ⟨drawable, drawable⟩ })

/-- Source `glXMakeContextCurrent(dpy, draw, read, ctx)`; `geomDraw` and
`geomRead` are the geometries of the two drawables. -/
def glXMakeContextCurrent (s : PrimusState) (geomDraw geomRead : Int × Int)
    (draw read ctx : Nat) : Option PrimusState :=
  if draw = read then glXMakeCurrent s geomDraw draw ctx
  else
    match lookup_pbuffer s geomDraw draw ctx with
    | none => none
    | some r1 =>
      (lookup_pbuffer r1.1 geomRead read ctx).map
        (fun r2 => { r2.1 with tsdata := ⟨draw, read⟩ })

/-- The share-group id that the expression `primus.contexts[x].sharegroup`
yields in registry `m`. -/
def sharegroupAt (m : Registry ContextInfo) (x : Nat) : Int :=
  (ContextsInfo.index m x).2.sharegroup

/-- The condition of line 609 of `glXSwapBuffers`:
`di.r.worker && di.actx && ctx && contexts[di.actx].sharegroup != contexts[ctx].sharegroup`. -/
def needsRespawn (m : Registry ContextInfo) (di : DrawableInfo) (ctx : Nat) : Bool :=
  di.r.worker ≠ 0 ∧ di.actx ≠ 0 ∧ ctx ≠ 0 ∧ sharegroupAt m di.actx ≠ sharegroupAt m ctx

/-- The registry after the condition of line 609 was evaluated: the two
subscripts are evaluated, and insert missing entries, only when the three
tests before them pass. -/
def contextsAfterCheck (m : Registry ContextInfo) (di : DrawableInfo) (ctx : Nat) :
    Registry ContextInfo :=
  if di.r.worker ≠ 0 ∧ di.actx ≠ 0 ∧ ctx ≠ 0 then
    (ContextsInfo.index (ContextsInfo.index m di.actx).1 ctx).1
  else m

/-- Lines 606 to 620 of `glXSwapBuffers`: respawn the workers after a change
of share group, spawn them when there are none. Returns the record and the
number of threads created so far. -/
def ensureWorkers (m : Registry ContextInfo) (di : DrawableInfo) (ctx tid : Nat) :
    DrawableInfo × Nat :=
  let di1 := if needsRespawn m di ctx then di.reap_workers else di
  if di1.r.worker = 0 then
    (DrawableInfo.spawn_workers { di1 with actx := ctx } tid, tid + 2)
  else (di1, tid)

/-- Source `glXSwapBuffers(dpy, drawable)` when the display worker records
no event while the application thread runs lines 625 to 634: that is every
call in sync modes 1 and 2, where the display worker has finished its
iteration before `r.relsem` is posted; for sync mode 0 see
`glXSwapBuffersRace`. `ctx` is what `glXGetCurrentContext()` returns, `evs`
are the `ConfigureNotify` events the display worker records while the
application thread waits on `r.relsem`, `geomDraw` and `geomRead` are the
geometries `note_geometry` would report for the thread's current drawables.
`none`: the `assert` fails. -/
def glXSwapBuffers (s : PrimusState) (ctx : Nat) (evs : List (Int × Int))
    (geomDraw geomRead : Int × Int) (drawable : Nat) : Option PrimusState :=
  match Registry.find s.drawables drawable with
  | none => none
  | some di =>
    if di.kind = DrawableKind.Pbuffer ∨ di.kind = DrawableKind.Pixmap then some s
    else
      let ensured := ensureWorkers s.contexts.entries di ctx s.nthreads
      let waited := evs.foldl recordConfigure (serveSwap ensured.1)
      let s1 : PrimusState :=
        { s with contexts := { s.contexts with
                    entries := contextsAfterCheck s.contexts.entries di ctx },
                 nthreads := ensured.2 }
      if waited.reinit = ReinitTodo.RESIZE then
        let made := create_pbuffer (s1.aside.destroyPbuffer waited.pbuffer) waited
        let s2 : PrimusState :=
          { s1 with drawables := Registry.set s1.drawables drawable made.1, aside := made.2 }
        let s3 : Option PrimusState :=
          if ctx ≠ 0 then
            glXMakeContextCurrent s2 geomDraw geomRead s2.tsdata.drawable
              s2.tsdata.read_drawable ctx
          else some s2
        match s3 with
        | none => none
        | some s3 =>
          match Registry.find s3.drawables drawable with
          | none => none
          | some di3 =>
            let done : DrawableInfo :=
              { di3 with r := ⟨di3.r.worker, di3.reinit⟩, reinit := ReinitTodo.NONE }
            some { s3 with drawables := Registry.set s3.drawables drawable done }
      else
        some { s1 with drawables := Registry.set s1.drawables drawable waited }

/-- Source `glXSwapBuffers(dpy, drawable)` in sync mode 0, where
`readback_work` posts `r.relsem` at line 448 and `display_work` runs on while
the application thread runs lines 625 to 634. `late` are the
`ConfigureNotify` events that line 376 records after the application thread
has made the new pbuffer current (line 632) and before it reads `di.reinit`
at line 633; the other arguments are those of `glXSwapBuffers`, which is this
function with no such event. -/
def glXSwapBuffersRace (s : PrimusState) (ctx : Nat) (evs late : List (Int × Int))
    (geomDraw geomRead : Int × Int) (drawable : Nat) : Option PrimusState :=
  match Registry.find s.drawables drawable with
  | none => none
  | some di =>
    if di.kind = DrawableKind.Pbuffer ∨ di.kind = DrawableKind.Pixmap then some s
    else
      let ensured := ensureWorkers s.contexts.entries di ctx s.nthreads
      let waited := evs.foldl recordConfigure (serveSwap ensured.1)
      let s1 : PrimusState :=
        { s with contexts := { s.contexts with
                    entries := contextsAfterCheck s.contexts.entries di ctx },
                 nthreads := ensured.2 }
      if waited.reinit = ReinitTodo.RESIZE then
        let made := create_pbuffer (s1.aside.destroyPbuffer waited.pbuffer) waited
        let s2 : PrimusState :=
          { s1 with drawables := Registry.set s1.drawables drawable made.1, aside := made.2 }
        let s3 : Option PrimusState :=
          if ctx ≠ 0 then
            glXMakeContextCurrent s2 geomDraw geomRead s2.tsdata.drawable
              s2.tsdata.read_drawable ctx
          else some s2
        match s3 with
        | none => none
        | some s3 =>
          match Registry.find s3.drawables drawable with
          | none => none
          | some di3 =>
            let raced := late.foldl recordConfigure di3
            let done : DrawableInfo :=
              { raced with r := ⟨raced.r.worker, raced.reinit⟩, reinit := ReinitTodo.NONE }
            some { s3 with drawables := Registry.set s3.drawables drawable done }
      else
        some { s1 with drawables := Registry.set s1.drawables drawable waited }

/-- Source `glXCreateContext` and `glXCreateNewContext` after the A-side
call returned `actx`: `primus.contexts.record(actx, config, shareList)`. -/
def glXCreateNewContext (s : PrimusState) (actx config shareList : Nat) : PrimusState :=
  { s with contexts := ContextsInfo.record s.contexts actx config shareList }

/-- Source `glXDestroyContext(dpy, ctx)`: erase the context, and reap the
workers of every drawable when the registry is empty afterwards. -/
def glXDestroyContext (s : PrimusState) (ctx : Nat) : PrimusState :=
  let entries := Registry.erase s.contexts.entries ctx
  let drawables :=
    if entries.isEmpty then Registry.mapVals s.drawables DrawableInfo.reap_workers
    else s.drawables
  { s with contexts := { s.contexts with entries := entries }, drawables := drawables }

/-- The common part of `glXCreateWindow`, `glXCreatePbuffer`,
`glXCreatePixmap` and `glXCreateGLXPixmap`: `primus.drawables[handle]` is
looked up (inserted when missing) and its kind, fbconfig, window and size
are assigned. `handle` is what the D-side returned. -/
def createDrawable (s : PrimusState) (kind : DrawableKind) (handle config win : Nat)
    (geom : Int × Int) : PrimusState :=
  let di := (Registry.find s.drawables handle).getD DrawableInfo.zero
  let di1 : DrawableInfo :=
    { di with kind := kind, fbconfig := config, window := win,
              width := geom.1, height := geom.2 }
  { s with drawables := Registry.set s.drawables handle di1 }

/-- Source `glXCreateWindow(dpy, config, win, attribList)`. -/
def glXCreateWindow (s : PrimusState) (glxwin config win : Nat) (geom : Int × Int) :
    PrimusState :=
  createDrawable s DrawableKind.Window glxwin config win geom

/-- Source `DrawableInfo::~DrawableInfo` run when the entry of `handle` is
erased (`glXDestroyWindow`, `glXDestroyPbuffer`, `glXDestroyPixmap`,
`glXDestroyGLXPixmap`): the workers are reaped and the backing pbuffer is
destroyed. `none`: the `assert` fails. -/
def destroyDrawable (s : PrimusState) (handle : Nat) : Option PrimusState :=
  match Registry.find s.drawables handle with
  | none => none
  | some di =>
    some { s with drawables := Registry.erase s.drawables handle,
                  aside := if di.pbuffer ≠ 0 then s.aside.destroyPbuffer di.pbuffer
                           else s.aside }

/-- Source `glXQueryDrawable`, as far as the state goes:
`lookup_pbuffer(dpy, draw, NULL)` for a known drawable. -/
def glXQueryDrawable (s : PrimusState) (geom : Int × Int) (draw : Nat) : Option PrimusState :=
  if Registry.known s.drawables draw then (lookup_pbuffer s geom draw 0).map (fun r => r.1)
  else none

/-- The display worker of `drawable` records a `ConfigureNotify` event while
the application thread is not inside a call. `none`: no display worker. -/
def configureNotify (s : PrimusState) (drawable : Nat) (ev : Int × Int) : Option PrimusState :=
  match Registry.find s.drawables drawable with
  | none => none
  | some di =>
    if di.d.worker ≠ 0 then
      some { s with drawables := Registry.set s.drawables drawable (recordConfigure di ev) }
    else none

/-- One step of the program as seen from the registries: a call of an entry
point by the application thread, or an event recorded by a display worker.
The D-side hands out a handle that names no registered drawable. -/
inductive Step : PrimusState → PrimusState → Prop where
  | createContext (s : PrimusState) (actx config shareList : Nat) :
      Step s (glXCreateNewContext s actx config shareList)
  | destroyContext (s : PrimusState) (ctx : Nat) :
      Step s (glXDestroyContext s ctx)
  | createDrawable (s : PrimusState) (kind : DrawableKind) (handle config win : Nat)
      (geom : Int × Int) (hkind : kind ≠ DrawableKind.XWindow)
      (hfresh : Registry.find s.drawables handle = none) :
      Step s (createDrawable s kind handle config win geom)
  | destroyDrawable (s s' : PrimusState) (handle : Nat)
      (h : destroyDrawable s handle = some s') : Step s s'
  | makeCurrent (s s' : PrimusState) (geom : Int × Int) (drawable ctx : Nat)
      (h : glXMakeCurrent s geom drawable ctx = some s') : Step s s'
  | makeContextCurrent (s s' : PrimusState) (geomDraw geomRead : Int × Int)
      (draw read ctx : Nat)
      (h : glXMakeContextCurrent s geomDraw geomRead draw read ctx = some s') : Step s s'
  | swapBuffers (s s' : PrimusState) (ctx : Nat) (evs : List (Int × Int))
      (geomDraw geomRead : Int × Int) (drawable : Nat)
      (h : glXSwapBuffers s ctx evs geomDraw geomRead drawable = some s') : Step s s'
  | queryDrawable (s s' : PrimusState) (geom : Int × Int) (draw : Nat)
      (h : glXQueryDrawable s geom draw = some s') : Step s s'
  | configure (s s' : PrimusState) (drawable : Nat) (ev : Int × Int)
      (h : configureNotify s drawable ev = some s') : Step s s'

/-- The states the program can be in between two steps. -/
inductive Reachable : PrimusState → Prop where
  | init : Reachable PrimusState.init
  | step (s s' : PrimusState) (hs : Reachable s) (h : Step s s') : Reachable s'

/-- The pbuffer that backs `di` is live on the A-side and was created with
the fbconfig of `di`; its size is the size of `di` unless a resize is
pending. Both workers exist or none, and `di.reinit` is NONE or RESIZE. -/
structure EntryOk (a : ASide) (di : DrawableInfo) : Prop where
  paired : di.r.worker = 0 ↔ di.d.worker = 0
  noShutdown : di.reinit ≠ ReinitTodo.SHUTDOWN
  backed : di.pbuffer ≠ 0 → di.pbuffer < a.next ∧
    ∃ pa, Registry.find a.pbuffers di.pbuffer = some pa ∧ pa.fbconfig = di.fbconfig ∧
      (di.reinit = ReinitTodo.RESIZE ∨ (pa.width = di.width ∧ pa.height = di.height))

/-- Invariant of the registries. -/
structure StateOk (s : PrimusState) : Prop where
  entries : ∀ k di, Registry.find s.drawables k = some di → EntryOk s.aside di
  distinct : ∀ k1 k2 d1 d2, Registry.find s.drawables k1 = some d1 →
    Registry.find s.drawables k2 = some d2 → d1.pbuffer ≠ 0 → d1.pbuffer = d2.pbuffer → k1 = k2
  nonnull : 1 ≤ s.aside.next
  threads : ∀ k di, Registry.find s.drawables k = some di →
    di.r.worker ≤ s.nthreads ∧ di.d.worker ≤ s.nthreads

/-- Kinds that are shown in a window of the D-side. -/
def DrawableKind.isWindow (k : DrawableKind) : Bool :=
  k = DrawableKind.XWindow ∨ k = DrawableKind.Window

/-- The entry is backed by a live A-side pbuffer created with its fbconfig
and its current width and height. -/
def Backed (a : ASide) (di : DrawableInfo) : Prop :=
  di.pbuffer ≠ 0 ∧ ∃ pa, Registry.find a.pbuffers di.pbuffer = some pa ∧
    pa.fbconfig = di.fbconfig ∧ pa.width = di.width ∧ pa.height = di.height

/-- What `lookup_pbuffer` leaves alone in an entry: everything but the
fbconfig, the pbuffer and the worker records. -/
def SameShape (di di' : DrawableInfo) : Prop :=
  di'.kind = di.kind ∧ di'.window = di.window ∧ di'.width = di.width ∧
    di'.height = di.height ∧ di'.reinit = di.reinit ∧ di'.actx = di.actx

/-- What a call of `lookup_pbuffer` with context `ctx` keeps: the invariant,
the entries (their shape, their backing, and their workers and fbconfig
unless the fbconfig differs from the one of `ctx`), the threads, and what
the context registry holds for `ctx`. -/
structure Kept (s s' : PrimusState) (ctx : Nat) : Prop where
  ok : StateOk s'
  next : s.aside.next ≤ s'.aside.next
  nthreads : s'.nthreads = s.nthreads
  entries : ∀ j dj, Registry.find s.drawables j = some dj →
    ∃ dj', Registry.find s'.drawables j = some dj' ∧ SameShape dj dj' ∧
      (Backed s.aside dj → Backed s'.aside dj') ∧
      ((ctx = 0 ∨ dj.fbconfig = (ContextsInfo.index s.contexts.entries ctx).2.fbconfig) →
        dj'.r = dj.r ∧ dj'.d = dj.d ∧ dj'.fbconfig = dj.fbconfig) ∧
      (dj.pbuffer ≠ 0 → dj'.pbuffer ≠ 0)
  context : ctx ≠ 0 → (ContextsInfo.index s'.contexts.entries ctx).2 =
    (ContextsInfo.index s.contexts.entries ctx).2

/-- The shared record when the wait of `glXSwapBuffers` on `r.relsem` ends:
after lines 606 to 620, the service of the workers and the events `evs`. -/
def swapWaited (s : PrimusState) (di : DrawableInfo) (ctx : Nat) (evs : List (Int × Int)) :
    DrawableInfo :=
  evs.foldl recordConfigure (serveSwap (ensureWorkers s.contexts.entries di ctx s.nthreads).1)

/-- The state of `glXSwapBuffers` after the first two statements of the
resize branch: the pbuffer of `drawable` is destroyed and created anew with
the size found at the end of the wait. -/
def swapResized (s : PrimusState) (di : DrawableInfo) (ctx : Nat) (evs : List (Int × Int))
    (drawable : Nat) : PrimusState :=
  { s with
    contexts := { s.contexts with entries := contextsAfterCheck s.contexts.entries di ctx }
    nthreads := (ensureWorkers s.contexts.entries di ctx s.nthreads).2
    drawables := Registry.set s.drawables drawable
      (create_pbuffer (s.aside.destroyPbuffer (swapWaited s di ctx evs).pbuffer)
        (swapWaited s di ctx evs)).1
    aside := (create_pbuffer (s.aside.destroyPbuffer (swapWaited s di ctx evs).pbuffer)
        (swapWaited s di ctx evs)).2 }

/-- The last two statements of the resize branch of `glXSwapBuffers`:
`di.r.reinit = di.reinit; di.reinit = di.NONE;`. -/
def passReinit (di : DrawableInfo) : DrawableInfo :=
  { di with r := ⟨di.r.worker, di.reinit⟩, reinit := ReinitTodo.NONE }

/-- Every entry that has a pbuffer in `s` and is still registered in `s'` has
a pbuffer in `s'`. -/
def StaysBacked (s s' : PrimusState) : Prop :=
  ∀ j dj dj', Registry.find s.drawables j = some dj → Registry.find s'.drawables j = some dj' →
    dj.pbuffer ≠ 0 → dj'.pbuffer ≠ 0

/-! ### Two concrete runs

Context `1` has fbconfig `6` and share group `0`, context `2` has fbconfig
`5` and share group `1`; the GLX window `100` has fbconfig `5`. -/

/-- Two contexts and one window are created. -/
def runStart : PrimusState :=
  createDrawable (glXCreateNewContext (glXCreateNewContext PrimusState.init 1 6 0) 2 5 0)
    DrawableKind.Window 100 5 50 (320, 200)

/-- The window is made current with context `2`. -/
def runCurrent : PrimusState :=
  (glXMakeCurrent runStart (320, 200) 100 2).getD runStart

/-- First run: the binding is released (`glXMakeCurrent(dpy, None, NULL)`). -/
def runReleased : PrimusState :=
  (glXMakeCurrent runCurrent (0, 0) 0 0).getD runCurrent

/-- First run: buffers are swapped with no current context; the workers are
spawned with a null `actx`. -/
def runSwappedNoContext : PrimusState :=
  (glXSwapBuffers runReleased 0 [] (0, 0) (0, 0) 100).getD runReleased

/-- First run: the window is made current with context `2` again. -/
def runCurrentAgain : PrimusState :=
  (glXMakeCurrent runSwappedNoContext (320, 200) 100 2).getD runSwappedNoContext

/-- Second run: buffers are swapped with context `2` current. -/
def runSwapped : PrimusState :=
  (glXSwapBuffers runCurrent 2 [] (320, 200) (320, 200) 100).getD runCurrent

/-- Second run: the display worker records a resize to 640 by 480. -/
def runResized : PrimusState :=
  (configureNotify runSwapped 100 (640, 480)).getD runSwapped

/-- Second run: context `2` is destroyed while it is current; context `1`
stays in the registry. -/
def runOrphaned : PrimusState := glXDestroyContext runResized 2

/-! ## The worker pipeline of one drawable

The application thread, `readback_work` and `display_work` are three
sequential programs that share the `DrawableInfo` of the drawable and its
four semaphores. The embedding is an interleaving model: a state holds the
shared variables and one program point per thread, and a step runs one
thread from its program point up to and including its next access to a
semaphore or a shared variable. Program points of the workers are named
after the source line of that access. GL and X calls that touch no shared
variable are part of the step they precede. Memory is sequentially
consistent; `clock_gettime` is not modelled, a timed wait may give up
whenever the semaphore is zero. `exit(1)` (line 420) runs the destructors of
the static `primus` on the thread that calls it: `~DrawableInfo` calls
`reap_workers` there, and the other threads run on until the process has
terminated. -/

/-- Where `DrawableInfo::reap_workers` returns to. -/
inductive AppCont where
  | toIdle     -- called from `glXDestroyContext`, `lookup_pbuffer` or the destructor
  | toSpawn    -- called at line 612 of `glXSwapBuffers`
  | toPass     -- called by `lookup_pbuffer` inside the resize branch of `glXSwapBuffers`
deriving DecidableEq, Repr

/-- Program points of the application thread. -/
inductive AppPc where
  | idle                          -- outside `glXSwapBuffers` and `reap_workers`
  | swapEnter                     -- `glXSwapBuffers`, line 609
  | reapPost (k : AppCont)        -- `reap_workers`, lines 119 and 120
  | reapWait (k : AppCont)        -- line 121, `sem_wait(&r.relsem)`
  | reapJoinR (k : AppCont)       -- line 122, `pthread_join` of the readback worker
  | reapJoinD (k : AppCont)       -- line 123, `pthread_join` of the display worker
  | swapSpawn                     -- line 614
  | swapPost                      -- lines 622 and 623, `sem_post(&di.r.acqsem)`
  | swapWait                      -- line 624, `sem_wait(&di.r.relsem)`
  | swapTail                      -- lines 625 to 627, the test `di.reinit == di.RESIZE`
  | swapResize                    -- lines 629 to 632
  | swapPass                      -- line 633, `di.r.reinit = di.reinit`
  | swapClear                     -- line 634, `di.reinit = di.NONE`
deriving DecidableEq, Repr

/-- Program points of `readback_work`, by source line. `x119`, `x121` and
`x122` are the lines 119 to 120, 121 and 122 to 123 of `reap_workers` when
it runs on the readback thread, called by `~DrawableInfo` from the `exit(1)`
of line 420. -/
inductive RbPc where
  | r398 | r408 | r410 | r415 | r418 | r422 | r423 | r424 | r425 | r427 | r434 | r437
  | r447 | r455 | r459 | r463 | r464 | done | x119 | x121 | x122
deriving DecidableEq, Repr

/-- Program points of `display_work`, by source line. -/
inductive DpPc where
  | d342 | d344 | d352 | d355 | d363 | d366 | d370 | d379 | d381 | done
deriving DecidableEq, Repr

/-- The shared variables and the program points. `rWorker` says whether
`di.r.worker` is set, `cancelled` whether `pthread_cancel(di.d.worker)` was
called, `aborted` whether the process has terminated (`exit(1)` has run the
destructors to their end). -/
structure PipeCtl where
  sync : Nat
  racq : Nat
  rrel : Nat
  dacq : Nat
  drel : Nat
  rReinit : ReinitTodo
  dReinit : ReinitTodo
  reinit : ReinitTodo
  rWorker : Bool
  cancelled : Bool
  aborted : Bool
  app : AppPc
  rb : RbPc
  dp : DpPc
deriving DecidableEq, Repr

/-- A successor of a state: the state, the number of presentations made by
the step (calls of the D-side `glXSwapBuffers` in `display_work`) and the
number of calls of `glXSwapBuffers` by the application that the step
completes. -/
abbrev PipeMove := PipeCtl × Nat × Nat

/-- A step that presents nothing and completes no call. -/
def silent (c : PipeCtl) : PipeMove := (c, 0, 0)

/-- The program point after `reap_workers` returns. -/
def AppCont.resume : AppCont → AppPc
  | AppCont.toIdle => AppPc.idle
  | AppCont.toSpawn => AppPc.swapSpawn
  | AppCont.toPass => AppPc.swapPass

/-- Steps of the application thread. Whether the share group changed (line
609) and whether `lookup_pbuffer` finds another fbconfig (line 632) depends
on the registries: both answers are possible when workers exist. -/
def appSteps (c : PipeCtl) : List PipeMove :=
  match c.app with
  | AppPc.idle =>
      silent { c with app := AppPc.swapEnter } ::
        (if c.rWorker then [silent { c with app := AppPc.reapPost AppCont.toIdle }] else [])
  | AppPc.swapEnter =>
      silent { c with app := AppPc.swapSpawn } ::
        (if c.rWorker then [silent { c with app := AppPc.reapPost AppCont.toSpawn }] else [])
  | AppPc.reapPost k =>
      [silent { c with rReinit := ReinitTodo.SHUTDOWN, racq := c.racq + 1,
                       app := AppPc.reapWait k }]
  | AppPc.reapWait k =>
      if 0 < c.rrel then [silent { c with rrel := c.rrel - 1, app := AppPc.reapJoinR k }]
      else []
  | AppPc.reapJoinR k =>
      if c.rb = RbPc.done then [silent { c with app := AppPc.reapJoinD k }] else []
  | AppPc.reapJoinD k =>
      if c.dp = DpPc.done then [silent { c with rWorker := false, app := k.resume }] else []
  | AppPc.swapSpawn =>
      if c.rWorker then [silent { c with app := AppPc.swapPost }]
      else
        [silent { c with rWorker := true, cancelled := false,
                         dReinit := ReinitTodo.RESIZE, dacq := 0, drel := 0, dp := DpPc.d342,
                         rReinit := ReinitTodo.RESIZE, racq := 0, rrel := 0, rb := RbPc.r398,
                         app := AppPc.swapPost }]
  | AppPc.swapPost => [silent { c with racq := c.racq + 1, app := AppPc.swapWait }]
  | AppPc.swapWait =>
      if 0 < c.rrel then [silent { c with rrel := c.rrel - 1, app := AppPc.swapTail }]
      else []
  | AppPc.swapTail =>
      if c.reinit = ReinitTodo.RESIZE then [silent { c with app := AppPc.swapResize }]
      else [({ c with app := AppPc.idle }, 0, 1)]
  | AppPc.swapResize =>
      silent { c with app := AppPc.swapPass } ::
        (if c.rWorker then [silent { c with app := AppPc.reapPost AppCont.toPass }] else [])
  | AppPc.swapPass => [silent { c with rReinit := c.reinit, app := AppPc.swapClear }]
  | AppPc.swapClear => [({ c with reinit := ReinitTodo.NONE, app := AppPc.idle }, 0, 1)]

/-- Steps of `readback_work`. -/
def rbSteps (c : PipeCtl) : List PipeMove :=
  match c.rb with
  | RbPc.r398 =>
      [silent { c with drel := if c.sync = 0 then c.drel + 1 else c.drel, rb := RbPc.r408 }]
  | RbPc.r408 =>
      if 0 < c.racq then [silent { c with racq := c.racq - 1, rb := RbPc.r410 }] else []
  | RbPc.r410 =>
      if c.rReinit ≠ ReinitTodo.NONE then [silent { c with rb := RbPc.r415 }]
      else [silent { c with rb := RbPc.r447 }]
  | RbPc.r415 =>
      if c.sync ≠ 0 then [silent { c with rb := RbPc.r422 }]
      else if 0 < c.drel then [silent { c with drel := c.drel - 1, rb := RbPc.r422 }]
      else [silent { c with cancelled := true, rb := RbPc.r418 }]
  | RbPc.r418 =>
      if c.rReinit ≠ ReinitTodo.SHUTDOWN then
        [silent { c with drel := c.drel + 1, rb := RbPc.x119 }]     -- `die_if`: `exit(1)`
      else [silent { c with drel := c.drel + 1, rb := RbPc.r422 }]
  | RbPc.r422 => [silent { c with dReinit := c.rReinit, rb := RbPc.r423 }]
  | RbPc.r423 => [silent { c with dacq := c.dacq + 1, rb := RbPc.r424 }]
  | RbPc.r424 =>
      if 0 < c.drel then [silent { c with drel := c.drel - 1, rb := RbPc.r425 }] else []
  | RbPc.r425 =>
      [silent { c with drel := if c.sync = 0 then c.drel + 1 else c.drel, rb := RbPc.r427 }]
  | RbPc.r427 =>
      if c.rReinit = ReinitTodo.SHUTDOWN then [silent { c with rb := RbPc.r434 }]
      else [silent { c with rb := RbPc.r437 }]
  | RbPc.r434 => [silent { c with rrel := c.rrel + 1, rb := RbPc.done }]
  | RbPc.r437 => [silent { c with rReinit := ReinitTodo.NONE, rb := RbPc.r447 }]
  | RbPc.r447 =>
      [silent { c with rrel := if c.sync = 0 then c.rrel + 1 else c.rrel, rb := RbPc.r455 }]
  | RbPc.r455 =>
      if c.sync ≠ 0 then [silent { c with rb := RbPc.r459 }]
      else if 0 < c.drel then [silent { c with drel := c.drel - 1, rb := RbPc.r459 }]
      else [silent { c with rb := RbPc.r408 }]
  | RbPc.r459 =>
      [silent { c with dacq := c.dacq + 1,
                       rb := if c.sync ≠ 0 then RbPc.r463 else RbPc.r408 }]
  | RbPc.r463 =>
      if 0 < c.drel then [silent { c with drel := c.drel - 1, rb := RbPc.r464 }] else []
  | RbPc.r464 => [silent { c with rrel := c.rrel + 1, rb := RbPc.r408 }]
  | RbPc.done => []
  | RbPc.x119 =>
      if c.rWorker then
        [silent { c with rReinit := ReinitTodo.SHUTDOWN, racq := c.racq + 1, rb := RbPc.x121 }]
      else [silent { c with aborted := true }]
  | RbPc.x121 =>
      if 0 < c.rrel then [silent { c with rrel := c.rrel - 1, rb := RbPc.x122 }] else []
  | RbPc.x122 =>
      if c.dp = DpPc.done then [silent { c with rWorker := false, aborted := true }] else []

/-- Steps of `display_work`; a cancelled thread may also end where it is. -/
def dpSteps (c : PipeCtl) : List PipeMove :=
  (if c.cancelled ∧ c.dp ≠ DpPc.done then [silent { c with dp := DpPc.done }] else []) ++
  match c.dp with
  | DpPc.d342 =>
      if 0 < c.dacq then [silent { c with dacq := c.dacq - 1, dp := DpPc.d344 }] else []
  | DpPc.d344 =>
      match c.dReinit with
      | ReinitTodo.SHUTDOWN => [silent { c with dp := DpPc.d352 }]
      | ReinitTodo.RESIZE => [silent { c with dp := DpPc.d355 }]
      | ReinitTodo.NONE => [silent { c with dp := DpPc.d366 }]
  | DpPc.d352 => [silent { c with drel := c.drel + 1, dp := DpPc.done }]
  | DpPc.d355 => [silent { c with dReinit := ReinitTodo.NONE, dp := DpPc.d363 }]
  | DpPc.d363 => [silent { c with drel := c.drel + 1, dp := DpPc.d342 }]
  | DpPc.d366 =>
      [silent { c with drel := if c.sync = 0 then c.drel + 1 else c.drel, dp := DpPc.d370 }]
  | DpPc.d370 =>
      [silent { c with dp := DpPc.d379 },
       silent { c with reinit := ReinitTodo.RESIZE, dp := DpPc.d379 }]
  | DpPc.d379 => [({ c with dp := DpPc.d381 }, 1, 0)]
  | DpPc.d381 =>
      [silent { c with drel := if c.sync ≠ 0 then c.drel + 1 else c.drel, dp := DpPc.d342 }]
  | DpPc.done => []

/-- All successors of a state: one step of one thread. Nothing runs once the
process has terminated. -/
def pipeMoves (c : PipeCtl) : List PipeMove :=
  if c.aborted then [] else appSteps c ++ rbSteps c ++ dpSteps c

/-- A state of the pipeline with the two counters of the claim: the number of
presentations made by `display_work` and the number of completed calls of
`glXSwapBuffers` by the application. -/
structure Pipe where
  ctl : PipeCtl
  presented : Nat
  swapsDone : Nat
deriving DecidableEq, Repr

/-- The successors of a state with counters. -/
def Pipe.steps (p : Pipe) : List Pipe :=
  (pipeMoves p.ctl).map (fun m => ⟨m.1, p.presented + m.2.1, p.swapsDone + m.2.2⟩)

/-- The start: no worker, the application outside every call. -/
def Pipe.init (sync : Nat) : Pipe :=
  { ctl := { sync := sync, racq := 0, rrel := 0, dacq := 0, drel := 0,
             rReinit := ReinitTodo.NONE, dReinit := ReinitTodo.NONE,
             reinit := ReinitTodo.NONE, rWorker := false, cancelled := false,
             aborted := false, app := AppPc.idle, rb := RbPc.done, dp := DpPc.done },
    presented := 0, swapsDone := 0 }

/-- The states the pipeline reaches from `p0`. -/
inductive PipeReachable (p0 : Pipe) : Pipe → Prop where
  | start : PipeReachable p0 p0
  | step (p q : Pipe) (hp : PipeReachable p0 p) (hq : q ∈ p.steps) : PipeReachable p0 q

/-- The application thread is outside `glXSwapBuffers`: idle, or inside a
`reap_workers` that was not called from `glXSwapBuffers`. -/
def AppPc.outsideSwap : AppPc → Bool
  | AppPc.idle => true
  | AppPc.reapPost AppCont.toIdle => true
  | AppPc.reapWait AppCont.toIdle => true
  | AppPc.reapJoinR AppCont.toIdle => true
  | AppPc.reapJoinD AppCont.toIdle => true
  | _ => false

/-- One round of the search: the successors of the states in `frontier`
that are not in `table` yet are added to both. An entry pairs a state with
the number of presentations that are ahead of the completed calls. -/
def exploreRound (table frontier : List (PipeCtl × Nat)) :
    List (PipeCtl × Nat) × List (PipeCtl × Nat) :=
  frontier.foldl
    (fun acc e =>
      (pipeMoves e.1).foldl
        (fun acc2 m =>
          if acc2.1.contains (m.1, e.2 + m.2.1 - m.2.2) then acc2
          else ((m.1, e.2 + m.2.1 - m.2.2) :: acc2.1, (m.1, e.2 + m.2.1 - m.2.2) :: acc2.2))
        acc)
    (table, [])

/-- Breadth-first search from `frontier`, at most `fuel` rounds. -/
def explore : Nat → List (PipeCtl × Nat) → List (PipeCtl × Nat) → List (PipeCtl × Nat)
  | 0, table, _ => table
  | fuel + 1, table, frontier =>
      if (exploreRound table frontier).2.isEmpty then (exploreRound table frontier).1
      else explore fuel (exploreRound table frontier).1 (exploreRound table frontier).2

/-- The states found by the search from the start in sync mode 2. -/
def pipeTable : List (PipeCtl × Nat) :=
  explore 200 [((Pipe.init 2).ctl, 0)] [((Pipe.init 2).ctl, 0)]

/-- The table is closed: every successor of an entry is an entry, with the
lead of the presentations changed by what the step presents and completes. -/
def tableClosed (t : List (PipeCtl × Nat)) : Bool :=
  t.all (fun e => (pipeMoves e.1).all (fun m =>
    t.any (fun e' => e'.1 == m.1 && e.2 + m.2.1 == e'.2 + m.2.2)))

/-- In every entry where the application is outside `glXSwapBuffers` the
presentations are not ahead. -/
def tableBalanced (t : List (PipeCtl × Nat)) : Bool :=
  t.all (fun e => !e.1.app.outsideSwap || e.2 == 0)

/-- Invariant of the pipeline in sync mode 2: the state is in the table, and
the presentations lead the completed calls by what the table says. -/
def PipeInv (p : Pipe) : Prop :=
  ∃ e, e ∈ pipeTable ∧ e.1 = p.ctl ∧ p.presented = p.swapsDone + e.2

/-- Follow a schedule: at each state take the successor with the given
index, and stay when there is none. -/
def runSchedule : List Nat → Pipe → Pipe
  | [], p => p
  | i :: rest, p => runSchedule rest ((p.steps.get? i).getD p)

/-! ## The worker threads, statement by statement

`readback_work` and `display_work` as the sequence of statements a thread
executes, in source order. What a worker reads from the shared record (the
reinit request, the size of the window) and the outcome of each timed wait
are arguments; a blocking wait is taken to return, except the one the
thread ends up in after `exit(1)`. The GL state that the
readback worker builds up (its two pixel-pack buffers) is kept in a record
that each statement transforms; a GL call does what the GL specification
says for a call that succeeds. -/

/-- The four semaphores of a drawable: `di.r.acqsem`, `di.r.relsem`,
`di.d.acqsem`, `di.d.relsem`. -/
inductive Sem where
  | rAcq | rRel | dAcq | dRel
deriving DecidableEq, Repr

/-- The operands `pbos[cbuf]` and `pbos[cbuf ^ 1]` (`textures[ctex]` and
`textures[ctex ^ 1]` in the display worker). -/
inductive Sel where
  | cur | other
deriving DecidableEq, Repr

/-- The statements of `readback_work`, and the statements of `reap_workers`
and `glXSwapBuffers` that act on the worker: the store to `di.r.reinit` that
precedes a post of `di.r.acqsem`, and the post and the wait of
`reap_workers` when `exit(1)` runs it on the readback thread. -/
inductive RbOp where
  | setRReinit (v : ReinitTodo)   -- `di.r.reinit = v`, line 119 or line 633
  | semPost (s : Sem)
  | semWait (s : Sem)
  | semTimedWait (s : Sem) (timedOut : Bool)
  | semStuck (s : Sem)            -- a `sem_wait` that no thread answers
  | tick (state_reset : Bool)
  | glXCreateNewContext
  | glXMakeCurrent
  | glGenBuffers
  | glReadBuffer
  | pthread_cancel
  | primus_warn
  | exit1                         -- `die_if` with a true condition: `exit(1)` is called
  | storeDReinit                  -- `di.d.reinit = di.r.reinit`
  | clearRReinit                  -- `di.r.reinit = di.NONE`
  | loadSize (w h : Int)          -- `width = di.width; height = di.height`
  | glBindBuffer (sel : Sel)
  | glBufferData                  -- size `width*height*4`
  | glWaitSync
  | glReadPixels                  -- `(0, 0, width, height, ..., NULL)`
  | glMapBuffer                   -- `GLvoid *pixeldata = glMapBuffer(...)`
  | storePixeldata                -- `di.pixeldata = pixeldata`
  | flipCbuf                      -- `cbuf ^= 1`
  | glUnmapBuffer
  | glDeleteBuffers
  | glXDestroyContext
deriving DecidableEq, Repr

/-- How the application wakes the readback worker: from `glXSwapBuffers`
(line 623) with `di.r.reinit` as the worker left it, from `glXSwapBuffers`
after the previous call passed a resize on (line 633), or from
`reap_workers` (lines 119 and 120). -/
inductive AppSignal where
  | swap | resized | reap
deriving DecidableEq, Repr

/-- The store to `di.r.reinit` that comes with a signal. -/
def AppSignal.ops : AppSignal → List RbOp
  | AppSignal.swap => []
  | AppSignal.resized => [RbOp.setRReinit ReinitTodo.RESIZE]
  | AppSignal.reap => [RbOp.setRReinit ReinitTodo.SHUTDOWN]

/-- One wake-up of the readback worker: the signal, the values of `di.width`
and `di.height` that line 438 reads, and whether the timed waits of lines
415 and 455 give up. -/
structure Wake where
  signal : AppSignal
  diWidth : Int
  diHeight : Int
  late415 : Bool
  late455 : Bool
deriving DecidableEq, Repr

/-- How a piece of a worker ends: the loop goes on, the thread returns, or
`exit(1)` was called (`exitReap` says where that leaves the thread). -/
inductive WorkEnd where
  | again | returned | exited
deriving DecidableEq, Repr

/-- What `exit(1)` does when the readback thread calls it: the destructors of
the static `primus` run on that thread, `~DrawableInfo` calls `reap_workers`,
and with `r.worker` set that is `r.reinit = SHUTDOWN; sem_post(&r.acqsem);
sem_wait(&r.relsem);` (lines 119 to 121). Only the readback thread posts
`r.relsem`, so the wait does not return and the process does not end. -/
def exitReap : List RbOp :=
  [RbOp.setRReinit ReinitTodo.SHUTDOWN, RbOp.semPost Sem.rAcq, RbOp.semStuck Sem.rRel]

/-- Lines 437 to 443 of `readback_work`: the RESIZE reinit. -/
def resizeBlock (w : Wake) : List RbOp :=
  [RbOp.clearRReinit, RbOp.loadSize w.diWidth w.diHeight, RbOp.glXMakeCurrent,
   RbOp.glBindBuffer Sel.other, RbOp.glBufferData,
   RbOp.glBindBuffer Sel.cur, RbOp.glBufferData]

/-- Lines 415 to 419 of `readback_work`: in sync mode 0 the worker waits for
the display worker for up to a second, and cancels it when that fails. -/
def readback_waitD (sync : Int) (w : Wake) : List RbOp :=
  if sync = 0 then
    if w.late415 = true then
      [RbOp.semTimedWait Sem.dRel true, RbOp.pthread_cancel, RbOp.semPost Sem.dRel,
       RbOp.primus_warn]
    else [RbOp.semTimedWait Sem.dRel false]
  else []

/-- Lines 415 to 426 of `readback_work` when line 420 does not exit: the
reinit request is passed on to the display worker. -/
def readback_pass (sync : Int) (w : Wake) : List RbOp :=
  readback_waitD sync w ++ [RbOp.storeDReinit, RbOp.semPost Sem.dAcq, RbOp.semWait Sem.dRel] ++
    (if sync = 0 then [RbOp.semPost Sem.dRel] else [])

/-- Lines 412 to 443 of `readback_work`, the body of `if (di.r.reinit)`. -/
def readback_reinit (sync : Int) (reinit : ReinitTodo) (w : Wake) : List RbOp × WorkEnd :=
  if sync = 0 ∧ w.late415 = true ∧ reinit ≠ ReinitTodo.SHUTDOWN then
    (readback_waitD sync w ++ [RbOp.exit1] ++ exitReap, WorkEnd.exited)
  else if reinit = ReinitTodo.SHUTDOWN then
    (readback_pass sync w ++
      [RbOp.glBindBuffer Sel.other, RbOp.glUnmapBuffer, RbOp.glDeleteBuffers,
       RbOp.glXMakeCurrent, RbOp.glXDestroyContext, RbOp.semPost Sem.rRel],
     WorkEnd.returned)
  else (readback_pass sync w ++ resizeBlock w, WorkEnd.again)

/-- Lines 445 to 470 of `readback_work`: one frame. -/
def readback_frame (sync : Int) (w : Wake) : List RbOp :=
  [RbOp.glWaitSync, RbOp.glReadPixels] ++
    (if sync = 0 then [RbOp.semPost Sem.rRel] else []) ++
    (if sync = 1 then [RbOp.glBindBuffer Sel.other] else []) ++
    [RbOp.glMapBuffer, RbOp.tick false] ++
    (if sync = 0 ∧ w.late455 = true then
      [RbOp.semTimedWait Sem.dRel true, RbOp.primus_warn]
     else
      (if sync = 0 then [RbOp.semTimedWait Sem.dRel false] else []) ++
        [RbOp.storePixeldata, RbOp.semPost Sem.dAcq] ++
        (if sync ≠ 0 then [RbOp.semWait Sem.dRel, RbOp.semPost Sem.rRel] else []) ++
        [RbOp.flipCbuf, RbOp.glBindBuffer Sel.cur]) ++
    [RbOp.glUnmapBuffer, RbOp.tick false]

/-- One iteration of the loop of `readback_work` (lines 408 to 470) when
`di.r.reinit` holds `reinit`. -/
def readback_iteration (sync : Int) (reinit : ReinitTodo) (w : Wake) : List RbOp × WorkEnd :=
  if reinit ≠ ReinitTodo.NONE then
    match (readback_reinit sync reinit w).2 with
    | WorkEnd.again =>
      ([RbOp.semWait Sem.rAcq, RbOp.tick true] ++ (readback_reinit sync reinit w).1 ++
        readback_frame sync w, WorkEnd.again)
    | e => ([RbOp.semWait Sem.rAcq, RbOp.tick true] ++ (readback_reinit sync reinit w).1, e)
  else ([RbOp.semWait Sem.rAcq, RbOp.tick true] ++ readback_frame sync w, WorkEnd.again)

/-- What the readback worker works on: `di.r.reinit`, `di.d.reinit` and
`di.pixeldata` of the shared record, its locals `width`, `height`, `cbuf`
and `pixeldata`, and its GL state: the buffer bound to
`GL_PIXEL_PACK_BUFFER_EXT` and the size and the mapping of `pbos[0]` and
`pbos[1]`. Buffers are named by their index in `pbos`. `sizeLoads` counts
the executions of line 438. -/
structure RbState where
  rReinit : ReinitTodo
  dReinit : ReinitTodo
  diPixeldata : Option Nat
  width : Int
  height : Int
  cbuf : Nat
  pixeldata : Option Nat
  bound : Option Nat
  size0 : Int
  size1 : Int
  mapped0 : Bool
  mapped1 : Bool
  sizeLoads : Nat
deriving DecidableEq, Repr

/-- The index in `pbos` that an operand selects. -/
def RbState.pbo (st : RbState) : Sel → Nat
  | Sel.cur => st.cbuf
  | Sel.other => st.cbuf ^^^ 1

/-- The allocated size of `pbos[i]`. -/
def RbState.size (st : RbState) (i : Nat) : Int := if i = 0 then st.size0 else st.size1

/-- Whether `pbos[i]` is mapped. -/
def RbState.mapped (st : RbState) (i : Nat) : Bool := if i = 0 then st.mapped0 else st.mapped1

/-- The expression `width*height*4` of lines 441 and 443, an `int`. -/
def RbState.bytes (st : RbState) : Int := wrapInt32 (st.width * st.height * 4)

/-- Set the mapping flag of `pbos[i]`. -/
def RbState.setMapped (st : RbState) (i : Nat) (b : Bool) : RbState :=
  if i = 0 then { st with mapped0 := b } else { st with mapped1 := b }

/-- A new data store of `n` bytes for `pbos[i]`; an old mapping ends. -/
def RbState.alloc (st : RbState) (i : Nat) (n : Int) : RbState :=
  if i = 0 then { st with size0 := n, mapped0 := false }
  else { st with size1 := n, mapped1 := false }

/-- The effect of one statement. `glBufferData` gives the bound buffer a new
data store, `glMapBuffer` and `glUnmapBuffer` map and unmap the bound
buffer, `glDeleteBuffers` ends bindings and mappings (the thread returns
right after it); statements that touch none of the fields leave the state
as it is. -/
def RbOp.exec (op : RbOp) (st : RbState) : RbState :=
  match op with
  | RbOp.setRReinit v => { st with rReinit := v }
  | RbOp.storeDReinit => { st with dReinit := st.rReinit }
  | RbOp.clearRReinit => { st with rReinit := ReinitTodo.NONE }
  | RbOp.loadSize w h => { st with width := w, height := h, sizeLoads := st.sizeLoads + 1 }
  | RbOp.glBindBuffer sel => { st with bound := some (st.pbo sel) }
  | RbOp.glBufferData =>
    match st.bound with
    | some i => st.alloc i st.bytes
    | none => st
  | RbOp.glMapBuffer =>
    match st.bound with
    | some i => { st.setMapped i true with pixeldata := some i }
    | none => { st with pixeldata := none }
  | RbOp.storePixeldata => { st with diPixeldata := st.pixeldata }
  | RbOp.flipCbuf => { st with cbuf := st.cbuf ^^^ 1 }
  | RbOp.glUnmapBuffer =>
    match st.bound with
    | some i => st.setMapped i false
    | none => st
  | RbOp.glDeleteBuffers => { st with bound := none, mapped0 := false, mapped1 := false }
  | _ => st

/-- The effect of a sequence of statements. -/
def RbOp.run : List RbOp → RbState → RbState
  | [], st => st
  | op :: ops, st => RbOp.run ops (op.exec st)

/-- The worker when its thread starts: `spawn_worker` has stored RESIZE in
both reinit requests, `cbuf` is `0`, no buffer has a data store, and the
locals `width` and `height` hold whatever the stack held. -/
def RbState.start (w0 h0 : Int) : RbState :=
  { rReinit := ReinitTodo.RESIZE, dReinit := ReinitTodo.RESIZE, diPixeldata := none,
    width := w0, height := h0, cbuf := 0, pixeldata := none, bound := none,
    size0 := 0, size1 := 0, mapped0 := false, mapped1 := false, sizeLoads := 0 }

/-- One wake-up of the worker at the head of its loop: the store of the
application that comes with the signal, then one iteration with the value
that `di.r.reinit` holds after that store. -/
def readback_wake (sync : Int) (w : Wake) (st : RbState) : List RbOp × WorkEnd :=
  (w.signal.ops ++ (readback_iteration sync (RbOp.run w.signal.ops st).rReinit w).1,
   (readback_iteration sync (RbOp.run w.signal.ops st).rReinit w).2)

/-- The loop of `readback_work` over a sequence of wake-ups: the statements
executed, and the state at the head of the loop when the thread is still
running after the last wake-up (it then waits on `di.r.acqsem`). -/
def readback_loop (sync : Int) : List Wake → RbState → List RbOp × Option RbState
  | [], st => ([], some st)
  | w :: ws, st =>
    match (readback_wake sync w st).2 with
    | WorkEnd.again =>
      ((readback_wake sync w st).1 ++
        (readback_loop sync ws (RbOp.run (readback_wake sync w st).1 st)).1,
       (readback_loop sync ws (RbOp.run (readback_wake sync w st).1 st)).2)
    | _ => ((readback_wake sync w st).1, none)

/-- Lines 398 to 405 of `readback_work`; `direct` is the answer of
`glXIsDirect`. -/
def readback_prologue (sync : Int) (direct : Bool) : List RbOp × WorkEnd :=
  if direct then
    ((if sync = 0 then [RbOp.semPost Sem.dRel] else []) ++
      [RbOp.glXCreateNewContext, RbOp.glXMakeCurrent, RbOp.glGenBuffers, RbOp.glReadBuffer],
     WorkEnd.again)
  else
    ((if sync = 0 then [RbOp.semPost Sem.dRel] else []) ++
      [RbOp.glXCreateNewContext, RbOp.exit1] ++ exitReap, WorkEnd.exited)

/-- Source `readback_work`: the statements the thread executes when it is
woken as `wakes` says. -/
def readback_work (sync : Int) (direct : Bool) (w0 h0 : Int) (wakes : List Wake) :
    List RbOp :=
  match (readback_prologue sync direct).2 with
  | WorkEnd.again =>
    (readback_prologue sync direct).1 ++
      (readback_loop sync wakes
        (RbOp.run (readback_prologue sync direct).1 (RbState.start w0 h0))).1
  | _ => (readback_prologue sync direct).1

/-- The statements of `display_work`. -/
inductive DpOp where
  | semPost (s : Sem)
  | semWait (s : Sem)
  | tick (state_reset : Bool)
  | glDeleteTextures
  | glXMakeCurrent
  | glXDestroyContext
  | XCloseDisplay
  | clearDReinit                  -- `di.d.reinit = di.NONE`
  | loadSize (w h : Int)          -- lines 356 and 357
  | glViewport
  | glBindTexture (sel : Sel)
  | glTexImage2D
  | glTexSubImage2D               -- the upload of `di.pixeldata`
  | XPending
  | XNextEvent
  | storeResize (w h : Int)       -- line 376
  | glDrawArrays
  | glXSwapBuffers                -- the presentation
  | flipCtex                      -- `ctex ^= 1` inside line 380
deriving DecidableEq, Repr

/-- The loop of lines 370 to 377; an event is `some (w, h)` for a
`ConfigureNotify` with that size and `none` for any other type. -/
def drainEvents : List (Option (Int × Int)) → List DpOp
  | [] => []
  | none :: rest => DpOp.XNextEvent :: drainEvents rest
  | some ev :: rest => DpOp.XNextEvent :: DpOp.storeResize ev.1 ev.2 :: drainEvents rest

/-- One iteration of the loop of `display_work` (lines 342 to 383) when
`di.d.reinit` holds `reinit`, `di.width` and `di.height` hold `size`, and
`events` are pending on the connection. -/
def display_iteration (sync : Int) (reinit : ReinitTodo) (size : Int × Int)
    (events : List (Option (Int × Int))) : List DpOp × WorkEnd :=
  match reinit with
  | ReinitTodo.SHUTDOWN =>
    ([DpOp.semWait Sem.dAcq, DpOp.tick true, DpOp.glDeleteTextures, DpOp.glXMakeCurrent,
      DpOp.glXDestroyContext, DpOp.XCloseDisplay, DpOp.semPost Sem.dRel], WorkEnd.returned)
  | ReinitTodo.RESIZE =>
    ([DpOp.semWait Sem.dAcq, DpOp.tick true, DpOp.clearDReinit, DpOp.loadSize size.1 size.2,
      DpOp.glViewport, DpOp.glBindTexture Sel.other, DpOp.glTexImage2D,
      DpOp.glBindTexture Sel.cur, DpOp.glTexImage2D, DpOp.semPost Sem.dRel], WorkEnd.again)
  | ReinitTodo.NONE =>
    ([DpOp.semWait Sem.dAcq, DpOp.tick true, DpOp.glTexSubImage2D] ++
      (if sync = 0 then [DpOp.semPost Sem.dRel] else []) ++
      [DpOp.tick false, DpOp.XPending] ++ drainEvents events ++
      [DpOp.glDrawArrays, DpOp.glXSwapBuffers, DpOp.flipCtex, DpOp.glBindTexture Sel.cur] ++
      (if sync ≠ 0 then [DpOp.semPost Sem.dRel] else []) ++
      [DpOp.tick false], WorkEnd.again)

/-- Both pixel-pack buffers have a data store of `width*height*4` bytes for
the current `width` and `height`, and line 438 has run. -/
def Sized (st : RbState) : Prop :=
  1 ≤ st.sizeLoads ∧ st.size 0 = st.bytes ∧ st.size 1 = st.bytes

/-- The statements `glReadPixels` and `glMapBuffer`. -/
def RbOp.isRead : RbOp → Bool
  | RbOp.glReadPixels => true
  | RbOp.glMapBuffer => true
  | _ => false

/-- The statements that give a buffer a data store or assign `width` and
`height`. -/
def RbOp.isAlloc : RbOp → Bool
  | RbOp.glBufferData => true
  | RbOp.loadSize _ _ => true
  | _ => false

/-- The buffers are `Sized` whenever a `glReadPixels` or a `glMapBuffer` of
the sequence is executed. -/
def AtReads : List RbOp → RbState → Prop
  | [], _ => True
  | op :: ops, st => (op.isRead = true → Sized st) ∧ AtReads ops (op.exec st)

/-- The state of the worker at the head of its loop, as far as the buffers
go: `cbuf` is an index, a RESIZE request is pending as long as line 438 has
not run, and the buffers are `Sized` from then on. -/
def LoopInv (st : RbState) : Prop :=
  st.cbuf < 2 ∧ (st.sizeLoads = 0 → st.rReinit ≠ ReinitTodo.NONE) ∧
    (1 ≤ st.sizeLoads → Sized st)

/-- The state in which the first statement `op` of a sequence is executed. -/
def RbOp.stateAt (op : RbOp) : List RbOp → RbState → Option RbState
  | [], _ => none
  | o :: ops, st => if o = op then some st else RbOp.stateAt op ops (o.exec st)

/-- The state of the worker at the head of its loop in sync mode 1: `cbuf`
is an index, no buffer is mapped, and either no request is pending and
`pbos[cbuf]` is bound, or the RESIZE request of `spawn_worker` is pending. -/
def LagInv (st : RbState) : Prop :=
  st.cbuf < 2 ∧ st.mapped0 = false ∧ st.mapped1 = false ∧
    ((st.rReinit = ReinitTodo.NONE ∧ st.bound = some st.cbuf) ∨
      st.rReinit = ReinitTodo.RESIZE)

/-! ## The posts of `di.r.relsem` in the pipeline -/

/-- What the readback worker owes at a program point: `1` when it has
consumed a post of `di.r.acqsem` and has not posted `di.r.relsem` since,
`0` otherwise. In sync mode 0 the post is at line 448, in the other modes at
line 464; on a shutdown it is at line 434. In `reap_workers` called from
`exit(1)` the thread has posted `di.r.acqsem` itself (`x121`): that post
stands where its answer stood, and no thread is left to consume it. -/
def RbPc.owes (sync : Nat) : RbPc → Nat
  | RbPc.r398 => 0
  | RbPc.r408 => 0
  | RbPc.done => 0
  | RbPc.x121 => 0
  | RbPc.r455 => if sync = 0 then 0 else 1
  | RbPc.r459 => if sync = 0 then 0 else 1
  | _ => 1

/-- What the application waits for: `1` between its post of `di.r.acqsem`
and the return of its wait on `di.r.relsem` (lines 623 to 624 and 120 to
121), `0` otherwise. -/
def AppPc.waiting : AppPc → Nat
  | AppPc.swapWait => 1
  | AppPc.reapWait _ => 1
  | _ => 0

/-- Every post of `di.r.acqsem` that the application waits on is answered
once: the posts not yet consumed, the answer the worker owes and the posts
of `di.r.relsem` not yet consumed add up to what the application waits
for. -/
def Matched (c : PipeCtl) : Prop :=
  c.racq + c.rb.owes c.sync + c.rrel = c.app.waiting

/-- A schedule of sync mode 0 that ends in `exit(1)` on the readback thread:
the workers are spawned and serve the first call of `glXSwapBuffers`, a
resize is recorded and passed on by the second call, and in the third call
the timed wait of line 415 gives up. -/
def hangSchedule : List Nat :=
  [0, 0, 0, 1, 0, 0, 0, 0, 0, 0, 0, 0, 0, 0, 0, 0, 0, 0, 0, 0, 0, 0, 0, 1, 0, 1, 0, 1, 0, 1,
   0, 1, 0, 3, 0, 0, 0, 0, 0, 0, 0, 0, 1, 0, 0, 0, 0, 0, 0, 0, 0]

/-- A schedule of sync mode 0 that brings the display worker to the loop of
lines 370 to 377 while the application thread stands before line 634: the
workers are spawned and serve the first call of `glXSwapBuffers`; during the
second call the
display worker records a resize, the application thread finds it at line 627
and runs lines 629 to 633 while the display worker presents the first frame
and takes up the second. -/
def raceSchedule : List Nat :=
  [0, 0, 0, 1, 0, 0, 0, 0, 0, 0, 0, 0, 0, 0, 0, 0, 0, 0, 0, 0, 0, 0, 0, 1, 0, 1, 0, 1, 0, 1,
   0, 1, 0, 3, 0, 0, 2, 3, 2, 2, 2, 0, 1, 0, 1]

/-! ## Visuals for fbconfigs

`glXGetVisualFromFBConfig` and `match_visual`. The attribute array `attrs`
is a list of `int`; `None` is `0`. The D-side library is a pair of
functions: `glXChooseVisual` from the array to a visual (`0`: `NULL`) and
`glXGetConfig` from a visual and an attribute name to the value it writes.
The A-side `glXGetFBConfigAttrib` of the fbconfig is a function from the
attribute name to the value it writes. The names of `<GL/glx.h>` are a
parameter. -/

/-- The attribute names that `glXGetVisualFromFBConfig` puts in its array,
in the order of the array. -/
structure GlxNames where
  rgba : Int
  doublebuffer : Int
  red_size : Int
  green_size : Int
  blue_size : Int
  alpha_size : Int
  depth_size : Int
  stencil_size : Int
  sample_buffers : Int
  samples : Int
deriving DecidableEq, Repr

/-- The values of `<GL/glx.h>`. -/
def GlxNames.glx : GlxNames :=
  { rgba := 4, doublebuffer := 5, red_size := 8, green_size := 9, blue_size := 10,
    alpha_size := 11, depth_size := 12, stencil_size := 13, sample_buffers := 100000,
    samples := 100001 }

/-- The D-side library: `glXChooseVisual(ddpy, 0, attrs)` and
`glXGetConfig(ddpy, vis, attrib, &value)`. -/
structure DSide where
  chooseVisual : List Int → Nat
  getConfig : Nat → Int → Int

/-- The initialiser of `attrs` in `glXGetVisualFromFBConfig`. -/
def initialAttrs (g : GlxNames) : List Int :=
  [g.rgba, g.doublebuffer, g.red_size, 0, g.green_size, 0, g.blue_size, 0,
   g.alpha_size, 0, g.depth_size, 0, g.stencil_size, 0, g.sample_buffers, 0, g.samples, 0, 0]

/-- The loop of `match_visual` from index `i`:
`for (; attrs[i] != None && vis; i += 2) { tmp = attrs[i+1];
glXGetConfig(ddpy, vis, attrs[i], &attrs[i+1]); if (tmp != attrs[i+1]) vis
= NULL; }`. -/
def matchLoop (d : DSide) : Nat → Nat → List Int → Nat → List Int × Nat
  | 0, _, attrs, vis => (attrs, vis)
  | fuel + 1, i, attrs, vis =>
    if attrs.getD i 0 ≠ 0 ∧ vis ≠ 0 then
      matchLoop d fuel (i + 2) (attrs.set (i + 1) (d.getConfig vis (attrs.getD i 0)))
        (if attrs.getD (i + 1) 0 ≠ d.getConfig vis (attrs.getD i 0) then 0 else vis)
    else (attrs, vis)

/-- Source `match_visual(attrs)`: the array as the call leaves it, and the
visual returned. -/
def match_visual (d : DSide) (attrs : List Int) : List Int × Nat :=
  matchLoop d attrs.length 2 attrs (d.chooseVisual attrs)

/-- The loop `for (i = 2; attrs[i] != None; i += 2)
glXGetFBConfigAttrib(adpy, config, attrs[i], &attrs[i+1]);`: the array and
the final `i`. -/
def fillLoop (aAttrib : Int → Int) : Nat → Nat → List Int → List Int × Nat
  | 0, i, attrs => (attrs, i)
  | fuel + 1, i, attrs =>
    if attrs.getD i 0 ≠ 0 then
      fillLoop aAttrib fuel (i + 2) (attrs.set (i + 1) (aAttrib (attrs.getD i 0)))
    else (attrs, i)

/-- The loop `for (i -= 2; i >= 0 && !vis; i -= 2) { vis =
match_visual(attrs); attrs[i] = None; }` from index `i`: the visual, and the
arrays that were passed to `match_visual`, in order. -/
def stripLoop (d : DSide) : Nat → Int → List Int → Nat → List (List Int) →
    Nat × List (List Int)
  | 0, _, _, vis, tried => (vis, tried)
  | fuel + 1, i, attrs, vis, tried =>
    if 0 ≤ i ∧ vis = 0 then
      stripLoop d fuel (i - 2) ((match_visual d attrs).1.set i.toNat 0)
        (match_visual d attrs).2 (tried ++ [attrs])
    else (vis, tried)

/-- Source `glXGetVisualFromFBConfig(dpy, config)`: the visual returned and
the arrays passed to `match_visual`. `aVisual` is what the A-side
`glXGetVisualFromFBConfig` returns for `config`. -/
def glXGetVisualFromFBConfig (g : GlxNames) (aVisual : Nat) (aAttrib : Int → Int)
    (d : DSide) : Nat × List (List Int) :=
  if aVisual = 0 then (0, [])
  else
    stripLoop d (initialAttrs g).length
      ((fillLoop aAttrib (initialAttrs g).length 2 (initialAttrs g)).2 - 2 : Int)
      (fillLoop aAttrib (initialAttrs g).length 2 (initialAttrs g)).1 0 []

/-- An fbconfig of the A-side: 8 bits of red, green and blue, no alpha, 24
bits of depth, 8 of stencil, no multisampling. -/
def fbconfigDepth24 (attrib : Int) : Int :=
  if attrib = 8 ∨ attrib = 9 ∨ attrib = 10 ∨ attrib = 13 then 8
  else if attrib = 12 then 24 else 0

/-- The values of the one visual of a D-side: as `fbconfigDepth24`, with 32
bits of depth. -/
def visualDepth32 (attrib : Int) : Int :=
  if attrib = 8 ∨ attrib = 9 ∨ attrib = 10 ∨ attrib = 13 then 8
  else if attrib = 12 then 32 else 0

/-- Whether the values `vals` meet the sizes asked for in the array from
index `i` on, up to the first `None`: each at least the size asked for. -/
def meetsSizes (vals : Int → Int) : Nat → Nat → List Int → Bool
  | 0, _, _ => true
  | fuel + 1, i, attrs =>
    if attrs.getD i 0 = 0 then true
    else decide (attrs.getD (i + 1) 0 ≤ vals (attrs.getD i 0)) &&
      meetsSizes vals fuel (i + 2) attrs

/-- A D-side with the single visual `33` of `visualDepth32`;
`glXChooseVisual` returns it when it meets the sizes asked for. -/
def dsideDepth32 : DSide :=
  { chooseVisual := fun attrs =>
      if meetsSizes visualDepth32 attrs.length 2 attrs = true then 33 else 0
    getConfig := fun _ attrib => visualDepth32 attrib }

/-- A D-side where `glXChooseVisual` finds no visual at all. -/
def dsideEmpty : DSide :=
  { chooseVisual := fun _ => 0, getConfig := fun _ _ => 0 }

/-- The visual `vis` has, for every attribute name of the array from index
`i` up to the first `None`, exactly the value that follows the name. -/
def exactFrom (d : DSide) (vis : Nat) : Nat → Nat → List Int → Prop
  | 0, _, _ => True
  | fuel + 1, i, attrs =>
    attrs.getD i 0 = 0 ∨
      (d.getConfig vis (attrs.getD i 0) = attrs.getD (i + 1) 0 ∧
        exactFrom d vis fuel (i + 2) attrs)

/-! ## Registry lemmas -/

theorem Registry.erase_cons {α : Type} (m : Registry α) (k k' : Nat) (v : α) :
    Registry.erase ((k', v) :: m) k =
      if k' = k then Registry.erase m k else (k', v) :: Registry.erase m k := by
  by_cases h : k' = k <;> simp [Registry.erase, List.filter_cons, h]

theorem Registry.find_cons {α : Type} (m : Registry α) (k k' : Nat) (v : α) :
    Registry.find ((k', v) :: m) k = if k' = k then some v else Registry.find m k := rfl

theorem Registry.find_erase_self {α : Type} (m : Registry α) (k : Nat) :
    Registry.find (Registry.erase m k) k = none := by
  induction m with
  | nil => rfl
  | cons e rest ih =>
    obtain ⟨k', v⟩ := e
    rw [Registry.erase_cons]
    by_cases h : k' = k
    · simp [h, ih]
    · simp [h, ih, Registry.find_cons]

theorem Registry.find_erase_ne {α : Type} (m : Registry α) (k j : Nat) (h : j ≠ k) :
    Registry.find (Registry.erase m k) j = Registry.find m j := by
  induction m with
  | nil => rfl
  | cons e rest ih =>
    obtain ⟨k', v⟩ := e
    rw [Registry.erase_cons]
    by_cases h' : k' = k
    · have hkj : ¬ k = j := fun e => h e.symm
      subst h'
      simp [ih, Registry.find_cons, hkj]
    · by_cases h'' : k' = j
      · subst h''
        simp [h, Registry.find_cons]
      · simp [h', Registry.find_cons, h'', ih]

theorem Registry.find_set_self {α : Type} (m : Registry α) (k : Nat) (v : α) :
    Registry.find (Registry.set m k v) k = some v := by
  simp [Registry.set, Registry.find]

theorem Registry.find_set_ne {α : Type} (m : Registry α) (k j : Nat) (v : α) (h : j ≠ k) :
    Registry.find (Registry.set m k v) j = Registry.find m j := by
  have : k ≠ j := fun e => h e.symm
  simp [Registry.set, Registry.find, this, Registry.find_erase_ne m k j h]

theorem Registry.find_set {α : Type} (m : Registry α) (k j : Nat) (v : α) :
    Registry.find (Registry.set m k v) j = if j = k then some v else Registry.find m j := by
  by_cases h : j = k
  · subst h; simp [Registry.find_set_self]
  · simp [h, Registry.find_set_ne m k j v h]

theorem Registry.find_mapVals {α : Type} (m : Registry α) (f : α → α) (k : Nat) :
    Registry.find (Registry.mapVals m f) k = (Registry.find m k).map f := by
  induction m with
  | nil => rfl
  | cons e rest ih =>
    obtain ⟨k', v⟩ := e
    by_cases h : k' = k
    · simp [Registry.mapVals, Registry.find, h]
    · simpa [Registry.mapVals, Registry.find, h] using ih

theorem Registry.find_erase {α : Type} (m : Registry α) (k j : Nat) :
    Registry.find (Registry.erase m k) j = if j = k then none else Registry.find m j := by
  by_cases h : j = k
  · subst h; simp [Registry.find_erase_self]
  · simp [h, Registry.find_erase_ne m k j h]

/-! ## Library path loader -/

theorem cutAtColon_append_colon (e rest : List Char) (he : ':' ∉ e) :
    cutAtColon (e ++ ':' :: rest) = (e, some rest) := by
  induction e with
  | nil => simp [cutAtColon]
  | cons ch es ih =>
    have hch : ch ≠ ':' := fun h => he (h ▸ List.mem_cons_self _ _)
    have hes : ':' ∉ es := fun h => he (List.mem_cons_of_mem _ h)
    simp [cutAtColon, hch, ih hes]

theorem cutAtColon_no_colon (e : List Char) (he : ':' ∉ e) :
    cutAtColon e = (e, none) := by
  induction e with
  | nil => simp [cutAtColon]
  | cons ch es ih =>
    have hch : ch ≠ ':' := fun h => he (h ▸ List.mem_cons_self _ _)
    have hes : ':' ∉ es := fun h => he (List.mem_cons_of_mem _ h)
    simp [cutAtColon, hch, ih hes]

theorem joinColon_cons_cons (e e' : List Char) (rest : List (List Char)) :
    joinColon (e :: e' :: rest) = e ++ ':' :: joinColon (e' :: rest) := rfl

theorem joinColon_length_cons_cons (e e' : List Char) (rest : List (List Char)) :
    (joinColon (e :: e' :: rest)).length = e.length + 1 + (joinColon (e' :: rest)).length := by
  simp [joinColon_cons_cons]
  omega

theorem mdlopenLoop_eq_loadFirst (dlopen : List Char → Option Nat)
    (dlerrorLen : List Char → Nat) :
    ∀ (entries : List (List Char)) (fuel used : Nat), entries ≠ [] →
      (∀ e, e ∈ entries → ':' ∉ e) → (joinColon entries).length < fuel →
      used + errorBytes dlerrorLen entries ≤ errorsSize →
      mdlopenLoop dlopen dlerrorLen fuel used (joinColon entries) =
        some (loadFirst dlopen entries) := by
  intro entries
  induction entries with
  | nil => intro fuel used h; exact absurd rfl h
  | cons e rest ih =>
    intro fuel used _ hcolon hfuel hfit
    have he : ':' ∉ e := hcolon e (List.mem_cons_self _ _)
    have hused : ¬ errorsSize < used := by
      simp only [errorBytes, List.map_cons, List.sum_cons] at hfit
      omega
    cases fuel with
    | zero => omega
    | succ fuel =>
      cases rest with
      | nil =>
        simp only [joinColon, mdlopenLoop, cutAtColon_no_colon e he, loadFirst, isAbsolute]
        by_cases habs : e.head? = some '/'
        · cases hd : dlopen e <;> simp [habs, hd, hused]
        · simp [habs]
      | cons e' rest' =>
        rw [joinColon_cons_cons]
        rw [joinColon_length_cons_cons] at hfuel
        have hrec := ih fuel (used + (dlerrorLen e + 1)) (List.cons_ne_nil _ _)
          (fun x hx => hcolon x (List.mem_cons_of_mem _ hx)) (by omega)
          (by
            simp only [errorBytes, List.map_cons, List.sum_cons] at hfit ⊢
            omega)
        simp only [mdlopenLoop, cutAtColon_append_colon e _ he, loadFirst, isAbsolute]
        by_cases habs : e.head? = some '/'
        · cases hd : dlopen e with
          | none => simp [habs, hd, hused, hrec, loadFirst, isAbsolute]
          | some h => simp [habs, hd]
        · simp [habs]

/-- While the error text of all entries fits in `errors`, `mdlopen` is the
loader of the specification. -/
theorem mdlopen_eq_loadFirst (dlopen : List Char → Option Nat) (dlerrorLen : List Char → Nat)
    (entries : List (List Char)) (hne : entries ≠ []) (hcolon : ∀ e, e ∈ entries → ':' ∉ e)
    (hfit : errorBytes dlerrorLen entries ≤ errorsSize) :
    mdlopen dlopen dlerrorLen (joinColon entries) = some (loadFirst dlopen entries) :=
  mdlopenLoop_eq_loadFirst dlopen dlerrorLen entries _ 0 hne hcolon (Nat.lt_succ_self _)
    (by omega)

theorem loadFirst_attempts_absolute (dlopen : List Char → Option Nat) :
    ∀ entries p, p ∈ (loadFirst dlopen entries).attempts → isAbsolute p = true := by
  intro entries
  induction entries with
  | nil => intro p h; simp [loadFirst] at h
  | cons e rest ih =>
    intro p h
    by_cases habs : isAbsolute e = false
    · simp [loadFirst, habs] at h
    · have habs' : isAbsolute e = true := by simpa using habs
      cases hd : dlopen e with
      | some handle =>
        simp [loadFirst, habs', hd] at h
        rw [h]; exact habs'
      | none =>
        simp [loadFirst, habs', hd] at h
        rcases h with h | h
        · rw [h]; exact habs'
        · exact ih p h

theorem loadFirst_attempts_in_order (dlopen : List Char → Option Nat) :
    ∀ entries, (loadFirst dlopen entries).attempts <+: entries := by
  intro entries
  induction entries with
  | nil => simp [loadFirst]
  | cons e rest ih =>
    by_cases habs : isAbsolute e = false
    · simp [loadFirst, habs]
    · have habs' : isAbsolute e = true := by simpa using habs
      cases hd : dlopen e with
      | some handle =>
        simp only [loadFirst, habs', hd]
        exact ⟨rest, rfl⟩
      | none =>
        simp only [loadFirst, habs', hd]
        exact (List.prefix_cons_inj e).2 ih

theorem loadFirst_loaded (dlopen : List Char → Option Nat) :
    ∀ entries handle, (loadFirst dlopen entries).outcome = LoadOutcome.loaded handle →
      ∃ pre e, (loadFirst dlopen entries).attempts = pre ++ [e] ∧ dlopen e = some handle ∧
        ∀ q, q ∈ pre → dlopen q = none := by
  intro entries
  induction entries with
  | nil => intro handle h; simp [loadFirst] at h
  | cons e rest ih =>
    intro handle h
    by_cases habs : isAbsolute e = false
    · simp [loadFirst, habs] at h
    · have habs' : isAbsolute e = true := by simpa using habs
      cases hd : dlopen e with
      | some h' =>
        simp [loadFirst, habs', hd] at h
        refine ⟨[], e, by simp [loadFirst, habs', hd], by rw [hd, h], by simp⟩
      | none =>
        simp [loadFirst, habs', hd] at h
        obtain ⟨pre, e', hatt, hload, hpre⟩ := ih handle h
        refine ⟨e :: pre, e', by simp [loadFirst, habs', hd, hatt], hload, ?_⟩
        intro q hq
        rcases List.mem_cons.1 hq with hq | hq
        · rw [hq]; exact hd
        · exact hpre q hq

theorem loadFirst_relative (dlopen : List Char → Option Nat) :
    ∀ pre e post, (∀ q, q ∈ pre → isAbsolute q = true ∧ dlopen q = none) →
      isAbsolute e = false →
      (loadFirst dlopen (pre ++ e :: post)).outcome = LoadOutcome.exited ∧
        (loadFirst dlopen (pre ++ e :: post)).attempts = pre := by
  intro pre
  induction pre with
  | nil => intro e post _ he; simp [loadFirst, he]
  | cons q rest ih =>
    intro e post hpre he
    have hq := hpre q (List.mem_cons_self _ _)
    have := ih e post (fun x hx => hpre x (List.mem_cons_of_mem _ hx)) he
    simp [loadFirst, hq.1, hq.2, this.1, this.2]

theorem loadFirst_exited_iff (dlopen : List Char → Option Nat) :
    ∀ entries, (∀ e, e ∈ entries → isAbsolute e = true) →
      ((loadFirst dlopen entries).outcome = LoadOutcome.exited ↔
        ∀ e, e ∈ entries → dlopen e = none) := by
  intro entries
  induction entries with
  | nil => intro _; simp [loadFirst]
  | cons e rest ih =>
    intro habs
    have he := habs e (List.mem_cons_self _ _)
    have hrest := ih (fun x hx => habs x (List.mem_cons_of_mem _ hx))
    cases hd : dlopen e with
    | some handle =>
      simp [loadFirst, he, hd]
    | none =>
      simp only [loadFirst, he, hd, List.mem_cons, forall_eq_or_imp, true_and]
      simpa using hrest

/-- For a colon-separated list whose error text fits in `errors` (at most
1024 bytes for all entries together), `mdlopen` returns; it passes to
`dlopen` only entries that start with `/`, in list order; it ends in `exit`
when it reaches an entry that does not start with `/`, without trying it; a
returned handle is the handle of the first entry that loads, every entry
tried before it failed and nothing after it is tried; it ends in `exit`
exactly when it returns no handle, which for a list of absolute entries is
when every entry fails to load. -/
theorem mdlopen_fitting (dlopen : List Char → Option Nat) (dlerrorLen : List Char → Nat)
    (entries : List (List Char))
    (hne : entries ≠ []) (hcolon : ∀ e, e ∈ entries → ':' ∉ e)
    (hfit : errorBytes dlerrorLen entries ≤ errorsSize) :
    ∃ run, mdlopen dlopen dlerrorLen (joinColon entries) = some run ∧
      (∀ p, p ∈ run.attempts → isAbsolute p = true) ∧
      run.attempts <+: entries ∧
      (∀ pre e post, entries = pre ++ e :: post →
        (∀ q, q ∈ pre → isAbsolute q = true ∧ dlopen q = none) → isAbsolute e = false →
        run.outcome = LoadOutcome.exited ∧ run.attempts = pre) ∧
      (∀ handle, run.outcome = LoadOutcome.loaded handle →
        ∃ pre e, run.attempts = pre ++ [e] ∧ dlopen e = some handle ∧
          ∀ q, q ∈ pre → dlopen q = none) ∧
      (run.outcome = LoadOutcome.exited ↔ ∀ handle, run.outcome ≠ LoadOutcome.loaded handle) ∧
      ((∀ e, e ∈ entries → isAbsolute e = true) →
        (run.outcome = LoadOutcome.exited ↔ ∀ e, e ∈ entries → dlopen e = none)) := by
  refine ⟨loadFirst dlopen entries, mdlopen_eq_loadFirst dlopen dlerrorLen entries hne hcolon hfit,
    loadFirst_attempts_absolute dlopen entries, loadFirst_attempts_in_order dlopen entries,
    ?_, loadFirst_loaded dlopen entries, ?_, loadFirst_exited_iff dlopen entries⟩
  · intro pre e post hsplit hpre he
    rw [hsplit]
    exact loadFirst_relative dlopen pre e post hpre he
  · have hno : ∀ es, (loadFirst dlopen es).outcome ≠ LoadOutcome.overrun := by
      intro es
      induction es with
      | nil => simp [loadFirst]
      | cons e rest ih =>
        by_cases habs : isAbsolute e = false
        · simp [loadFirst, habs]
        · have habs' : isAbsolute e = true := by simpa using habs
          cases hd : dlopen e <;> simp [loadFirst, habs', hd, ih]
    have := hno entries
    cases h : (loadFirst dlopen entries).outcome <;> simp_all

/-- C9 fails for the list `/a:/b:/c` when only `/c` loads and the error text
for `/a` has 1100 bytes. Line 39 leaves `errors_ptr` 77 bytes past
`errors_end` after `/a`; when `/b` fails too, `snprintf` is called with
`errors_ptr` outside `errors` and a size of `errors_end - errors_ptr`
converted to `size_t`, and writes outside the array: the run ends there,
after the attempts `/a` and `/b`, with neither a handle nor `exit`. The
loader of the specification tries `/a`, `/b`, `/c` and returns the handle 9 of
`/c`. With 60 bytes of error text for `/a` the code does the same. -/
theorem mdlopen_overruns_errors :
    mdlopen onlyC longErrorA (joinColon [['/', 'a'], ['/', 'b'], ['/', 'c']]) =
      some ⟨[['/', 'a'], ['/', 'b']], LoadOutcome.overrun⟩ ∧
    loadFirst onlyC [['/', 'a'], ['/', 'b'], ['/', 'c']] =
      ⟨[['/', 'a'], ['/', 'b'], ['/', 'c']], LoadOutcome.loaded 9⟩ ∧
    mdlopen onlyC (fun _ => 60) (joinColon [['/', 'a'], ['/', 'b'], ['/', 'c']]) =
      some ⟨[['/', 'a'], ['/', 'b'], ['/', 'c']], LoadOutcome.loaded 9⟩ := by
  decide
/-! ## Startup handshake -/

theorem joinColon_eq_colonSegs (e : List Char) (rest : List (List Char)) :
    joinColon (e :: rest) = e ++ colonSegs rest := by
  induction rest generalizing e with
  | nil => simp [joinColon, colonSegs]
  | cons e' rest ih => rw [joinColon_cons_cons, ih e']; simp [colonSegs]

theorem spanColon_seg (seg : List Char) (segs : List (List Char)) (h : ':' ∉ seg) :
    spanColon (seg ++ colonSegs segs) = (seg, colonSegs segs) := by
  induction seg with
  | nil => cases segs <;> simp [spanColon, colonSegs]
  | cons ch rest ih =>
    have hch : ch ≠ ':' := fun e => h (e ▸ List.mem_cons_self _ _)
    have hr : ':' ∉ rest := fun e => h (List.mem_cons_of_mem _ e)
    simp [spanColon, hch, ih hr]

theorem colonSegs_length_cons (s : List Char) (rest : List (List Char)) :
    (colonSegs (s :: rest)).length = 1 + s.length + (colonSegs rest).length := by
  simp [colonSegs]; omega

theorem buildLibs_colonSegs :
    ∀ (segs : List (List Char)) (fuel : Nat), (∀ s, s ∈ segs → ':' ∉ s) →
      (colonSegs segs).length ≤ fuel →
      buildLibs fuel (colonSegs segs) = some (colonSegs (segs.map (fun s => s ++ libGLSuffix))) := by
  intro segs
  induction segs with
  | nil => intro fuel _ _; cases fuel <;> simp [colonSegs, buildLibs]
  | cons s rest ih =>
    intro fuel hcolon hfuel
    rw [colonSegs_length_cons] at hfuel
    cases fuel with
    | zero => omega
    | succ fuel =>
      have hs : ':' ∉ s := hcolon s (List.mem_cons_self _ _)
      have hrec := ih fuel (fun x hx => hcolon x (List.mem_cons_of_mem _ hx)) (by omega)
      simp [colonSegs, buildLibs, spanColon_seg s rest hs, hrec]

theorem countPaths_colonSegs :
    ∀ (segs : List (List Char)) (fuel : Nat), (∀ s, s ∈ segs → ':' ∉ s) →
      (colonSegs segs).length ≤ fuel →
      countPaths fuel (colonSegs segs) = some segs.length := by
  intro segs
  induction segs with
  | nil => intro fuel _ _; cases fuel <;> simp [colonSegs, countPaths]
  | cons s rest ih =>
    intro fuel hcolon hfuel
    rw [colonSegs_length_cons] at hfuel
    cases fuel with
    | zero => omega
    | succ fuel =>
      have hs : ':' ∉ s := hcolon s (List.mem_cons_self _ _)
      have hrec := ih fuel (fun x hx => hcolon x (List.mem_cons_of_mem _ hx)) (by omega)
      simp [colonSegs, countPaths, spanColon_seg s rest hs, hrec]

theorem buildLibs_joinColon (ch : Char) (p : List Char) (rest : List (List Char))
    (hp : ':' ∉ p) (hrest : ∀ s, s ∈ rest → ':' ∉ s) :
    buildLibs (joinColon ((ch :: p) :: rest)).length (joinColon ((ch :: p) :: rest)) =
      some (joinColon (((ch :: p) :: rest).map (fun s => s ++ libGLSuffix))) := by
  rw [joinColon_eq_colonSegs, List.map_cons, joinColon_eq_colonSegs]
  have hrec := buildLibs_colonSegs rest (p ++ colonSegs rest).length hrest (by simp)
  have hspan := spanColon_seg p rest hp
  rw [List.length_append] at hrec
  simp only [List.cons_append, List.length_cons, buildLibs]
  simp [hspan, hrec]

theorem countPaths_joinColon (ch : Char) (p : List Char) (rest : List (List Char))
    (hp : ':' ∉ p) (hrest : ∀ s, s ∈ rest → ':' ∉ s) :
    countPaths (joinColon ((ch :: p) :: rest)).length (joinColon ((ch :: p) :: rest)) =
      some (rest.length + 1) := by
  rw [joinColon_eq_colonSegs]
  have hrec := countPaths_colonSegs rest (p ++ colonSegs rest).length hrest (by simp)
  have hspan := spanColon_seg p rest hp
  rw [List.length_append] at hrec
  simp only [List.cons_append, List.length_cons, countPaths]
  simp [hspan, hrec]

theorem cutAtNewline_append (a rest : List Char)
    (ha : ∀ ch, ch ∈ a → ch ≠ NUL ∧ ch ≠ '\n') :
    cutAtNewline (a ++ '\n' :: rest) = a ++ NUL :: rest := by
  induction a with
  | nil =>
    have : ('\n' : Char) ≠ NUL := by decide
    simp [cutAtNewline, this]
  | cons ch a ih =>
    have h1 := ha ch (List.mem_cons_self _ _)
    have h2 := ih (fun x hx => ha x (List.mem_cons_of_mem _ hx))
    simp [cutAtNewline, h1.1, h1.2, h2]

theorem cstr_append_NUL (a rest : List Char) (ha : ∀ ch, ch ∈ a → ch ≠ NUL) :
    cstr (a ++ NUL :: rest) = a := by
  induction a with
  | nil => simp [cstr]
  | cons ch a ih =>
    have h1 := ha ch (List.mem_cons_self _ _)
    have h2 := ih (fun x hx => ha x (List.mem_cons_of_mem _ hx))
    simp [cstr, h1, h2]

theorem mem_colonSegs (segs : List (List Char)) (ch : Char) (h : ch ∈ colonSegs segs) :
    ch = ':' ∨ ∃ s, s ∈ segs ∧ ch ∈ s := by
  induction segs with
  | nil => simp [colonSegs] at h
  | cons s rest ih =>
    have h' : ch = ':' ∨ ch ∈ s ∨ ch ∈ colonSegs rest := by
      simpa [colonSegs] using h
    rcases h' with h | h | h
    · exact Or.inl h
    · exact Or.inr ⟨s, List.mem_cons_self _ _, h⟩
    · rcases ih h with h' | ⟨s', hs', hc⟩
      · exact Or.inl h'
      · exact Or.inr ⟨s', List.mem_cons_of_mem _ hs', hc⟩

theorem mem_joinColon (paths : List (List Char)) (ch : Char) (h : ch ∈ joinColon paths) :
    ch = ':' ∨ ∃ s, s ∈ paths ∧ ch ∈ s := by
  cases paths with
  | nil => simp [joinColon] at h
  | cons e rest =>
    rw [joinColon_eq_colonSegs, List.mem_append] at h
    rcases h with h | h
    · exact Or.inr ⟨e, List.mem_cons_self _ _, h⟩
    · rcases mem_colonSegs rest ch h with h' | ⟨s', hs', hc⟩
      · exact Or.inl h'
      · exact Or.inr ⟨s', List.mem_cons_of_mem _ hs', hc⟩

theorem recvInto_reply (c body tail : List Char) (hlen : body.length < 255) :
    ∃ rest, recvInto c (body ++ '\n' :: tail) = body ++ '\n' :: rest := by
  refine ⟨tail.take (255 - (body.length + 1)) ++
    c.drop ((body ++ '\n' :: tail).take 255).length, ?_⟩
  unfold recvInto
  rw [List.take_append_eq_append_take]
  have h1 : List.take 255 body = body := List.take_of_length_le (by omega)
  rw [h1]
  have h2 : List.take (255 - body.length) ('\n' :: tail) =
      '\n' :: List.take (255 - (body.length + 1)) tail := by
    have : 255 - body.length = (255 - (body.length + 1)) + 1 := by omega
    rw [this, List.take_succ_cons]
  rw [h2]
  simp

set_option maxRecDepth 100000 in
/-- C8 as stated fails on two kinds of reply. (1) A reply longer than the
255 bytes that `recv` accepts: the list is cut off, here a path of 300 bytes
is shortened to its first 248 before `/libGL.so.1` is appended. (2) A list
whose first entry is empty, `":/b"`: the scan for a separator starts one
byte after the current position, so the leading colon is copied as part of
the first entry and the result is `":/b/libGL.so.1"`, not
`"/libGL.so.1:/b/libGL.so.1"`. -/
theorem libraryPathQuery_not_every_reply :
    (libraryPathQuery none (List.replicate 256 NUL)
        (libraryPathReply ['/' :: List.replicate 299 'a'] []) =
      HandshakeResult.env (some ('/' :: List.replicate 247 'a' ++ libGLSuffix)) ∧
     libraryPathQuery none (List.replicate 256 NUL)
        (libraryPathReply ['/' :: List.replicate 299 'a'] []) ≠
      HandshakeResult.env (some (joinColon
        (['/' :: List.replicate 299 'a'].map (fun s => s ++ libGLSuffix))))) ∧
    (libraryPathQuery none (List.replicate 256 NUL)
        (libraryPathReply [[], ['/', 'b']] []) =
      HandshakeResult.env (some (':' :: '/' :: 'b' :: libGLSuffix)) ∧
     libraryPathQuery none (List.replicate 256 NUL)
        (libraryPathReply [[], ['/', 'b']] []) ≠
      HandshakeResult.env (some (joinColon
        ([[], ['/', 'b']].map (fun s => s ++ libGLSuffix))))) := by
  decide

/-- C8, amended. With `PRIMUS_libGLa` unset and whatever the buffer held
before, for every reply `"Value: " p1:...:pn "\n"` (followed by anything)
whose first path is not empty, whose paths contain no colon, newline or NUL,
and whose newline lies within the 255 bytes that `recv` accepts, the
handshake sets `PRIMUS_libGLa` to the paths with `/libGL.so.1` appended to
each, joined with `:` in the original order. -/
theorem libraryPathQuery_spec (c : List Char) (first : Char) (p : List Char)
    (rest : List (List Char)) (tail : List Char)
    (hchars : ∀ s, s ∈ (first :: p) :: rest → ∀ ch, ch ∈ s → pathChar ch = true)
    (hlen : ("Value: ".toList ++ joinColon ((first :: p) :: rest)).length < 255) :
    libraryPathQuery none c (libraryPathReply ((first :: p) :: rest) tail) =
      HandshakeResult.env (some (joinColon
        (((first :: p) :: rest).map (fun s => s ++ libGLSuffix)))) := by
  have hpc : ∀ s, s ∈ (first :: p) :: rest → ∀ ch, ch ∈ s →
      ch ≠ ':' ∧ ch ≠ '\n' ∧ ch ≠ NUL := by
    intro s hs ch hch
    have := hchars s hs ch hch
    simpa [pathChar, and_assoc] using this
  have hjoin : ∀ ch, ch ∈ joinColon ((first :: p) :: rest) → ch ≠ NUL ∧ ch ≠ '\n' := by
    intro ch hch
    rcases mem_joinColon _ ch hch with h | ⟨s, hs, hc⟩
    · subst h; exact ⟨by decide, by decide⟩
    · exact ⟨(hpc s hs ch hc).2.2, (hpc s hs ch hc).2.1⟩
  have hvalue : ∀ ch, ch ∈ "Value: ".toList → ch ≠ NUL ∧ ch ≠ '\n' := by decide
  have hbody : ∀ ch, ch ∈ "Value: ".toList ++ joinColon ((first :: p) :: rest) →
      ch ≠ NUL ∧ ch ≠ '\n' := by
    intro ch hch
    rcases List.mem_append.1 hch with h | h
    · exact hvalue ch h
    · exact hjoin ch h
  obtain ⟨x, hx⟩ := recvInto_reply c
    ("Value: ".toList ++ joinColon ((first :: p) :: rest)) tail hlen
  have hreply : libraryPathReply ((first :: p) :: rest) tail =
      ("Value: ".toList ++ joinColon ((first :: p) :: rest)) ++ '\n' :: tail := by
    simp [libraryPathReply]
  have htake : (("Value: ".toList ++ joinColon ((first :: p) :: rest)) ++ '\n' :: x).take 7 =
      "Value: ".toList := by
    rw [List.append_assoc]
    exact List.take_left' rfl
  have hcut := cutAtNewline_append _ x hbody
  have hdrop : (("Value: ".toList ++ joinColon ((first :: p) :: rest)) ++ NUL :: x).drop 7 =
      joinColon ((first :: p) :: rest) ++ NUL :: x := by
    rw [List.append_assoc]
    exact List.drop_left' rfl
  have hcstr := cstr_append_NUL (joinColon ((first :: p) :: rest)) x
    (fun ch hch => (hjoin ch hch).1)
  have hp : ':' ∉ p := fun h =>
    (hpc _ (List.mem_cons_self _ _) ':' (List.mem_cons_of_mem _ h)).1 rfl
  have hrest : ∀ s, s ∈ rest → ':' ∉ s := fun s hs h =>
    (hpc s (List.mem_cons_of_mem _ hs) ':' h).1 rfl
  have hcount := countPaths_joinColon first p rest hp hrest
  have hbuild := buildLibs_joinColon first p rest hp hrest
  unfold libraryPathQuery
  simp only [hreply, hx, htake, hcut, hdrop, hcstr, hcount, hbuild, ne_eq, not_true_eq_false,
    ↓reduceIte]

/-- Witness for C8 (amended): the reply `"Value: /a:/b:/c\n"`. -/
theorem libraryPathQuery_spec_witness :
    libraryPathQuery none (List.replicate 256 NUL)
        (libraryPathReply [['/', 'a'], ['/', 'b'], ['/', 'c']] []) =
      HandshakeResult.env (some (joinColon
        ([['/', 'a'], ['/', 'b'], ['/', 'c']].map (fun s => s ++ libGLSuffix)))) :=
  libraryPathQuery_spec (List.replicate 256 NUL) '/' ['a'] [['/', 'b'], ['/', 'c']] []
    (by decide) (by decide)

/-! ## Procedure-address lookup -/

theorem scanRedefined_map_of_mem (primusFn : String → Nat) (procName : String) :
    ∀ protos : List String, procName ∈ protos →
      scanRedefined protos (protos.map primusFn) procName = primusFn procName := by
  intro protos
  induction protos with
  | nil => intro h; simp at h
  | cons name rest ih =>
    intro h
    by_cases hn : procName = name
    · simp [scanRedefined, hn]
    · have : procName ∈ rest := by
        rcases List.mem_cons.1 h with e | hm
        · exact absurd e hn
        · exact hm
      simp [scanRedefined, hn, ih this]

theorem scanRedefined_map_of_not_mem (primusFn : String → Nat) (procName : String) :
    ∀ protos : List String, procName ∉ protos →
      scanRedefined protos (protos.map primusFn) procName = 0 := by
  intro protos
  induction protos with
  | nil => intro _; simp [scanRedefined]
  | cons name rest ih =>
    intro h
    have hn : procName ≠ name := fun e => h (e ▸ List.mem_cons_self _ _)
    have hr : procName ∉ rest := fun hm => h (List.mem_cons_of_mem _ hm)
    simp [scanRedefined, hn, ih hr]

theorem scanRedefined_at_index (procName : String) :
    ∀ (names : List String) (fns : List Nat) (i : Nat) (fn : Nat),
      names[i]? = some procName → fns[i]? = some fn →
      (∀ j, j < i → names[j]? ≠ some procName) →
      scanRedefined names fns procName = fn := by
  intro names
  induction names with
  | nil => intro fns i fn h; simp at h
  | cons name rest ih =>
    intro fns i fn hn hf hfirst
    cases fns with
    | nil => simp at hf
    | cons f fs =>
      cases i with
      | zero =>
        simp at hn hf
        simp [scanRedefined, hn, hf]
      | succ i =>
        have h0 := hfirst 0 (Nat.succ_pos _)
        simp at h0 hn hf
        have hne : procName ≠ name := fun e => h0 e.symm
        simp only [scanRedefined, hne, ↓reduceIte]
        apply ih fs i fn hn hf
        intro j hj
        have := hfirst (j + 1) (Nat.succ_lt_succ hj)
        simpa using this

/-- C7. `glXGetProcAddress`: a name whose first three bytes are not `glX`
gets what the A-side returns for it; a `glX` name found in the table gets
the entry of `redefined_fns` at the index of the first match, which is the
primus function of that name; a `glX` name absent from the table gets null
whatever the A-side would answer; `glXGetProcAddressARB` agrees on every
name. -/
theorem glXGetProcAddress_spec (protos : List String) (primusFn : String → Nat)
    (aGetProc : String → Nat) (procName : String) :
    (memcmpGlX procName = true →
      glXGetProcAddress protos primusFn aGetProc procName = aGetProc procName) ∧
    (memcmpGlX procName = false → procName ∈ redefined_names protos →
      glXGetProcAddress protos primusFn aGetProc procName = primusFn procName ∧
      ∀ (i : Nat) (fn : Nat), (redefined_names protos)[i]? = some procName →
        (∀ j, j < i → (redefined_names protos)[j]? ≠ some procName) →
        (redefined_fns primusFn protos)[i]? = some fn →
        glXGetProcAddress protos primusFn aGetProc procName = fn) ∧
    (memcmpGlX procName = false → procName ∉ redefined_names protos →
      ∀ other : String → Nat, glXGetProcAddress protos primusFn other procName = 0) ∧
    glXGetProcAddressARB protos primusFn aGetProc procName =
      glXGetProcAddress protos primusFn aGetProc procName := by
  refine ⟨?_, ?_, ?_, rfl⟩
  · intro h
    simp [glXGetProcAddress, h]
  · intro h hm
    refine ⟨?_, ?_⟩
    · simp only [glXGetProcAddress, h, redefined_names, redefined_fns]
      exact scanRedefined_map_of_mem primusFn procName protos hm
    · intro i fn hi hfirst hfn
      simp only [glXGetProcAddress, h]
      exact scanRedefined_at_index procName _ _ i fn hi hfn hfirst
  · intro h hm other
    simp only [glXGetProcAddress, h, redefined_names, redefined_fns]
    exact scanRedefined_map_of_not_mem primusFn procName protos hm

/-- Witness for C7: the three names of the specification's example, with a
two-entry table. -/
theorem glXGetProcAddress_spec_witness :
    glXGetProcAddress ["glXMakeCurrent", "glXSwapBuffers"] (fun n => n.length) (fun _ => 7)
        "glFoo" = 7 ∧
    glXGetProcAddress ["glXMakeCurrent", "glXSwapBuffers"] (fun n => n.length) (fun _ => 7)
        "glXMakeCurrent" = 14 ∧
    glXGetProcAddress ["glXMakeCurrent", "glXSwapBuffers"] (fun n => n.length) (fun _ => 7)
        "glXNotAThing" = 0 :=
  ⟨(glXGetProcAddress_spec ["glXMakeCurrent", "glXSwapBuffers"] (fun n => n.length)
      (fun _ => 7) "glFoo").1 (by decide),
   ((glXGetProcAddress_spec ["glXMakeCurrent", "glXSwapBuffers"] (fun n => n.length)
      (fun _ => 7) "glXMakeCurrent").2.1 (by decide) (by decide)).1,
   (glXGetProcAddress_spec ["glXMakeCurrent", "glXSwapBuffers"] (fun n => n.length)
      (fun _ => 7) "glXNotAThing").2.2.1 (by decide) (by decide) (fun _ => 7)⟩

/-! ## Profiler -/

theorem creditState_length {D : Type} (ops : DoubleOps D) :
    ∀ (l : List D) (i : Nat) (d : D), (creditState ops l i d).length = l.length := by
  intro l
  induction l with
  | nil => intro i d; rfl
  | cons t ts ih =>
    intro i d
    cases i with
    | zero => rfl
    | succ i => simp [creditState, ih]

/-- With two states or more, `tick(true)` never reaches the report block. -/
theorem reports_reset_false {D : Type} (ops : DoubleOps D) (p : Profiler D) (timestamp : D)
    (hN : 2 ≤ p.nstates) : p.reports ops timestamp true = false := by
  have h1 : 1 % p.nstates = 1 := Nat.mod_eq_of_lt (by omega)
  simp [Profiler.reports, h1]

/-- C10 as stated fails. (1) A profiler with the three states of the workers,
constructed at time 0, is ticked with `reset = true` at time 1 with
`loglevel = 2`: nothing is printed, the second is credited to state 0, but
the profiler is left in state 1 and `nframes` is still 0. (2) A profiler with
one state that has counted four frames since time 0 is ticked with
`reset = true` at time 5 with `loglevel = 0`: nothing is printed, yet lines
310 to 312 run and leave `nframes = 0` and `state_time` zeroed. (3) With one
state and `nframes` at the largest `int`, the increment of line 299
overflows. -/
theorem tick_reset_counts_no_frame :
    (Profiler.init exactOps 3 0).nframes = 0 ∧
    (Profiler.init exactOps 3 0).tick exactOps twelveChars 2 1 true =
      TickEnd.returned
        ({ state := 1, state_time := [1, 0, 0], prev_timestamp := 1, print_timestamp := 0,
           nframes := 0 } : Profiler ℚ) none ∧
    fourFrames.tick exactOps twelveChars 0 5 true =
      TickEnd.returned
        ({ state := 0, state_time := [0], prev_timestamp := 5, print_timestamp := 5,
           nframes := 0 } : Profiler ℚ) none ∧
    fullFrames.tick exactOps twelveChars 0 1 true = TickEnd.undefined := by
  refine ⟨rfl, ?_, ?_, ?_⟩ <;>
    simp [Profiler.tick, Profiler.init, Profiler.reports, Profiler.nstates, creditState,
      exactOps, fourFrames, fullFrames, twelveChars, fillBuf, bufSize, intMax,
      List.replicate, List.enum, List.enumFrom]

/-- C10, amended. For a profiler with `N ≥ 1` states in any prior state
(with `nframes` below the largest `int` when `N = 1`), whatever the log
level, a call `tick(reset = true)` that returns at line 303, without
reaching the report block of lines 305 to 312, returns having printed
nothing, credits the time elapsed since the previous tick to state 0,
records the timestamp, keeps `print_timestamp`, and leaves the profiler in
state `1 mod N`; `nframes` grows by one in that call exactly when `N = 1`
(the state after the call is 0) and is unchanged when `N ≥ 2`. -/
theorem tick_reset_spec {D : Type} (ops : DoubleOps D) (textLen : D → Nat → Nat)
    (loglevel : Int) (p : Profiler D) (timestamp : D) (hN : 1 ≤ p.nstates)
    (hfr : p.nstates = 1 → p.nframes < intMax)
    (hreturn : p.reports ops timestamp true = false) :
    ∃ q, p.tick ops textLen loglevel timestamp true = TickEnd.returned q none ∧
      q.state_time = creditState ops p.state_time 0 (ops.sub timestamp p.prev_timestamp) ∧
      q.nstates = p.nstates ∧
      q.prev_timestamp = timestamp ∧
      q.print_timestamp = p.print_timestamp ∧
      q.state = 1 % p.nstates ∧
      (p.nstates = 1 → q.nframes = p.nframes + 1) ∧
      (2 ≤ p.nstates → q.nframes = p.nframes) := by
  have hidx : ¬ p.nstates ≤ 0 := by omega
  have hfit : ¬ ((0 + 1) % p.nstates = 0 ∧ intMax ≤ p.nframes) := by
    rintro ⟨h0, hmax⟩
    have h1 : p.nstates = 1 := by
      by_contra hne
      have hmod : (0 + 1) % p.nstates = 1 := Nat.mod_eq_of_lt (by omega)
      omega
    have := hfr h1
    omega
  refine ⟨{ state := (0 + 1) % p.nstates,
            state_time := creditState ops p.state_time 0 (ops.sub timestamp p.prev_timestamp),
            prev_timestamp := timestamp, print_timestamp := p.print_timestamp,
            nframes := p.nframes + (if (0 + 1) % p.nstates = 0 then 1 else 0) },
    ?_, rfl, ?_, rfl, rfl, rfl, ?_, ?_⟩
  · unfold Profiler.tick
    simp only [↓reduceIte, if_neg hidx, hreturn, if_neg hfit]
  · simp [Profiler.nstates, creditState_length]
  · intro h1; simp [h1]
  · intro h2
    have hmod : (0 + 1) % p.nstates = 1 := Nat.mod_eq_of_lt (by omega)
    simp [hmod]

/-- Witness for C10 (amended): the three-state profiler constructed at time 0
and ticked at time 1. -/
theorem tick_reset_spec_witness :
    ∃ q, (Profiler.init exactOps 3 0).tick exactOps twelveChars 2 1 true =
        TickEnd.returned q none ∧
      q.state = 1 % (Profiler.init exactOps 3 0).nstates ∧
      q.nframes = (Profiler.init exactOps 3 0).nframes := by
  obtain ⟨q, h1, _, _, _, _, h6, _, h8⟩ :=
    tick_reset_spec exactOps twelveChars 2 (Profiler.init exactOps 3 0) 1
      (by simp [Profiler.init, Profiler.nstates])
      (by simp [Profiler.init, Profiler.nstates])
      (by simp [Profiler.init, Profiler.nstates, Profiler.reports])
  exact ⟨q, h1, h6, h8 (by simp [Profiler.init, Profiler.nstates])⟩
/-! ## Drawable registry: the invariant -/

theorem stateOk_init : StateOk PrimusState.init := by
  refine ⟨?_, ?_, by simp [PrimusState.init], ?_⟩
  · intro k di h; simp [PrimusState.init, Registry.find] at h
  · intro k1 k2 d1 d2 h; simp [PrimusState.init, Registry.find] at h
  · intro k di h; simp [PrimusState.init, Registry.find] at h

/-- Replacing the entry of `k` and the A-side table keeps the invariant when
the other entries keep their pbuffers, the new entry is backed, and its
pbuffer is the old one of `k` or a new handle. -/
theorem stateOk_setEntry (s s' : PrimusState) (hs : StateOk s) (k : Nat) (di' : DrawableInfo)
    (hd : s'.drawables = Registry.set s.drawables k di')
    (hnext : s.aside.next ≤ s'.aside.next)
    (hkeep : ∀ j dj, j ≠ k → Registry.find s.drawables j = some dj → dj.pbuffer ≠ 0 →
      Registry.find s'.aside.pbuffers dj.pbuffer = Registry.find s.aside.pbuffers dj.pbuffer)
    (hentry : EntryOk s'.aside di')
    (hpb : di'.pbuffer ≠ 0 →
      (∃ dk, Registry.find s.drawables k = some dk ∧ dk.pbuffer = di'.pbuffer) ∨
        s.aside.next ≤ di'.pbuffer)
    (hn : s.nthreads ≤ s'.nthreads)
    (hthr : di'.r.worker ≤ s'.nthreads ∧ di'.d.worker ≤ s'.nthreads) : StateOk s' := by
  have hother : ∀ j dj, j ≠ k → Registry.find s.drawables j = some dj → EntryOk s'.aside dj := by
    intro j dj hj hf
    have he := hs.entries j dj hf
    refine ⟨he.paired, he.noShutdown, ?_⟩
    intro hp
    obtain ⟨hlt, pa, hpa, hrest⟩ := he.backed hp
    exact ⟨by omega, pa, by rw [hkeep j dj hj hf hp]; exact hpa, hrest⟩
  refine ⟨?_, ?_, ?_, ?_⟩
  · intro j dj hf
    rw [hd, Registry.find_set] at hf
    by_cases hj : j = k
    · simp [hj] at hf; subst hf; exact hentry
    · simp [hj] at hf; exact hother j dj hj hf
  · intro k1 k2 d1 d2 h1 h2 hp heq
    rw [hd, Registry.find_set] at h1 h2
    by_cases hk1 : k1 = k
    · by_cases hk2 : k2 = k
      · rw [hk1, hk2]
      · simp [hk1] at h1; simp [hk2] at h2
        subst h1
        have hlt := ((hs.entries k2 d2 h2).backed (by rw [← heq]; exact hp)).1
        rcases hpb hp with ⟨dk, hdk, hdkp⟩ | hge
        · exact absurd (hs.distinct k k2 dk d2 hdk h2 (by rw [hdkp]; exact hp)
            (by rw [hdkp]; exact heq)).symm hk2
        · omega
    · by_cases hk2 : k2 = k
      · simp [hk1] at h1; simp [hk2] at h2
        subst h2
        have hlt := ((hs.entries k1 d1 h1).backed hp).1
        have hp2 : di'.pbuffer ≠ 0 := by rw [← heq]; exact hp
        rcases hpb hp2 with ⟨dk, hdk, hdkp⟩ | hge
        · exact absurd (hs.distinct k1 k d1 dk h1 hdk hp (by rw [hdkp]; exact heq)) hk1
        · omega
      · simp [hk1] at h1; simp [hk2] at h2
        exact hs.distinct k1 k2 d1 d2 h1 h2 hp heq
  · have := hs.nonnull; omega
  · intro j dj hf
    rw [hd, Registry.find_set] at hf
    by_cases hj : j = k
    · simp [hj] at hf; subst hf; exact hthr
    · simp [hj] at hf
      have := hs.threads j dj hf
      omega

/-- Entries other than `k` keep their A-side pbuffer when the pbuffer of `k`
is destroyed. -/
theorem find_destroy_other (s : PrimusState) (hs : StateOk s) (k : Nat) (dk : DrawableInfo)
    (hk : Registry.find s.drawables k = some dk) (j : Nat) (dj : DrawableInfo) (hj : j ≠ k)
    (hf : Registry.find s.drawables j = some dj) (hp : dj.pbuffer ≠ 0) :
    Registry.find (s.aside.destroyPbuffer dk.pbuffer).pbuffers dj.pbuffer =
      Registry.find s.aside.pbuffers dj.pbuffer := by
  have hne : dj.pbuffer ≠ dk.pbuffer := fun e => hj (hs.distinct j k dj dk hf hk hp e)
  simp [ASide.destroyPbuffer, Registry.find_erase, hne]

/-- Entries keep their A-side pbuffer when a new pbuffer is created. -/
theorem find_create_other (a : ASide) (cfg : Nat) (w h : Int) (p : Nat) (hp : p < a.next) :
    Registry.find (a.createPbuffer cfg w h).2.pbuffers p = Registry.find a.pbuffers p := by
  have : p ≠ a.next := by omega
  simp [ASide.createPbuffer, Registry.find_set, this]

theorem entryOk_create (a : ASide) (di : DrawableInfo)
    (hpair : di.r.worker = 0 ↔ di.d.worker = 0) (hre : di.reinit ≠ ReinitTodo.SHUTDOWN) :
    EntryOk (create_pbuffer a di).2 (create_pbuffer a di).1 := by
  refine ⟨hpair, hre, ?_⟩
  intro _
  refine ⟨by simp [create_pbuffer, ASide.createPbuffer], ⟨di.fbconfig, di.width, di.height⟩, ?_,
    rfl, Or.inr ⟨rfl, rfl⟩⟩
  simp [create_pbuffer, ASide.createPbuffer, Registry.find_set]

theorem backed_create (a : ASide) (di : DrawableInfo) (ha : 1 ≤ a.next) :
    Backed (create_pbuffer a di).2 (create_pbuffer a di).1 := by
  refine ⟨?_, ⟨di.fbconfig, di.width, di.height⟩, ?_, rfl, rfl, rfl⟩
  · simp [create_pbuffer, ASide.createPbuffer]; omega
  · simp [create_pbuffer, ASide.createPbuffer, Registry.find_set]

theorem reap_workers_paired (di : DrawableInfo) (h : di.r.worker = 0 ↔ di.d.worker = 0) :
    (di.reap_workers.r.worker = 0 ↔ di.reap_workers.d.worker = 0) := by
  unfold DrawableInfo.reap_workers
  by_cases h0 : di.r.worker = 0
  · simp [h0, h.1 h0]
  · simp [h0]

theorem reap_workers_fields (di : DrawableInfo) :
    di.reap_workers.pbuffer = di.pbuffer ∧ di.reap_workers.fbconfig = di.fbconfig ∧
      di.reap_workers.width = di.width ∧ di.reap_workers.height = di.height ∧
      di.reap_workers.reinit = di.reinit ∧ di.reap_workers.kind = di.kind ∧
      di.reap_workers.window = di.window ∧ di.reap_workers.actx = di.actx ∧
      di.reap_workers.r.worker ≤ di.r.worker ∧ di.reap_workers.d.worker ≤ di.d.worker := by
  unfold DrawableInfo.reap_workers
  by_cases h0 : di.r.worker = 0 <;> simp [h0]

theorem find_create_pbuffer_other (a : ASide) (di : DrawableInfo) (p : Nat) (hp : p < a.next) :
    Registry.find (create_pbuffer a di).2.pbuffers p = Registry.find a.pbuffers p :=
  find_create_other a _ _ _ p hp

theorem create_pbuffer_next (a : ASide) (di : DrawableInfo) :
    (create_pbuffer a di).2.next = a.next + 1 ∧ (create_pbuffer a di).1.pbuffer = a.next := by
  simp [create_pbuffer, ASide.createPbuffer]

theorem create_pbuffer_fields (a : ASide) (di : DrawableInfo) :
    (create_pbuffer a di).1 = { di with pbuffer := a.next } := by
  simp [create_pbuffer, ASide.createPbuffer]

theorem lookup_pbuffer_unknown (s s' : PrimusState) (geom : Int × Int) (draw ctx pb : Nat)
    (hs : StateOk s) (hdraw : draw ≠ 0) (hf : Registry.find s.drawables draw = none)
    (h : lookup_pbuffer s geom draw ctx = some (s', pb)) :
    StateOk s' ∧ s.aside.next ≤ s'.aside.next ∧ s'.nthreads = s.nthreads ∧
      s'.tsdata = s.tsdata ∧
      (∃ di', s'.drawables = Registry.set s.drawables draw di' ∧ di'.pbuffer = pb ∧
        Backed s'.aside di' ∧ di'.kind = DrawableKind.XWindow) ∧
      (∀ j dj, Registry.find s.drawables j = some dj → dj.pbuffer ≠ 0 →
        Registry.find s'.aside.pbuffers dj.pbuffer = Registry.find s.aside.pbuffers dj.pbuffer) := by
  unfold lookup_pbuffer at h
  simp only [hdraw, ↓reduceIte, hf] at h
  by_cases hc : ctx = 0
  · simp [hc] at h
  · simp only [hc, ↓reduceIte, Option.some.injEq, Prod.mk.injEq, PrimusState.withEntry] at h
    obtain ⟨hs', hpb⟩ := h
    subst hs'
    have hkeep : ∀ (x : DrawableInfo) j dj, Registry.find s.drawables j = some dj →
        dj.pbuffer ≠ 0 →
        Registry.find (create_pbuffer s.aside x).2.pbuffers dj.pbuffer =
          Registry.find s.aside.pbuffers dj.pbuffer := by
      intro x j dj hj hp
      exact find_create_pbuffer_other _ _ _ ((hs.entries j dj hj).backed hp).1
    refine ⟨?_, ?_, rfl, rfl, ⟨_, rfl, hpb, backed_create _ _ hs.nonnull, ?_⟩, hkeep _⟩
    · refine stateOk_setEntry s _ hs draw _ rfl ?_ ?_ ?_ ?_ (le_refl _) ?_
      · simp [create_pbuffer, ASide.createPbuffer]
      · intro j dj _ hj hp
        exact hkeep _ j dj hj hp
      · exact entryOk_create _ _ (by simp [rawWindowEntry, DrawableInfo.zero])
          (by simp [rawWindowEntry, DrawableInfo.zero])
      · intro _
        right
        simp [create_pbuffer, ASide.createPbuffer]
      · simp [create_pbuffer, rawWindowEntry, DrawableInfo.zero]
    · simp [create_pbuffer, ASide.createPbuffer]
    · simp [create_pbuffer, rawWindowEntry]

/-- The last step of `lookup_pbuffer`, `if (!di.pbuffer) di.pbuffer =
create_pbuffer(di)`, keeps the invariant and leaves the entry backed. -/
theorem stateOk_ensureBacking (s s' : PrimusState) (hs : StateOk s) (draw : Nat)
    (di di1 : DrawableInfo) (a1 : ASide)
    (hf : Registry.find s.drawables draw = some di)
    (hpair : di1.r.worker = 0 ↔ di1.d.worker = 0)
    (hre : di1.reinit ≠ ReinitTodo.SHUTDOWN)
    (hthr : di1.r.worker ≤ s.nthreads ∧ di1.d.worker ≤ s.nthreads)
    (hnext : a1.next = s.aside.next)
    (hkeep : ∀ j dj, j ≠ draw → Registry.find s.drawables j = some dj → dj.pbuffer ≠ 0 →
      Registry.find a1.pbuffers dj.pbuffer = Registry.find s.aside.pbuffers dj.pbuffer)
    (hcase : di1.pbuffer = 0 ∨ (di1 = di ∧ a1 = s.aside))
    (hd : s'.drawables = Registry.set s.drawables draw (ensureBacking (di1, a1)).1)
    (ha : s'.aside = (ensureBacking (di1, a1)).2)
    (hn : s'.nthreads = s.nthreads) :
    StateOk s' ∧ s.aside.next ≤ s'.aside.next ∧
      (ensureBacking (di1, a1)).1.pbuffer ≠ 0 ∧
      (di1.pbuffer = 0 → Backed s'.aside (ensureBacking (di1, a1)).1) ∧
      (ensureBacking (di1, a1)).1 =
        (if di1.pbuffer = 0 then { di1 with pbuffer := a1.next } else di1) ∧
      (di1.pbuffer ≠ 0 → s'.aside = a1) ∧
      (∀ j dj, j ≠ draw → Registry.find s.drawables j = some dj → dj.pbuffer ≠ 0 →
        Registry.find s'.aside.pbuffers dj.pbuffer =
          Registry.find s.aside.pbuffers dj.pbuffer) := by
  have hnn := hs.nonnull
  unfold ensureBacking at hd ha ⊢
  by_cases hp : di1.pbuffer = 0
  · simp only [hp, ↓reduceIte] at hd ha ⊢
    have hkeep' : ∀ j dj, j ≠ draw → Registry.find s.drawables j = some dj → dj.pbuffer ≠ 0 →
        Registry.find s'.aside.pbuffers dj.pbuffer =
          Registry.find s.aside.pbuffers dj.pbuffer := by
      intro j dj hj hfj hpj
      rw [ha, find_create_pbuffer_other _ _ _ (by
        rw [hnext]; exact ((hs.entries j dj hfj).backed hpj).1)]
      exact hkeep j dj hj hfj hpj
    refine ⟨?_, ?_, ?_, ?_, create_pbuffer_fields a1 di1, fun h => absurd rfl h, hkeep'⟩
    · refine stateOk_setEntry s s' hs draw _ hd ?_ hkeep' ?_ ?_ (by omega) ?_
      · rw [ha, (create_pbuffer_next a1 di1).1]; omega
      · rw [ha]; exact entryOk_create a1 di1 hpair hre
      · intro _
        right
        rw [(create_pbuffer_next a1 di1).2]; omega
      · rw [hn, create_pbuffer_fields]; exact hthr
    · rw [ha, (create_pbuffer_next a1 di1).1]; omega
    · rw [(create_pbuffer_next a1 di1).2]; omega
    · intro _
      rw [ha]
      exact backed_create a1 di1 (by omega)
  · rcases hcase with h0 | ⟨hdi, ha1⟩
    · exact absurd h0 hp
    · subst hdi
      subst ha1
      simp only [hp, ↓reduceIte] at hd ha ⊢
      have hkeep' : ∀ j dj, j ≠ draw → Registry.find s.drawables j = some dj →
          dj.pbuffer ≠ 0 →
          Registry.find s'.aside.pbuffers dj.pbuffer =
            Registry.find s.aside.pbuffers dj.pbuffer := by
        intro j dj _ _ _
        rw [ha]
      refine ⟨?_, by rw [ha], hp, fun h => h.elim, trivial, fun _ => ha, hkeep'⟩
      refine stateOk_setEntry s s' hs draw _ hd (by rw [ha]) hkeep' ?_ ?_ (by omega) ?_
      · rw [ha]; exact hs.entries draw _ hf
      · intro _
        left
        exact ⟨_, hf, rfl⟩
      · rw [hn]; exact hthr

theorem adoptFbconfig_shape (a : ASide) (di : DrawableInfo) (cfg : Nat)
    (hpair : di.r.worker = 0 ↔ di.d.worker = 0) :
    (adoptFbconfig a di cfg).1.pbuffer = 0 ∧ (adoptFbconfig a di cfg).1.fbconfig = cfg ∧
      SameShape di (adoptFbconfig a di cfg).1 ∧
      ((adoptFbconfig a di cfg).1.r.worker = 0 ↔ (adoptFbconfig a di cfg).1.d.worker = 0) ∧
      (adoptFbconfig a di cfg).1.r.worker ≤ di.r.worker ∧
      (adoptFbconfig a di cfg).1.d.worker ≤ di.d.worker ∧
      (adoptFbconfig a di cfg).2 =
        (if di.pbuffer ≠ 0 then a.destroyPbuffer di.pbuffer else a) := by
  have hf := reap_workers_fields di
  have hp := reap_workers_paired di hpair
  unfold adoptFbconfig SameShape
  by_cases h : di.pbuffer = 0
  · simp [h, hpair]
  · rw [if_pos (show di.pbuffer ≠ 0 from h), if_pos (show di.pbuffer ≠ 0 from h)]
    exact ⟨rfl, rfl, ⟨hf.2.2.2.2.2.1, hf.2.2.2.2.2.2.1, hf.2.2.1, hf.2.2.2.1, hf.2.2.2.2.1,
      hf.2.2.2.2.2.2.2.1⟩, hp, hf.2.2.2.2.2.2.2.2.1, hf.2.2.2.2.2.2.2.2.2, rfl⟩

theorem sameShape_refl (di : DrawableInfo) : SameShape di di :=
  ⟨rfl, rfl, rfl, rfl, rfl, rfl⟩

theorem sameShape_setPbuffer (di di1 : DrawableInfo) (p : Nat) (h : SameShape di di1) :
    SameShape di { di1 with pbuffer := p } := h

/-- What `lookup_pbuffer` does for a drawable that has an entry. -/
theorem lookupKnown_ok (s : PrimusState) (draw ctx : Nat)
    (di : DrawableInfo) (hs : StateOk s)
    (hf : Registry.find s.drawables draw = some di) :
    StateOk (lookupKnown s draw ctx di).1 ∧
      s.aside.next ≤ (lookupKnown s draw ctx di).1.aside.next ∧
      (lookupKnown s draw ctx di).1.nthreads = s.nthreads ∧
      (lookupKnown s draw ctx di).1.tsdata = s.tsdata ∧
      (∃ di', (lookupKnown s draw ctx di).1.drawables = Registry.set s.drawables draw di' ∧
        di'.pbuffer = (lookupKnown s draw ctx di).2 ∧ di'.pbuffer ≠ 0 ∧
        SameShape di di' ∧ (Backed s.aside di → Backed (lookupKnown s draw ctx di).1.aside di') ∧
        ((ctx = 0 ∨ di.fbconfig = (ContextsInfo.index s.contexts.entries ctx).2.fbconfig) →
          di'.r = di.r ∧ di'.d = di.d ∧ di'.fbconfig = di.fbconfig) ∧
        (ctx ≠ 0 → di'.fbconfig = (ContextsInfo.index s.contexts.entries ctx).2.fbconfig)) ∧
      (∀ j dj, j ≠ draw → Registry.find s.drawables j = some dj → dj.pbuffer ≠ 0 →
        Registry.find (lookupKnown s draw ctx di).1.aside.pbuffers dj.pbuffer =
          Registry.find s.aside.pbuffers dj.pbuffer) ∧
      (lookupKnown s draw ctx di).1.contexts.entries =
        (if ctx ≠ 0 then (ContextsInfo.index s.contexts.entries ctx).1
         else s.contexts.entries) ∧
      (lookupKnown s draw ctx di).1.contexts.nsharegroups = s.contexts.nsharegroups := by
  have he := hs.entries draw di hf
  have ht := hs.threads draw di hf
  by_cases hm : ctx ≠ 0 ∧ di.fbconfig ≠ (ContextsInfo.index s.contexts.entries ctx).2.fbconfig
  · -- the fbconfig of the context is adopted
    have hc : ctx ≠ 0 := hm.1
    have hshape := adoptFbconfig_shape s.aside di
      (ContextsInfo.index s.contexts.entries ctx).2.fbconfig he.paired
    have hlk : lookupKnown s draw ctx di =
        (s.withEntry draw (ContextsInfo.index s.contexts.entries ctx).1 (ensureBacking
            (adoptFbconfig s.aside di (ContextsInfo.index s.contexts.entries ctx).2.fbconfig)),
          (ensureBacking
            (adoptFbconfig s.aside di
              (ContextsInfo.index s.contexts.entries ctx).2.fbconfig)).1.pbuffer) := by
      unfold lookupKnown
      simp only [hc, ne_eq, not_false_eq_true, ↓reduceIte, hm.2, and_self]
    rw [hlk]
    have hres := stateOk_ensureBacking s
      (s.withEntry draw (ContextsInfo.index s.contexts.entries ctx).1 (ensureBacking
        (adoptFbconfig s.aside di (ContextsInfo.index s.contexts.entries ctx).2.fbconfig)))
      hs draw di
      (adoptFbconfig s.aside di (ContextsInfo.index s.contexts.entries ctx).2.fbconfig).1
      (adoptFbconfig s.aside di (ContextsInfo.index s.contexts.entries ctx).2.fbconfig).2
      hf hshape.2.2.2.1 (by rw [hshape.2.2.1.2.2.2.2.1]; exact he.noShutdown)
      ⟨by omega, by omega⟩
      (by rw [hshape.2.2.2.2.2.2]
          by_cases hp : di.pbuffer = 0 <;> simp [hp, ASide.destroyPbuffer])
      (by
        intro j dj hj hfj hpj
        rw [hshape.2.2.2.2.2.2]
        by_cases hp : di.pbuffer = 0
        · simp [hp]
        · simp only [ne_eq, hp, not_false_eq_true, ↓reduceIte]
          exact find_destroy_other s hs draw di hf j dj hj hfj hpj)
      (Or.inl hshape.1) rfl rfl rfl
    refine ⟨hres.1, hres.2.1, rfl, rfl, ⟨_, rfl, rfl, hres.2.2.1, ?_, ?_, ?_, ?_⟩,
      hres.2.2.2.2.2.2, by simp [hc, PrimusState.withEntry], rfl⟩
    · rw [hres.2.2.2.2.1]
      simp only [hshape.1, ↓reduceIte]
      exact hshape.2.2.1
    · intro _
      exact hres.2.2.2.1 hshape.1
    · intro hmatch
      rcases hmatch with h0 | heq
      · exact absurd h0 hc
      · exact absurd heq hm.2
    · intro _
      rw [hres.2.2.2.2.1]
      simp only [hshape.1, ↓reduceIte]
      exact hshape.2.1
  · -- the entry keeps its fbconfig
    have hlk : lookupKnown s draw ctx di =
        (s.withEntry draw (if ctx ≠ 0 then (ContextsInfo.index s.contexts.entries ctx).1
            else s.contexts.entries) (ensureBacking (di, s.aside)),
          (ensureBacking (di, s.aside)).1.pbuffer) := by
      unfold lookupKnown
      by_cases hc : ctx = 0
      · simp [hc]
      · have : di.fbconfig = (ContextsInfo.index s.contexts.entries ctx).2.fbconfig := by
          by_contra hne
          exact hm ⟨hc, hne⟩
        simp [hc, ← this]
    rw [hlk]
    have hres := stateOk_ensureBacking s
      (s.withEntry draw (if ctx ≠ 0 then (ContextsInfo.index s.contexts.entries ctx).1
        else s.contexts.entries) (ensureBacking (di, s.aside)))
      hs draw di di s.aside hf he.paired he.noShutdown ht rfl
      (fun _ _ _ _ _ => rfl) (Or.inr ⟨rfl, rfl⟩) rfl rfl rfl
    refine ⟨hres.1, hres.2.1, rfl, rfl, ⟨_, rfl, rfl, hres.2.2.1, ?_, ?_, ?_, ?_⟩,
      hres.2.2.2.2.2.2, rfl, rfl⟩
    · rw [hres.2.2.2.2.1]
      by_cases hp : di.pbuffer = 0
      · simp only [hp, ↓reduceIte]; exact sameShape_refl di
      · simp only [hp, ↓reduceIte]; exact sameShape_refl di
    · intro hb
      have ha := hres.2.2.2.2.2.1 hb.1
      rw [hres.2.2.2.2.1]
      simp only [hb.1, ↓reduceIte]
      simp only at ha
      rw [ha]
      exact hb
    · intro _
      rw [hres.2.2.2.2.1]
      by_cases hp : di.pbuffer = 0
      · rw [if_pos hp]; exact ⟨rfl, rfl, rfl⟩
      · rw [if_neg hp]; exact ⟨rfl, rfl, rfl⟩
    · intro hc
      have : di.fbconfig = (ContextsInfo.index s.contexts.entries ctx).2.fbconfig := by
        by_contra hne
        exact hm ⟨hc, hne⟩
      rw [hres.2.2.2.2.1]
      by_cases hp : di.pbuffer = 0
      · simp only [hp, ↓reduceIte]; exact this
      · simp only [hp, ↓reduceIte]; exact this

theorem index_index (m : Registry ContextInfo) (k : Nat) :
    ContextsInfo.index (ContextsInfo.index m k).1 k =
      ((ContextsInfo.index m k).1, (ContextsInfo.index m k).2) := by
  unfold ContextsInfo.index
  cases h : Registry.find m k with
  | some v => simp [h]
  | none => simp [h, Registry.find_set_self]

theorem backed_of_same_backing (a a' : ASide) (dj : DrawableInfo)
    (h : dj.pbuffer ≠ 0 → Registry.find a'.pbuffers dj.pbuffer = Registry.find a.pbuffers dj.pbuffer)
    (hb : Backed a dj) : Backed a' dj := by
  obtain ⟨hp, pa, hpa, hrest⟩ := hb
  exact ⟨hp, pa, by rw [h hp]; exact hpa, hrest⟩

theorem kept_refl (s : PrimusState) (ctx : Nat) (hs : StateOk s) : Kept s s ctx :=
  ⟨hs, le_refl _, rfl,
    fun _ dj hj => ⟨dj, hj, sameShape_refl dj, id, fun _ => ⟨rfl, rfl, rfl⟩, id⟩,
    fun _ => rfl⟩

theorem sameShape_trans (a b c : DrawableInfo) (h1 : SameShape a b) (h2 : SameShape b c) :
    SameShape a c := by
  obtain ⟨h11, h12, h13, h14, h15, h16⟩ := h1
  obtain ⟨h21, h22, h23, h24, h25, h26⟩ := h2
  exact ⟨h21.trans h11, h22.trans h12, h23.trans h13, h24.trans h14, h25.trans h15,
    h26.trans h16⟩

theorem kept_trans (s1 s2 s3 : PrimusState) (ctx : Nat) (h12 : Kept s1 s2 ctx)
    (h23 : Kept s2 s3 ctx) : Kept s1 s3 ctx := by
  refine ⟨h23.ok, le_trans h12.next h23.next, h23.nthreads.trans h12.nthreads, ?_, ?_⟩
  · intro j dj hj
    obtain ⟨dj2, hj2, hsh2, hb2, hw2, hp2⟩ := h12.entries j dj hj
    obtain ⟨dj3, hj3, hsh3, hb3, hw3, hp3⟩ := h23.entries j dj2 hj2
    refine ⟨dj3, hj3, sameShape_trans _ _ _ hsh2 hsh3, fun hb => hb3 (hb2 hb), ?_,
      fun hp => hp3 (hp2 hp)⟩
    intro hmatch
    have h2 := hw2 hmatch
    have hmatch2 : ctx = 0 ∨
        dj2.fbconfig = (ContextsInfo.index s2.contexts.entries ctx).2.fbconfig := by
      rcases hmatch with h0 | heq
      · exact Or.inl h0
      · by_cases hc : ctx = 0
        · exact Or.inl hc
        · exact Or.inr (by rw [h12.context hc, h2.2.2]; exact heq)
    have h3 := hw3 hmatch2
    exact ⟨h3.1.trans h2.1, h3.2.1.trans h2.2.1, h3.2.2.trans h2.2.2⟩
  · intro hc
    rw [h23.context hc, h12.context hc]

/-- A call of `lookup_pbuffer` keeps the registries in order and returns the
pbuffer of the entry, which is not null for a drawable that is not null. -/
theorem lookup_pbuffer_kept (s s' : PrimusState) (geom : Int × Int) (draw ctx pb : Nat)
    (hs : StateOk s) (h : lookup_pbuffer s geom draw ctx = some (s', pb)) :
    Kept s s' ctx ∧ s'.tsdata = s.tsdata ∧
      (draw ≠ 0 → ∃ di', Registry.find s'.drawables draw = some di' ∧ di'.pbuffer = pb ∧
        pb ≠ 0 ∧ (ctx ≠ 0 → di'.fbconfig = (ContextsInfo.index s.contexts.entries ctx).2.fbconfig)) ∧
      (draw = 0 → s' = s ∧ pb = 0) ∧
      (∀ j, j ≠ draw → Registry.find s'.drawables j = Registry.find s.drawables j) := by
  by_cases hdraw : draw = 0
  · unfold lookup_pbuffer at h
    simp only [hdraw, ↓reduceIte, Option.some.injEq, Prod.mk.injEq] at h
    obtain ⟨h1, h2⟩ := h
    subst h1
    exact ⟨kept_refl s ctx hs, rfl, fun hne => absurd hdraw hne, fun _ => ⟨rfl, h2.symm⟩,
      fun _ _ => rfl⟩
  · cases hf : Registry.find s.drawables draw with
    | none =>
      obtain ⟨hok, hnext, hn, hts, ⟨di', hd', hpb', hback, _⟩, hkeep⟩ :=
        lookup_pbuffer_unknown s s' geom draw ctx pb hs hdraw hf h
      have hc : ctx ≠ 0 := by
        intro hc
        unfold lookup_pbuffer at h
        simp [hdraw, hf, hc] at h
      have hctx : s'.contexts.entries = (ContextsInfo.index s.contexts.entries ctx).1 ∧
          di'.fbconfig = (ContextsInfo.index s.contexts.entries ctx).2.fbconfig := by
        unfold lookup_pbuffer at h
        simp only [hdraw, ↓reduceIte, hf, hc, Option.some.injEq, Prod.mk.injEq] at h
        obtain ⟨h1, _⟩ := h
        have hd2 : s'.drawables = Registry.set s.drawables draw
            (create_pbuffer s.aside (rawWindowEntry
              (ContextsInfo.index s.contexts.entries ctx).2.fbconfig draw geom)).1 := by
          rw [← h1]; rfl
        have hdi : di' = (create_pbuffer s.aside (rawWindowEntry
              (ContextsInfo.index s.contexts.entries ctx).2.fbconfig draw geom)).1 := by
          have e1 := Registry.find_set_self s.drawables draw di'
          rw [← hd', hd2, Registry.find_set_self] at e1
          exact (Option.some.inj e1).symm
        refine ⟨by rw [← h1]; rfl, ?_⟩
        rw [hdi, create_pbuffer_fields]
        rfl
      refine ⟨⟨hok, hnext, hn, ?_, ?_⟩, hts, ?_, fun h0 => absurd h0 hdraw, ?_⟩
      · intro j dj hj
        have hjd : j ≠ draw := by
          intro e; rw [e, hf] at hj; exact Option.noConfusion hj
        refine ⟨dj, by rw [hd', Registry.find_set_ne _ _ _ _ hjd]; exact hj, sameShape_refl dj,
          backed_of_same_backing _ _ dj (hkeep j dj hj), fun _ => ⟨rfl, rfl, rfl⟩, id⟩
      · intro _
        rw [hctx.1, index_index]
      · intro _
        refine ⟨di', by rw [hd', Registry.find_set_self], hpb', by rw [← hpb']; exact hback.1,
          fun _ => hctx.2⟩
      · intro j hj
        rw [hd', Registry.find_set_ne _ _ _ _ hj]
    | some di =>
      have h' : lookupKnown s draw ctx di = (s', pb) := by
        unfold lookup_pbuffer at h
        simpa [hdraw, hf] using h
      have hk := lookupKnown_ok s draw ctx di hs hf
      rw [h'] at hk
      simp only at hk
      obtain ⟨hok, hnext, hn, hts, ⟨di', hd', hpb', hpb0, hshape, hback, hmatch, hcfg⟩, hkeep,
        hctx, _⟩ := hk
      refine ⟨⟨hok, hnext, hn, ?_, ?_⟩, hts, ?_, fun h0 => absurd h0 hdraw, ?_⟩
      · intro j dj hj
        by_cases hjd : j = draw
        · subst hjd
          rw [hf] at hj
          cases hj
          exact ⟨di', by rw [hd', Registry.find_set_self], hshape, hback, hmatch,
            fun _ => hpb0⟩
        · refine ⟨dj, by rw [hd', Registry.find_set_ne _ _ _ _ hjd]; exact hj,
            sameShape_refl dj, backed_of_same_backing _ _ dj (hkeep j dj hjd hj),
            fun _ => ⟨rfl, rfl, rfl⟩, id⟩
      · intro hc
        rw [hctx]
        simp only [ne_eq, hc, not_false_eq_true, ↓reduceIte]
        rw [index_index]
      · intro _
        exact ⟨di', by rw [hd', Registry.find_set_self], hpb', by rw [← hpb']; exact hpb0, hcfg⟩
      · intro j hj
        rw [hd', Registry.find_set_ne _ _ _ _ hj]

theorem stateOk_congr (s s' : PrimusState) (hd : s'.drawables = s.drawables)
    (ha : s'.aside = s.aside) (hn : s'.nthreads = s.nthreads) (hs : StateOk s) : StateOk s' := by
  refine ⟨?_, ?_, ?_, ?_⟩
  · intro k di h; rw [ha]; rw [hd] at h; exact hs.entries k di h
  · intro k1 k2 d1 d2 h1 h2; rw [hd] at h1 h2; exact hs.distinct k1 k2 d1 d2 h1 h2
  · rw [ha]; exact hs.nonnull
  · intro k di h; rw [hn]; rw [hd] at h; exact hs.threads k di h

theorem kept_congr (s s1 s' : PrimusState) (ctx : Nat) (hd : s'.drawables = s1.drawables)
    (ha : s'.aside = s1.aside) (hn : s'.nthreads = s1.nthreads)
    (hc : s'.contexts = s1.contexts) (h : Kept s s1 ctx) : Kept s s' ctx := by
  refine ⟨stateOk_congr s1 s' hd ha hn h.ok, by rw [ha]; exact h.next,
    by rw [hn]; exact h.nthreads, ?_, ?_⟩
  · intro j dj hj
    obtain ⟨dj', h1, h2, h3, h4, h5⟩ := h.entries j dj hj
    exact ⟨dj', by rw [hd]; exact h1, h2, by rw [ha]; exact h3, h4, h5⟩
  · intro hctx
    rw [hc]; exact h.context hctx

theorem glXMakeCurrent_kept (s s' : PrimusState) (geom : Int × Int) (drawable ctx : Nat)
    (hs : StateOk s) (h : glXMakeCurrent s geom drawable ctx = some s') :
    Kept s s' ctx ∧
      (drawable ≠ 0 → ∃ di', Registry.find s'.drawables drawable = some di' ∧
        di'.pbuffer ≠ 0 ∧
        (ctx ≠ 0 → di'.fbconfig = (ContextsInfo.index s.contexts.entries ctx).2.fbconfig)) := by
  unfold glXMakeCurrent at h
  cases hl : lookup_pbuffer s geom drawable ctx with
  | none => simp [hl] at h
  | some r =>
    obtain ⟨s1, pb⟩ := r
    simp only [hl, Option.map_some', Option.some.injEq] at h
    have hk := lookup_pbuffer_kept s s1 geom drawable ctx pb hs hl
    subst h
    refine ⟨kept_congr s s1 _ ctx rfl rfl rfl rfl hk.1, ?_⟩
    intro hd
    obtain ⟨di', h1, h2, h3, h4⟩ := hk.2.2.1 hd
    exact ⟨di', h1, by rw [h2]; exact h3, h4⟩

theorem glXMakeContextCurrent_kept (s s' : PrimusState) (geomDraw geomRead : Int × Int)
    (draw read ctx : Nat) (hs : StateOk s)
    (h : glXMakeContextCurrent s geomDraw geomRead draw read ctx = some s') :
    Kept s s' ctx := by
  unfold glXMakeContextCurrent at h
  by_cases hdr : draw = read
  · simp only [hdr, ↓reduceIte] at h
    exact (glXMakeCurrent_kept s s' geomDraw read ctx hs h).1
  · simp only [hdr, ↓reduceIte] at h
    cases hl : lookup_pbuffer s geomDraw draw ctx with
    | none => simp [hl] at h
    | some r1 =>
      obtain ⟨s1, pb1⟩ := r1
      simp only [hl] at h
      cases hl2 : lookup_pbuffer s1 geomRead read ctx with
      | none => simp [hl2] at h
      | some r2 =>
        obtain ⟨s2, pb2⟩ := r2
        simp only [hl2, Option.map_some', Option.some.injEq] at h
        have hk1 := (lookup_pbuffer_kept s s1 geomDraw draw ctx pb1 hs hl).1
        have hk2 := (lookup_pbuffer_kept s1 s2 geomRead read ctx pb2 hk1.ok hl2).1
        subst h
        exact kept_congr s s2 _ ctx rfl rfl rfl rfl (kept_trans s s1 s2 ctx hk1 hk2)

theorem stateOk_createContext (s : PrimusState) (actx config shareList : Nat) (hs : StateOk s) :
    StateOk (glXCreateNewContext s actx config shareList) :=
  stateOk_congr s _ rfl rfl rfl hs

theorem reap_workers_entryOk (a : ASide) (di : DrawableInfo) (h : EntryOk a di) :
    EntryOk a di.reap_workers := by
  have hf := reap_workers_fields di
  refine ⟨reap_workers_paired di h.paired, by rw [hf.2.2.2.2.1]; exact h.noShutdown, ?_⟩
  intro hp
  rw [hf.1] at hp ⊢
  obtain ⟨hlt, pa, hpa, hcfg, hdim⟩ := h.backed hp
  refine ⟨hlt, pa, hpa, by rw [hf.2.1]; exact hcfg, ?_⟩
  rw [hf.2.2.2.2.1, hf.2.2.1, hf.2.2.2.1]
  exact hdim

theorem stateOk_destroyContext (s : PrimusState) (ctx : Nat) (hs : StateOk s) :
    StateOk (glXDestroyContext s ctx) := by
  unfold glXDestroyContext
  by_cases he : (Registry.erase s.contexts.entries ctx).isEmpty = true
  · simp only [he, ↓reduceIte]
    refine ⟨?_, ?_, hs.nonnull, ?_⟩
    · intro k di h
      simp only [Registry.find_mapVals] at h
      cases hf : Registry.find s.drawables k with
      | none => simp [hf] at h
      | some d0 =>
        simp only [hf, Option.map_some', Option.some.injEq] at h
        subst h
        exact reap_workers_entryOk _ _ (hs.entries k d0 hf)
    · intro k1 k2 d1 d2 h1 h2 hp heq
      simp only [Registry.find_mapVals] at h1 h2
      cases hf1 : Registry.find s.drawables k1 with
      | none => simp [hf1] at h1
      | some e1 =>
        cases hf2 : Registry.find s.drawables k2 with
        | none => simp [hf2] at h2
        | some e2 =>
          simp only [hf1, hf2, Option.map_some', Option.some.injEq] at h1 h2
          subst h1; subst h2
          rw [(reap_workers_fields e1).1] at hp heq
          rw [(reap_workers_fields e2).1] at heq
          exact hs.distinct k1 k2 e1 e2 hf1 hf2 hp heq
    · intro k di h
      simp only [Registry.find_mapVals] at h
      cases hf : Registry.find s.drawables k with
      | none => simp [hf] at h
      | some d0 =>
        simp only [hf, Option.map_some', Option.some.injEq] at h
        subst h
        have := hs.threads k d0 hf
        have hr := reap_workers_fields d0
        simp only at this ⊢
        omega
  · simp only [he, Bool.false_eq_true, ↓reduceIte]
    exact stateOk_congr s _ rfl rfl rfl hs

theorem stateOk_createDrawable (s : PrimusState) (kind : DrawableKind)
    (handle config win : Nat) (geom : Int × Int) (hs : StateOk s)
    (hfresh : Registry.find s.drawables handle = none) :
    StateOk (createDrawable s kind handle config win geom) := by
  refine stateOk_setEntry s _ hs handle _ rfl (le_refl _) (fun _ _ _ _ _ => rfl) ?_ ?_
    (le_refl _) ?_
  · refine ⟨by simp [hfresh, DrawableInfo.zero], by simp [hfresh, DrawableInfo.zero], ?_⟩
    intro hp
    simp [hfresh, DrawableInfo.zero] at hp
  · intro hp
    simp [hfresh, DrawableInfo.zero] at hp
  · simp [hfresh, DrawableInfo.zero]

theorem stateOk_destroyDrawable (s s' : PrimusState) (handle : Nat) (hs : StateOk s)
    (h : destroyDrawable s handle = some s') : StateOk s' := by
  unfold destroyDrawable at h
  cases hf : Registry.find s.drawables handle with
  | none => simp [hf] at h
  | some di =>
    simp only [hf, Option.some.injEq] at h
    subst h
    have hkeep : ∀ j dj, j ≠ handle → Registry.find s.drawables j = some dj → dj.pbuffer ≠ 0 →
        Registry.find (if di.pbuffer ≠ 0 then s.aside.destroyPbuffer di.pbuffer
          else s.aside).pbuffers dj.pbuffer = Registry.find s.aside.pbuffers dj.pbuffer := by
      intro j dj hj hfj hpj
      by_cases hp : di.pbuffer = 0
      · simp [hp]
      · simp only [ne_eq, hp, not_false_eq_true, ↓reduceIte]
        exact find_destroy_other s hs handle di hf j dj hj hfj hpj
    have hnext : (if di.pbuffer ≠ 0 then s.aside.destroyPbuffer di.pbuffer
        else s.aside).next = s.aside.next := by
      by_cases hp : di.pbuffer = 0 <;> simp [hp, ASide.destroyPbuffer]
    refine ⟨?_, ?_, ?_, ?_⟩
    · intro j dj hfj
      simp only [Registry.find_erase] at hfj
      by_cases hj : j = handle
      · simp [hj] at hfj
      · simp only [hj, ↓reduceIte] at hfj
        have he := hs.entries j dj hfj
        refine ⟨he.paired, he.noShutdown, ?_⟩
        intro hp
        obtain ⟨hlt, pa, hpa, hrest⟩ := he.backed hp
        refine ⟨by simp only [hnext]; exact hlt, pa, ?_, hrest⟩
        simp only [hkeep j dj hj hfj hp]
        exact hpa
    · intro k1 k2 d1 d2 h1 h2 hp heq
      simp only [Registry.find_erase] at h1 h2
      by_cases hk1 : k1 = handle
      · simp [hk1] at h1
      · by_cases hk2 : k2 = handle
        · simp [hk2] at h2
        · simp only [hk1, hk2, ↓reduceIte] at h1 h2
          exact hs.distinct k1 k2 d1 d2 h1 h2 hp heq
    · simp only [hnext]; exact hs.nonnull
    · intro j dj hfj
      simp only [Registry.find_erase] at hfj
      by_cases hj : j = handle
      · simp [hj] at hfj
      · simp only [hj, ↓reduceIte] at hfj
        exact hs.threads j dj hfj

theorem stateOk_configure (s s' : PrimusState) (drawable : Nat) (ev : Int × Int)
    (hs : StateOk s) (h : configureNotify s drawable ev = some s') : StateOk s' := by
  unfold configureNotify at h
  cases hf : Registry.find s.drawables drawable with
  | none => simp [hf] at h
  | some di =>
    simp only [hf] at h
    by_cases hw : di.d.worker = 0
    · simp [hw] at h
    · simp only [ne_eq, hw, not_false_eq_true, ↓reduceIte, Option.some.injEq] at h
      subst h
      have he := hs.entries drawable di hf
      refine stateOk_setEntry s _ hs drawable _ rfl (le_refl _) (fun _ _ _ _ _ => rfl) ?_ ?_
        (le_refl _) (hs.threads drawable di hf)
      · refine ⟨he.paired, by simp [recordConfigure], ?_⟩
        intro hp
        obtain ⟨hlt, pa, hpa, hcfg, _⟩ := he.backed hp
        exact ⟨hlt, pa, hpa, hcfg, Or.inl rfl⟩
      · intro _
        exact Or.inl ⟨di, hf, rfl⟩

theorem stateOk_queryDrawable (s s' : PrimusState) (geom : Int × Int) (draw : Nat)
    (hs : StateOk s) (h : glXQueryDrawable s geom draw = some s') : StateOk s' := by
  unfold glXQueryDrawable at h
  by_cases hk : Registry.known s.drawables draw = true
  · simp only [hk, ↓reduceIte] at h
    cases hl : lookup_pbuffer s geom draw 0 with
    | none => simp [hl] at h
    | some r =>
      obtain ⟨s1, pb⟩ := r
      simp only [hl, Option.map_some', Option.some.injEq] at h
      subst h
      exact (lookup_pbuffer_kept s s1 geom draw 0 pb hs hl).1.ok
  · simp [hk] at h

theorem foldl_recordConfigure (evs : List (Int × Int)) :
    ∀ di : DrawableInfo,
      (evs.foldl recordConfigure di).pbuffer = di.pbuffer ∧
      (evs.foldl recordConfigure di).fbconfig = di.fbconfig ∧
      (evs.foldl recordConfigure di).kind = di.kind ∧
      (evs.foldl recordConfigure di).window = di.window ∧
      (evs.foldl recordConfigure di).actx = di.actx ∧
      (evs.foldl recordConfigure di).r = di.r ∧
      (evs.foldl recordConfigure di).d = di.d ∧
      ((evs.foldl recordConfigure di).reinit = di.reinit ∨
        (evs.foldl recordConfigure di).reinit = ReinitTodo.RESIZE) ∧
      ((evs.foldl recordConfigure di).reinit ≠ ReinitTodo.RESIZE →
        evs.foldl recordConfigure di = di) := by
  induction evs with
  | nil => intro di; simp
  | cons ev rest ih =>
    intro di
    obtain ⟨h1, h2, h3, h4, h5, h6, h7, h8, h9⟩ := ih (recordConfigure di ev)
    simp only [List.foldl_cons]
    refine ⟨h1, h2, h3, h4, h5, h6, h7, ?_, ?_⟩
    · right
      rcases h8 with h | h
      · rw [h]; rfl
      · exact h
    · intro hne
      exfalso
      rcases h8 with h | h
      · exact hne (by rw [h]; rfl)
      · exact hne h

theorem serveSwap_fields (di : DrawableInfo) :
    (serveSwap di).pbuffer = di.pbuffer ∧ (serveSwap di).fbconfig = di.fbconfig ∧
      (serveSwap di).kind = di.kind ∧ (serveSwap di).window = di.window ∧
      (serveSwap di).actx = di.actx ∧ (serveSwap di).r.worker = di.r.worker ∧
      (serveSwap di).d.worker = di.d.worker ∧ (serveSwap di).reinit = di.reinit ∧
      (serveSwap di).width = di.width ∧ (serveSwap di).height = di.height := by
  unfold serveSwap
  cases di.r.reinit <;> simp

theorem ensureWorkers_fields (m : Registry ContextInfo) (di : DrawableInfo) (ctx tid : Nat) :
    (ensureWorkers m di ctx tid).1.pbuffer = di.pbuffer ∧
      (ensureWorkers m di ctx tid).1.fbconfig = di.fbconfig ∧
      (ensureWorkers m di ctx tid).1.kind = di.kind ∧
      (ensureWorkers m di ctx tid).1.window = di.window ∧
      (ensureWorkers m di ctx tid).1.reinit = di.reinit ∧
      (ensureWorkers m di ctx tid).1.width = di.width ∧
      (ensureWorkers m di ctx tid).1.height = di.height := by
  have hf := reap_workers_fields di
  unfold ensureWorkers
  by_cases hn : needsRespawn m di ctx = true
  · simp only [hn, ↓reduceIte]
    by_cases hw : di.reap_workers.r.worker = 0
    · simp only [hw, ↓reduceIte, DrawableInfo.spawn_workers]
      exact ⟨hf.1, hf.2.1, hf.2.2.2.2.2.1, hf.2.2.2.2.2.2.1, hf.2.2.2.2.1, hf.2.2.1, hf.2.2.2.1⟩
    · simp only [hw, ↓reduceIte]
      exact ⟨hf.1, hf.2.1, hf.2.2.2.2.2.1, hf.2.2.2.2.2.2.1, hf.2.2.2.2.1, hf.2.2.1, hf.2.2.2.1⟩
  · simp only [hn, Bool.false_eq_true, ↓reduceIte]
    by_cases hw : di.r.worker = 0
    · simp [hw, DrawableInfo.spawn_workers]
    · simp [hw]

/-- Lines 606 to 620 of `glXSwapBuffers` leave two workers behind, old ones
or the two threads just created. -/
theorem ensureWorkers_workers (m : Registry ContextInfo) (di : DrawableInfo) (ctx tid : Nat)
    (hpair : di.r.worker = 0 ↔ di.d.worker = 0)
    (hthr : di.r.worker ≤ tid ∧ di.d.worker ≤ tid) :
    (ensureWorkers m di ctx tid).1.r.worker ≠ 0 ∧ (ensureWorkers m di ctx tid).1.d.worker ≠ 0 ∧
      (ensureWorkers m di ctx tid).1.r.worker ≤ (ensureWorkers m di ctx tid).2 ∧
      (ensureWorkers m di ctx tid).1.d.worker ≤ (ensureWorkers m di ctx tid).2 ∧
      tid ≤ (ensureWorkers m di ctx tid).2 ∧
      ((di.r.worker = 0 ∨ needsRespawn m di ctx = true) →
        (ensureWorkers m di ctx tid).1.r = ⟨tid + 2, ReinitTodo.RESIZE⟩ ∧
        (ensureWorkers m di ctx tid).1.d = ⟨tid + 1, ReinitTodo.RESIZE⟩ ∧
        (ensureWorkers m di ctx tid).1.actx = ctx) ∧
      ((di.r.worker ≠ 0 ∧ needsRespawn m di ctx = false) →
        (ensureWorkers m di ctx tid).1 = di ∧ (ensureWorkers m di ctx tid).2 = tid) := by
  unfold ensureWorkers
  by_cases hn : needsRespawn m di ctx = true
  · have hr : di.r.worker ≠ 0 := by
      unfold needsRespawn at hn
      simp only [ne_eq, decide_eq_true_eq] at hn
      exact hn.1
    have hw : di.reap_workers.r.worker = 0 := by
      unfold DrawableInfo.reap_workers
      simp [hr]
    simp only [hn, ↓reduceIte, hw, DrawableInfo.spawn_workers]
    refine ⟨by simp, by simp, by simp, by simp, by simp, by simp, ?_⟩
    intro h
    simp at h
  · have hn' : needsRespawn m di ctx = false := by simpa using hn
    simp only [hn', Bool.false_eq_true, ↓reduceIte]
    by_cases hw : di.r.worker = 0
    · simp only [hw, ↓reduceIte, DrawableInfo.spawn_workers]
      refine ⟨by simp, by simp, by simp, by simp, by simp, by simp, ?_⟩
      intro h
      simp at h
    · have hd : di.d.worker ≠ 0 := fun e => hw (hpair.2 e)
      rw [if_neg hw]
      refine ⟨hw, hd, hthr.1, hthr.2, le_refl _, ?_, fun _ => ⟨rfl, rfl⟩⟩
      intro h
      rcases h with h | h
      · exact absurd h hw
      · simp at h

theorem index_stable (m : Registry ContextInfo) (a c : Nat) :
    (ContextsInfo.index (ContextsInfo.index m a).1 c).2 = (ContextsInfo.index m c).2 := by
  unfold ContextsInfo.index
  cases ha : Registry.find m a with
  | some v => simp [ha]
  | none =>
    simp only [ha]
    by_cases hca : c = a
    · subst hca
      simp [Registry.find_set_self, ha]
    · simp only [Registry.find_set_ne _ _ _ _ hca]
      cases Registry.find m c <;> rfl

theorem index_contextsAfterCheck (m : Registry ContextInfo) (di : DrawableInfo) (ctx : Nat) :
    (ContextsInfo.index (contextsAfterCheck m di ctx) ctx).2 = (ContextsInfo.index m ctx).2 := by
  unfold contextsAfterCheck
  by_cases h : di.r.worker ≠ 0 ∧ di.actx ≠ 0 ∧ ctx ≠ 0
  · rw [if_pos h, index_index, index_stable]
  · rw [if_neg h]

theorem swapWaited_fields (s : PrimusState) (di : DrawableInfo) (ctx : Nat)
    (evs : List (Int × Int)) :
    (swapWaited s di ctx evs).pbuffer = di.pbuffer ∧
      (swapWaited s di ctx evs).fbconfig = di.fbconfig ∧
      (swapWaited s di ctx evs).kind = di.kind ∧
      (swapWaited s di ctx evs).actx = (ensureWorkers s.contexts.entries di ctx s.nthreads).1.actx ∧
      (swapWaited s di ctx evs).r.worker =
        (ensureWorkers s.contexts.entries di ctx s.nthreads).1.r.worker ∧
      (swapWaited s di ctx evs).d.worker =
        (ensureWorkers s.contexts.entries di ctx s.nthreads).1.d.worker ∧
      ((swapWaited s di ctx evs).reinit = di.reinit ∨
        (swapWaited s di ctx evs).reinit = ReinitTodo.RESIZE) ∧
      ((swapWaited s di ctx evs).reinit ≠ ReinitTodo.RESIZE →
        (swapWaited s di ctx evs).width = di.width ∧
        (swapWaited s di ctx evs).height = di.height ∧
        (swapWaited s di ctx evs).reinit = di.reinit) := by
  have h1 := foldl_recordConfigure evs
    (serveSwap (ensureWorkers s.contexts.entries di ctx s.nthreads).1)
  have h2 := serveSwap_fields (ensureWorkers s.contexts.entries di ctx s.nthreads).1
  have h3 := ensureWorkers_fields s.contexts.entries di ctx s.nthreads
  unfold swapWaited
  obtain ⟨a1, a2, a3, a4, a5, a6, a7, a8, a9⟩ := h1
  obtain ⟨b1, b2, b3, b4, b5, b6, b7, b8, b9, b10⟩ := h2
  obtain ⟨c1, c2, c3, c4, c5, c6, c7⟩ := h3
  refine ⟨by rw [a1, b1, c1], by rw [a2, b2, c2], by rw [a3, b3, c3], by rw [a5, b5],
    by rw [a6, b6], by rw [a7, b7], ?_, ?_⟩
  · rcases a8 with h | h
    · left; rw [h, b8, c5]
    · right; exact h
  · intro hne
    rw [a9 hne]
    exact ⟨by rw [b9, c6], by rw [b10, c7], by rw [b8, c5]⟩

/-- The call of `glXSwapBuffers` for a window when no resize is pending at
the end of the wait. -/
theorem glXSwapBuffers_quiet (s : PrimusState) (ctx : Nat)
    (evs : List (Int × Int)) (geomDraw geomRead : Int × Int) (k : Nat) (di : DrawableInfo)
    (hf : Registry.find s.drawables k = some di) (hkind : di.kind.isWindow = true)
    (hq : (swapWaited s di ctx evs).reinit ≠ ReinitTodo.RESIZE) :
    glXSwapBuffers s ctx evs geomDraw geomRead k =
      some { s with
        contexts := { s.contexts with entries := contextsAfterCheck s.contexts.entries di ctx }
        nthreads := (ensureWorkers s.contexts.entries di ctx s.nthreads).2
        drawables := Registry.set s.drawables k (swapWaited s di ctx evs) } := by
  have hk : ¬ (di.kind = DrawableKind.Pbuffer ∨ di.kind = DrawableKind.Pixmap) := by
    intro h
    unfold DrawableKind.isWindow at hkind
    rcases h with h | h <;> simp [h] at hkind
  unfold swapWaited at hq
  unfold glXSwapBuffers
  simp only [hf, hk, ↓reduceIte, hq, swapWaited]

/-- The call of `glXSwapBuffers` for a window when a resize is pending at
the end of the wait. -/
theorem glXSwapBuffers_resize (s s' : PrimusState) (ctx : Nat)
    (evs : List (Int × Int)) (geomDraw geomRead : Int × Int) (k : Nat) (di : DrawableInfo)
    (hf : Registry.find s.drawables k = some di) (hkind : di.kind.isWindow = true)
    (hr : (swapWaited s di ctx evs).reinit = ReinitTodo.RESIZE)
    (h : glXSwapBuffers s ctx evs geomDraw geomRead k = some s') :
    ∃ s3 di3,
      (if ctx ≠ 0 then
          glXMakeContextCurrent (swapResized s di ctx evs k) geomDraw geomRead
            (swapResized s di ctx evs k).tsdata.drawable
            (swapResized s di ctx evs k).tsdata.read_drawable ctx
        else some (swapResized s di ctx evs k)) = some s3 ∧
      Registry.find s3.drawables k = some di3 ∧
      s' = { s3 with drawables := Registry.set s3.drawables k (passReinit di3) } := by
  have hk : ¬ (di.kind = DrawableKind.Pbuffer ∨ di.kind = DrawableKind.Pixmap) := by
    intro h
    unfold DrawableKind.isWindow at hkind
    rcases h with h | h <;> simp [h] at hkind
  unfold swapWaited at hr
  unfold glXSwapBuffers at h
  simp only [hf, hk, ↓reduceIte, hr] at h
  unfold swapResized swapWaited
  by_cases hc : ctx = 0
  · simp only [hc, ne_eq, not_true_eq_false, ↓reduceIte] at h ⊢
    split at h
    · exact absurd h (by simp)
    · rename_i di3 hdi3
      exact ⟨_, di3, rfl, hdi3, (Option.some.inj h).symm⟩
  · simp only [hc, ne_eq, not_false_eq_true, ↓reduceIte] at h ⊢
    split at h
    · exact absurd h (by simp)
    · rename_i s3 hs3
      split at h
      · exact absurd h (by simp)
      · rename_i di3 hdi3
        exact ⟨s3, di3, hs3, hdi3, (Option.some.inj h).symm⟩

theorem reinit_none_of (r : ReinitTodo) (h1 : r ≠ ReinitTodo.RESIZE)
    (h2 : r ≠ ReinitTodo.SHUTDOWN) : r = ReinitTodo.NONE := by
  cases r
  · rfl
  · exact absurd rfl h1
  · exact absurd rfl h2

theorem swapResized_ok (s : PrimusState) (ctx : Nat) (evs : List (Int × Int)) (k : Nat)
    (di : DrawableInfo) (hs : StateOk s) (hf : Registry.find s.drawables k = some di)
    (hr : (swapWaited s di ctx evs).reinit = ReinitTodo.RESIZE) :
    StateOk (swapResized s di ctx evs k) ∧
      Registry.find (swapResized s di ctx evs k).drawables k =
        some (create_pbuffer (s.aside.destroyPbuffer (swapWaited s di ctx evs).pbuffer)
          (swapWaited s di ctx evs)).1 ∧
      Backed (swapResized s di ctx evs k).aside
        (create_pbuffer (s.aside.destroyPbuffer (swapWaited s di ctx evs).pbuffer)
          (swapWaited s di ctx evs)).1 := by
  have he := hs.entries k di hf
  have ht := hs.threads k di hf
  have hw := swapWaited_fields s di ctx evs
  have hew := ensureWorkers_workers s.contexts.entries di ctx s.nthreads he.paired ht
  have hnn := hs.nonnull
  have hnext : (s.aside.destroyPbuffer (swapWaited s di ctx evs).pbuffer).next = s.aside.next :=
    rfl
  refine ⟨?_, by simp [swapResized, Registry.find_set_self], ?_⟩
  · refine stateOk_setEntry s _ hs k _ rfl ?_ ?_ ?_ ?_ ?_ ?_
    · simp only [swapResized, (create_pbuffer_next _ _).1, hnext]; omega
    · intro j dj hj hfj hpj
      have hlt := ((hs.entries j dj hfj).backed hpj).1
      have hne : dj.pbuffer ≠ di.pbuffer := fun e => hj (hs.distinct j k dj di hfj hf hpj e)
      simp only [swapResized]
      rw [find_create_pbuffer_other _ _ _ (by rw [hnext]; exact hlt)]
      simp [ASide.destroyPbuffer, Registry.find_erase, hw.1, hne]
    · simp only [swapResized]
      refine entryOk_create _ _ ?_ (by rw [hr]; simp)
      rw [hw.2.2.2.2.1, hw.2.2.2.2.2.1]
      constructor
      · intro h0; exact absurd h0 hew.1
      · intro h0; exact absurd h0 hew.2.1
    · intro _
      right
      simp only [(create_pbuffer_next _ _).2, hnext]
      exact le_refl _
    · simp only [swapResized]; exact hew.2.2.2.2.1
    · simp only [swapResized, create_pbuffer_fields]
      rw [hw.2.2.2.2.1, hw.2.2.2.2.2.1]
      exact ⟨hew.2.2.1, hew.2.2.2.1⟩
  · simp only [swapResized]
    exact backed_create _ _ (by rw [hnext]; exact hnn)

theorem passReinit_fields (di : DrawableInfo) :
    (passReinit di).pbuffer = di.pbuffer ∧ (passReinit di).fbconfig = di.fbconfig ∧
      (passReinit di).width = di.width ∧ (passReinit di).height = di.height ∧
      (passReinit di).kind = di.kind ∧ (passReinit di).actx = di.actx ∧
      (passReinit di).r.worker = di.r.worker ∧ (passReinit di).d = di.d ∧
      (passReinit di).reinit = ReinitTodo.NONE :=
  ⟨rfl, rfl, rfl, rfl, rfl, rfl, rfl, rfl, rfl⟩

/-- What a call of `glXSwapBuffers` on a window leaves behind. -/
theorem glXSwapBuffers_ok (s s' : PrimusState) (ctx : Nat)
    (evs : List (Int × Int)) (geomDraw geomRead : Int × Int) (k : Nat) (di : DrawableInfo)
    (hs : StateOk s) (hf : Registry.find s.drawables k = some di)
    (hkind : di.kind.isWindow = true)
    (h : glXSwapBuffers s ctx evs geomDraw geomRead k = some s') :
    StateOk s' ∧ ∃ di', Registry.find s'.drawables k = some di' ∧
      di'.reinit = ReinitTodo.NONE ∧ di'.kind = di.kind ∧
      (di.pbuffer ≠ 0 → Backed s'.aside di') ∧
      di'.actx = (ensureWorkers s.contexts.entries di ctx s.nthreads).1.actx ∧
      ((ctx = 0 ∨ (swapWaited s di ctx evs).reinit ≠ ReinitTodo.RESIZE ∨
          di.fbconfig = (ContextsInfo.index s.contexts.entries ctx).2.fbconfig) →
        di'.r.worker = (ensureWorkers s.contexts.entries di ctx s.nthreads).1.r.worker ∧
        di'.d.worker = (ensureWorkers s.contexts.entries di ctx s.nthreads).1.d.worker) ∧
      (∀ j dj, j ≠ k → Registry.find s.drawables j = some dj →
        ∃ dj', Registry.find s'.drawables j = some dj' ∧ (dj.pbuffer ≠ 0 → dj'.pbuffer ≠ 0)) := by
  have he := hs.entries k di hf
  have ht := hs.threads k di hf
  have hw := swapWaited_fields s di ctx evs
  have hew := ensureWorkers_workers s.contexts.entries di ctx s.nthreads he.paired ht
  by_cases hr : (swapWaited s di ctx evs).reinit = ReinitTodo.RESIZE
  · -- a resize is pending
    obtain ⟨s3, di3, hs3, hdi3, hs'⟩ :=
      glXSwapBuffers_resize s s' ctx evs geomDraw geomRead k di hf hkind hr h
    obtain ⟨hok2, hfind2, hback2⟩ := swapResized_ok s ctx evs k di hs hf hr
    have hkept : Kept (swapResized s di ctx evs k) s3 ctx := by
      by_cases hc : ctx = 0
      · simp only [hc, ne_eq, not_true_eq_false, ↓reduceIte, Option.some.injEq] at hs3
        rw [← hs3, ← hc]
        exact kept_refl _ _ hok2
      · simp only [hc, ne_eq, not_false_eq_true, ↓reduceIte] at hs3
        exact glXMakeContextCurrent_kept _ _ _ _ _ _ _ hok2 hs3
    obtain ⟨d3, hd3, hshape, hback3, hwork3, _⟩ := hkept.entries k _ hfind2
    rw [hdi3] at hd3
    cases hd3
    have hb3 := hback3 hback2
    have he3 := hkept.ok.entries k di3 hdi3
    have hpf := passReinit_fields di3
    have hok' : StateOk s' := by
      refine stateOk_setEntry s3 s' hkept.ok k (passReinit di3) (by rw [hs']) (by rw [hs'])
        (fun _ _ _ _ _ => by rw [hs']) ?_ ?_ (by rw [hs']) ?_
      · rw [hs']
        refine ⟨by rw [hpf.2.2.2.2.2.2.1, hpf.2.2.2.2.2.2.2.1]; exact he3.paired,
          by rw [hpf.2.2.2.2.2.2.2.2]; simp, ?_⟩
        intro hp
        obtain ⟨hlt, _⟩ := he3.backed hp
        obtain ⟨_, pa, hpa, hcfg, hwd, hht⟩ := hb3
        exact ⟨hlt, pa, hpa, hcfg, Or.inr ⟨hwd, hht⟩⟩
      · intro _
        exact Or.inl ⟨di3, hdi3, rfl⟩
      · rw [hs']
        have := hkept.ok.threads k di3 hdi3
        exact ⟨this.1, this.2⟩
    refine ⟨hok', passReinit di3, by rw [hs']; simp [Registry.find_set_self], rfl, ?_, ?_, ?_, ?_,
      ?_⟩
    · rw [hpf.2.2.2.2.1, hshape.1, create_pbuffer_fields]
      exact hw.2.2.1
    · intro _
      rw [hs']
      exact hb3
    · rw [hpf.2.2.2.2.2.1, hshape.2.2.2.2.2, create_pbuffer_fields]
      exact hw.2.2.2.1
    · intro hmatch
      have hm2 : ctx = 0 ∨
          (create_pbuffer (s.aside.destroyPbuffer (swapWaited s di ctx evs).pbuffer)
            (swapWaited s di ctx evs)).1.fbconfig =
          (ContextsInfo.index (swapResized s di ctx evs k).contexts.entries ctx).2.fbconfig := by
        rcases hmatch with h0 | h0 | h0
        · exact Or.inl h0
        · exact absurd hr h0
        · right
          rw [create_pbuffer_fields]
          simp only [swapResized, index_contextsAfterCheck]
          rw [hw.2.1]
          exact h0
      obtain ⟨hr3, hd3', _⟩ := hwork3 hm2
      rw [hpf.2.2.2.2.2.2.1, hpf.2.2.2.2.2.2.2.1, hr3, hd3', create_pbuffer_fields]
      exact ⟨hw.2.2.2.2.1, hw.2.2.2.2.2.1⟩
    · intro j dj hj hfj
      have hf2 : Registry.find (swapResized s di ctx evs k).drawables j = some dj := by
        simp only [swapResized, Registry.find_set_ne _ _ _ _ hj]
        exact hfj
      obtain ⟨dj', hdj', _, _, _, hpj⟩ := hkept.entries j dj hf2
      exact ⟨dj', by rw [hs']; simp only [Registry.find_set_ne _ _ _ _ hj]; exact hdj', hpj⟩
  · -- no resize is pending
    have hq := glXSwapBuffers_quiet s ctx evs geomDraw geomRead k di hf hkind hr
    rw [hq] at h
    have hs' := (Option.some.inj h).symm
    obtain ⟨hwd, hht, hre⟩ := hw.2.2.2.2.2.2.2 hr
    have hnone : (swapWaited s di ctx evs).reinit = ReinitTodo.NONE :=
      reinit_none_of _ hr (by rw [hre]; exact he.noShutdown)
    have hdr : di.reinit ≠ ReinitTodo.RESIZE := by rw [← hre]; exact hr
    have hbk : di.pbuffer ≠ 0 → Backed s.aside (swapWaited s di ctx evs) := by
      intro hp
      obtain ⟨_, pa, hpa, hcfg, hdim⟩ := he.backed hp
      refine ⟨by rw [hw.1]; exact hp, pa, by rw [hw.1]; exact hpa, by rw [hw.2.1]; exact hcfg, ?_⟩
      rcases hdim with h0 | h0
      · exact absurd h0 hdr
      · rw [hwd, hht]; exact h0
    have hok' : StateOk s' := by
      refine stateOk_setEntry s s' hs k (swapWaited s di ctx evs) (by rw [hs']) (by rw [hs'])
        (fun _ _ _ _ _ => by rw [hs']) ?_ ?_ (by rw [hs']; exact hew.2.2.2.2.1) ?_
      · rw [hs']
        refine ⟨?_, by rw [hnone]; simp, ?_⟩
        · rw [hw.2.2.2.2.1, hw.2.2.2.2.2.1]
          constructor
          · intro h0; exact absurd h0 hew.1
          · intro h0; exact absurd h0 hew.2.1
        · intro hp
          rw [hw.1] at hp
          obtain ⟨hlt, _⟩ := he.backed hp
          obtain ⟨_, pa, hpa, hcfg, hdim⟩ := hbk hp
          exact ⟨by rw [hw.1]; exact hlt, pa, hpa, hcfg, Or.inr hdim⟩
      · intro _
        exact Or.inl ⟨di, hf, hw.1.symm⟩
      · rw [hs', hw.2.2.2.2.1, hw.2.2.2.2.2.1]
        exact ⟨hew.2.2.1, hew.2.2.2.1⟩
    refine ⟨hok', swapWaited s di ctx evs, by rw [hs']; simp [Registry.find_set_self], hnone,
      hw.2.2.1, ?_, hw.2.2.2.1, fun _ => ⟨hw.2.2.2.2.1, hw.2.2.2.2.2.1⟩, ?_⟩
    · intro hp
      rw [hs']
      exact hbk hp
    · intro j dj hj hfj
      exact ⟨dj, by rw [hs']; simp only [Registry.find_set_ne _ _ _ _ hj]; exact hfj, id⟩

theorem staysBacked_of_kept (s s' : PrimusState) (ctx : Nat) (h : Kept s s' ctx) :
    StaysBacked s s' := by
  intro j dj dj' hj hj' hp
  obtain ⟨d, hd, _, _, _, hpd⟩ := h.entries j dj hj
  rw [hj'] at hd
  cases hd
  exact hpd hp

theorem staysBacked_of_eq (s s' : PrimusState) (h : s'.drawables = s.drawables) :
    StaysBacked s s' := by
  intro j dj dj' hj hj' hp
  rw [h, hj] at hj'
  cases hj'
  exact hp

theorem step_ok (s s' : PrimusState) (hs : StateOk s) (h : Step s s') :
    StateOk s' ∧ StaysBacked s s' := by
  cases h with
  | createContext actx config shareList =>
    exact ⟨stateOk_createContext s actx config shareList hs, staysBacked_of_eq _ _ rfl⟩
  | destroyContext ctx =>
    refine ⟨stateOk_destroyContext s ctx hs, ?_⟩
    intro j dj dj' hj hj' hp
    unfold glXDestroyContext at hj'
    by_cases he : (Registry.erase s.contexts.entries ctx).isEmpty = true
    · simp only [he, ↓reduceIte, Registry.find_mapVals, hj, Option.map_some',
        Option.some.injEq] at hj'
      rw [← hj', (reap_workers_fields dj).1]
      exact hp
    · simp only [he, Bool.false_eq_true, ↓reduceIte, hj, Option.some.injEq] at hj'
      rw [← hj']
      exact hp
  | createDrawable kind handle config win geom hkind hfresh =>
    refine ⟨stateOk_createDrawable s kind handle config win geom hs hfresh, ?_⟩
    intro j dj dj' hj hj' hp
    have hne : j ≠ handle := by
      intro e; rw [e, hfresh] at hj; exact Option.noConfusion hj
    simp only [createDrawable, Registry.find_set_ne _ _ _ _ hne, hj, Option.some.injEq] at hj'
    rw [← hj']
    exact hp
  | destroyDrawable _ handle h =>
    refine ⟨stateOk_destroyDrawable s s' handle hs h, ?_⟩
    intro j dj dj' hj hj' hp
    unfold destroyDrawable at h
    cases hf : Registry.find s.drawables handle with
    | none => simp [hf] at h
    | some di =>
      simp only [hf, Option.some.injEq] at h
      subst h
      simp only [Registry.find_erase] at hj'
      by_cases hjh : j = handle
      · simp [hjh] at hj'
      · simp only [hjh, ↓reduceIte, hj, Option.some.injEq] at hj'
        rw [← hj']
        exact hp
  | makeCurrent _ geom drawable ctx h =>
    have hk := (glXMakeCurrent_kept s s' geom drawable ctx hs h).1
    exact ⟨hk.ok, staysBacked_of_kept s s' ctx hk⟩
  | makeContextCurrent _ geomDraw geomRead draw read ctx h =>
    have hk := glXMakeContextCurrent_kept s s' geomDraw geomRead draw read ctx hs h
    exact ⟨hk.ok, staysBacked_of_kept s s' ctx hk⟩
  | swapBuffers _ ctx evs geomDraw geomRead drawable h =>
    cases hf : Registry.find s.drawables drawable with
    | none =>
      unfold glXSwapBuffers at h
      simp [hf] at h
    | some di =>
      by_cases hkind : di.kind.isWindow = true
      · obtain ⟨hok, di', hdi', _, _, hback, _, _, hothers⟩ :=
          glXSwapBuffers_ok s s' ctx evs geomDraw geomRead drawable di hs hf hkind h
        refine ⟨hok, ?_⟩
        intro j dj dj' hj hj' hp
        by_cases hjd : j = drawable
        · subst hjd
          rw [hf] at hj
          cases hj
          rw [hdi'] at hj'
          cases hj'
          exact (hback hp).1
        · obtain ⟨d, hd, hpd⟩ := hothers j dj hjd hj
          rw [hj'] at hd
          cases hd
          exact hpd hp
      · have hk : di.kind = DrawableKind.Pbuffer ∨ di.kind = DrawableKind.Pixmap := by
          unfold DrawableKind.isWindow at hkind
          cases hdk : di.kind <;> simp [hdk] at hkind ⊢
        unfold glXSwapBuffers at h
        simp only [hf, hk, ↓reduceIte, Option.some.injEq] at h
        subst h
        exact ⟨hs, staysBacked_of_eq _ _ rfl⟩
  | queryDrawable _ geom draw h =>
    refine ⟨stateOk_queryDrawable s s' geom draw hs h, ?_⟩
    unfold glXQueryDrawable at h
    by_cases hk : Registry.known s.drawables draw = true
    · simp only [hk, ↓reduceIte] at h
      cases hl : lookup_pbuffer s geom draw 0 with
      | none => simp [hl] at h
      | some r =>
        obtain ⟨s1, pb⟩ := r
        simp only [hl, Option.map_some', Option.some.injEq] at h
        subst h
        exact staysBacked_of_kept s s1 0 (lookup_pbuffer_kept s s1 geom draw 0 pb hs hl).1
    · simp [hk] at h
  | configure _ drawable ev h =>
    refine ⟨stateOk_configure s s' drawable ev hs h, ?_⟩
    intro j dj dj' hj hj' hp
    unfold configureNotify at h
    cases hf : Registry.find s.drawables drawable with
    | none => simp [hf] at h
    | some di =>
      simp only [hf] at h
      by_cases hw : di.d.worker = 0
      · simp [hw] at h
      · simp only [ne_eq, hw, not_false_eq_true, ↓reduceIte, Option.some.injEq] at h
        subst h
        simp only [Registry.find_set] at hj'
        by_cases hjd : j = drawable
        · subst hjd
          rw [hf] at hj
          cases hj
          simp only [↓reduceIte, Option.some.injEq] at hj'
          rw [← hj']
          exact hp
        · simp only [hjd, ↓reduceIte, hj, Option.some.injEq] at hj'
          rw [← hj']
          exact hp

theorem reachable_ok (s : PrimusState) (h : Reachable s) : StateOk s := by
  induction h with
  | init => exact stateOk_init
  | step s s' _ hstep ih => exact (step_ok s s' ih hstep).1

/-! ## The worker pipeline -/

theorem pipeTable_closed : tableClosed pipeTable = true := by decide!

theorem pipeTable_balanced : tableBalanced pipeTable = true := by decide!

theorem pipeTable_start : ((Pipe.init 2).ctl, 0) ∈ pipeTable := by decide!

theorem pipeTable_live :
    pipeTable.all (fun e => !(pipeMoves e.1).isEmpty) = true := by decide!

theorem tableClosed_spec (t : List (PipeCtl × Nat)) (h : tableClosed t = true)
    (e : PipeCtl × Nat) (he : e ∈ t) (m : PipeMove) (hm : m ∈ pipeMoves e.1) :
    ∃ e', e' ∈ t ∧ e'.1 = m.1 ∧ e.2 + m.2.1 = e'.2 + m.2.2 := by
  unfold tableClosed at h
  rw [List.all_eq_true] at h
  have h1 := h e he
  rw [List.all_eq_true] at h1
  have h2 := h1 m hm
  rw [List.any_eq_true] at h2
  obtain ⟨e', he', hcond⟩ := h2
  simp only [Bool.and_eq_true, beq_iff_eq] at hcond
  exact ⟨e', he', hcond.1, hcond.2⟩

theorem pipeInv_step (p q : Pipe) (hp : PipeInv p) (hq : q ∈ p.steps) : PipeInv q := by
  obtain ⟨e, he, hctl, hcount⟩ := hp
  unfold Pipe.steps at hq
  rw [List.mem_map] at hq
  obtain ⟨m, hm, hqm⟩ := hq
  rw [← hctl] at hm
  obtain ⟨e', he', hctl', hlead⟩ := tableClosed_spec pipeTable pipeTable_closed e he m hm
  refine ⟨e', he', ?_, ?_⟩
  · rw [← hqm]; exact hctl'
  · rw [← hqm]
    simp only
    omega

theorem pipeInv_reachable (p : Pipe) (h : PipeReachable (Pipe.init 2) p) : PipeInv p := by
  induction h with
  | start => exact ⟨((Pipe.init 2).ctl, 0), pipeTable_start, rfl, rfl⟩
  | step p q _ hq ih => exact pipeInv_step p q ih hq

theorem runSchedule_reachable (p0 : Pipe) (sched : List Nat) :
    ∀ p, PipeReachable p0 p → PipeReachable p0 (runSchedule sched p) := by
  induction sched with
  | nil => intro p hp; exact hp
  | cons i rest ih =>
    intro p hp
    simp only [runSchedule]
    apply ih
    cases hget : p.steps.get? i with
    | none => simpa using hp
    | some q =>
      simp only [Option.getD_some]
      exact PipeReachable.step p q hp (List.get?_mem hget)

/-- C1. In sync mode 2, in every state the pipeline of a window reaches from
its start (no workers, application idle), whenever the application thread is
outside `glXSwapBuffers` the number of presentations made by `display_work`
equals the number of completed calls of `glXSwapBuffers`: no frame is
dropped. -/
theorem no_frame_dropped (p : Pipe) (h : PipeReachable (Pipe.init 2) p)
    (hout : p.ctl.app.outsideSwap = true) : p.presented = p.swapsDone := by
  obtain ⟨e, he, hctl, hcount⟩ := pipeInv_reachable p h
  have hb := pipeTable_balanced
  unfold tableBalanced at hb
  rw [List.all_eq_true] at hb
  have h1 := hb e he
  rw [hctl, hout] at h1
  simp only [Bool.not_true, Bool.false_or, beq_iff_eq] at h1
  omega

/-- Witness for C1: the schedule that always runs the first enabled thread,
application first, for fifty steps; two calls are completed and two frames
presented. -/
theorem no_frame_dropped_witness :
    (runSchedule (List.replicate 50 0) (Pipe.init 2)).ctl.app.outsideSwap = true ∧
    (runSchedule (List.replicate 50 0) (Pipe.init 2)).swapsDone = 2 ∧
    (runSchedule (List.replicate 50 0) (Pipe.init 2)).presented =
      (runSchedule (List.replicate 50 0) (Pipe.init 2)).swapsDone :=
  ⟨by decide!, by decide!,
    no_frame_dropped _ (runSchedule_reachable _ _ _ PipeReachable.start) (by decide!)⟩

/-- In sync mode 2 the pipeline never blocks: in every reachable state some
thread can take a step. -/
theorem pipe_never_stuck (p : Pipe) (h : PipeReachable (Pipe.init 2) p) : p.steps ≠ [] := by
  obtain ⟨e, he, hctl, _⟩ := pipeInv_reachable p h
  have hl := pipeTable_live
  rw [List.all_eq_true] at hl
  have h1 := hl e he
  rw [hctl] at h1
  intro hnil
  unfold Pipe.steps at hnil
  rw [List.map_eq_nil_iff] at hnil
  rw [hnil] at h1
  simp at h1

/-! ## Context registry: share groups -/

theorem wrapInt32_succ (x : Int) (h0 : 0 ≤ x) (h1 : x + 1 < 2147483648) :
    wrapInt32 (x + 1) = x + 1 := by
  unfold wrapInt32
  omega

theorem index_of_known (m : Registry ContextInfo) (k : Nat) (i : ContextInfo)
    (h : Registry.find m k = some i) : ContextsInfo.index m k = (m, i) := by
  simp [ContextsInfo.index, h]

theorem known_iff_find {α : Type} (m : Registry α) (k : Nat) :
    Registry.known m k = true ↔ ∃ v, Registry.find m k = some v := by
  simp [Registry.known, Option.isSome_iff_exists]

theorem record_shared (c : ContextsInfo) (ctx config share : Nat) (i : ContextInfo)
    (hs : share ≠ 0) (h : Registry.find c.entries share = some i) :
    ContextsInfo.record c ctx config share =
      { entries := Registry.set c.entries ctx ⟨config, i.sharegroup⟩,
        nsharegroups := c.nsharegroups } := by
  simp [ContextsInfo.record, hs, index_of_known _ _ _ h]

theorem record_fresh (c : ContextsInfo) (ctx config : Nat) :
    ContextsInfo.record c ctx config 0 =
      { entries := Registry.set c.entries ctx ⟨config, c.nsharegroups⟩,
        nsharegroups := wrapInt32 (c.nsharegroups + 1) } := by
  simp [ContextsInfo.record]

theorem idsBelow_record (c : ContextsInfo) (k : RecordCall) (h : IdsBelowCounter c)
    (hs : k.share ≠ 0 → Registry.known c.entries k.share = true)
    (hb : c.nsharegroups + 1 < 2147483648) :
    IdsBelowCounter (ContextsInfo.record c k.ctx k.config k.share) ∧
      c.nsharegroups ≤ (ContextsInfo.record c k.ctx k.config k.share).nsharegroups ∧
      (ContextsInfo.record c k.ctx k.config k.share).nsharegroups ≤ c.nsharegroups + 1 := by
  obtain ⟨h0, hlt⟩ := h
  by_cases hz : k.share = 0
  · rw [hz, record_fresh, wrapInt32_succ _ h0 hb]
    refine ⟨⟨by simp; omega, ?_⟩, by simp, by simp⟩
    intro j i hj
    rw [Registry.find_set] at hj
    by_cases hjk : j = k.ctx
    · simp [hjk] at hj
      subst hj
      simp
      omega
    · simp [hjk] at hj
      have := hlt j i hj
      simp
      omega
  · obtain ⟨i, hi⟩ := (known_iff_find _ _).1 (hs hz)
    rw [record_shared c _ _ _ i hz hi]
    refine ⟨⟨h0, ?_⟩, by simp, by simp⟩
    intro j i' hj
    rw [Registry.find_set] at hj
    by_cases hjk : j = k.ctx
    · simp [hjk] at hj
      subst hj
      exact hlt _ i hi
    · simp [hjk] at hj
      exact hlt j i' hj

theorem idsBelow_recordAll (calls : List RecordCall) :
    ∀ (c : ContextsInfo), IdsBelowCounter c → SharesRecorded c calls →
      c.nsharegroups + calls.length < 2147483648 →
      IdsBelowCounter (ContextsInfo.recordAll c calls) ∧
        c.nsharegroups ≤ (ContextsInfo.recordAll c calls).nsharegroups ∧
        (ContextsInfo.recordAll c calls).nsharegroups ≤ c.nsharegroups + calls.length := by
  induction calls with
  | nil => intro c h _ _; exact ⟨h, by simp [ContextsInfo.recordAll], by simp [ContextsInfo.recordAll]⟩
  | cons k rest ih =>
    intro c h hs hb
    simp only [List.length_cons, Nat.cast_add, Nat.cast_one] at hb
    have h1 := idsBelow_record c k h hs.1 (by have := h.1; omega)
    have h2 := ih _ h1.1 hs.2 (by omega)
    simp only [ContextsInfo.recordAll, List.foldl_cons, List.length_cons, Nat.cast_add, Nat.cast_one] at *
    exact ⟨h2.1, by omega, by omega⟩

theorem eqvGen_mono_links (L L' : List (Nat × Nat)) (h : ∀ p, p ∈ L → p ∈ L') (a b : Nat)
    (hab : Relation.EqvGen (fun x y => (x, y) ∈ L) a b) :
    Relation.EqvGen (fun x y => (x, y) ∈ L') a b := by
  induction hab with
  | rel x y hxy => exact Relation.EqvGen.rel _ _ (h _ hxy)
  | refl x => exact Relation.EqvGen.refl _
  | symm x y _ ih => exact Relation.EqvGen.symm _ _ ih
  | trans x y z _ _ ih1 ih2 => exact Relation.EqvGen.trans _ _ _ ih1 ih2

theorem sharegroupOf_set (c : ContextsInfo) (n : Int) (k j : Nat) (v : ContextInfo) :
    ContextsInfo.sharegroupOf { entries := Registry.set c.entries k v, nsharegroups := n } j =
      if j = k then some v.sharegroup else ContextsInfo.sharegroupOf c j := by
  simp only [ContextsInfo.sharegroupOf, Registry.find_set]
  by_cases h : j = k <;> simp [h]

theorem creationInv_record (c : ContextsInfo) (seen : List Nat) (L : List (Nat × Nat))
    (k : RecordCall) (h : CreationInv c seen L)
    (hnew : k.ctx ∉ seen) (hshare : k.share = 0 ∨ k.share ∈ seen)
    (hb : c.nsharegroups + 1 < 2147483648) :
    CreationInv (ContextsInfo.record c k.ctx k.config k.share) (k.ctx :: seen)
      (if k.share ≠ 0 then (k.ctx, k.share) :: L else L) := by
  have hsr : k.share ≠ 0 → Registry.known c.entries k.share = true := by
    intro hz
    rcases hshare with h0 | hm
    · exact absurd h0 hz
    · exact (h.keys _).2 hm
  have hids := (idsBelow_record c k h.ids hsr hb).1
  have hkeys : ∀ (g : Int) (j : Nat), Registry.known (Registry.set c.entries k.ctx
      (⟨k.config, g⟩ : ContextInfo)) j = true ↔ j ∈ k.ctx :: seen := by
    intro g j
    simp only [Registry.known, Registry.find_set, List.mem_cons]
    by_cases hj : j = k.ctx
    · simp [hj]
    · have := h.keys j
      simp only [Registry.known] at this
      simp [hj, this]
  by_cases hz : k.share = 0
  · -- a fresh share group
    have hrec := record_fresh c k.ctx k.config
    rw [hz] at hids ⊢
    rw [hrec] at hids ⊢
    simp only [ne_eq, not_true_eq_false, ↓reduceIte]
    refine ⟨hkeys _, hids, ?_, ?_, ?_⟩
    · intro a b hab
      have hl := h.linked a b hab
      have hs := h.linkSeen a b hab
      have ha : a ≠ k.ctx := fun e => hnew (e ▸ hs.1)
      have hb' : b ≠ k.ctx := fun e => hnew (e ▸ hs.2)
      simp [sharegroupOf_set, ha, hb', hl]
    · intro a b hab
      have hs := h.linkSeen a b hab
      exact ⟨List.mem_cons_of_mem _ hs.1, List.mem_cons_of_mem _ hs.2⟩
    · intro a b ia ib ha hb' hab
      rw [Registry.find_set] at ha hb'
      by_cases hak : a = k.ctx
      · by_cases hbk : b = k.ctx
        · rw [hak, hbk]; exact Relation.EqvGen.refl _
        · simp [hak] at ha
          simp [hbk] at hb'
          have := (h.ids.2 b ib hb').2
          rw [← ha] at hab
          simp at hab
          omega
      · by_cases hbk : b = k.ctx
        · simp [hak] at ha
          simp [hbk] at hb'
          have := (h.ids.2 a ia ha).2
          rw [← hb'] at hab
          simp at hab
          omega
        · simp [hak] at ha
          simp [hbk] at hb'
          exact h.conn a b ia ib ha hb' hab
  · -- the share group of `share`
    obtain ⟨i, hi⟩ := (known_iff_find _ _).1 (hsr hz)
    have hrec := record_shared c k.ctx k.config k.share i hz hi
    rw [hrec] at hids ⊢
    simp only [ne_eq, hz, not_false_eq_true, ↓reduceIte]
    have hsk : k.share ≠ k.ctx := by
      intro e
      rcases hshare with h0 | hm
      · exact hz h0
      · exact hnew (e ▸ hm)
    refine ⟨hkeys _, hids, ?_, ?_, ?_⟩
    · intro a b hab
      rcases List.mem_cons.1 hab with he | hold
      · cases he
        rw [sharegroupOf_set, sharegroupOf_set]
        simp [hsk, ContextsInfo.sharegroupOf, hi]
      · have hl := h.linked a b hold
        have hs := h.linkSeen a b hold
        have ha : a ≠ k.ctx := fun e => hnew (e ▸ hs.1)
        have hb' : b ≠ k.ctx := fun e => hnew (e ▸ hs.2)
        simp [sharegroupOf_set, ha, hb', hl]
    · intro a b hab
      rcases List.mem_cons.1 hab with he | hold
      · cases he
        refine ⟨List.mem_cons_self _ _, List.mem_cons_of_mem _ ?_⟩
        rcases hshare with h0 | hm
        · exact absurd h0 hz
        · exact hm
      · have hs := h.linkSeen a b hold
        exact ⟨List.mem_cons_of_mem _ hs.1, List.mem_cons_of_mem _ hs.2⟩
    · have hup : ∀ a b, Relation.EqvGen (fun x y => (x, y) ∈ L) a b →
          Relation.EqvGen (fun x y => (x, y) ∈ (k.ctx, k.share) :: L) a b :=
        fun a b => eqvGen_mono_links L _ (fun p hp => List.mem_cons_of_mem _ hp) a b
      have hnewlink : Relation.EqvGen (fun x y => (x, y) ∈ (k.ctx, k.share) :: L) k.ctx k.share :=
        Relation.EqvGen.rel _ _ (List.mem_cons_self _ _)
      intro a b ia ib ha hb' hab
      rw [Registry.find_set] at ha hb'
      by_cases hak : a = k.ctx
      · by_cases hbk : b = k.ctx
        · rw [hak, hbk]; exact Relation.EqvGen.refl _
        · simp [hak] at ha
          simp [hbk] at hb'
          rw [← ha] at hab
          simp at hab
          rw [hak]
          exact Relation.EqvGen.trans _ _ _ hnewlink (hup _ _ (h.conn _ _ i ib hi hb' hab))
      · by_cases hbk : b = k.ctx
        · simp [hak] at ha
          simp [hbk] at hb'
          rw [← hb'] at hab
          simp at hab
          rw [hbk]
          exact Relation.EqvGen.trans _ _ _ (hup _ _ (h.conn _ _ ia i ha hi hab))
            (Relation.EqvGen.symm _ _ hnewlink)
        · simp [hak] at ha
          simp [hbk] at hb'
          exact hup _ _ (h.conn a b ia ib ha hb' hab)

theorem shareLinks_cons (k : RecordCall) (rest : List RecordCall) :
    shareLinks (k :: rest) =
      if k.share ≠ 0 then (k.ctx, k.share) :: shareLinks rest else shareLinks rest := by
  by_cases h : k.share = 0 <;> simp [shareLinks, List.filter_cons, h]

theorem creationInv_recordAll (calls : List RecordCall) :
    ∀ (c : ContextsInfo) (seen : List Nat) (L : List (Nat × Nat)),
      CreationInv c seen L → WellFormedCreations seen calls →
      c.nsharegroups + calls.length < 2147483648 →
      ∃ seen' L', CreationInv (ContextsInfo.recordAll c calls) seen' L' ∧
        (∀ j, j ∈ seen' ↔ j ∈ seen ∨ j ∈ calls.map (fun k => k.ctx)) ∧
        (∀ p, p ∈ L' ↔ p ∈ L ∨ p ∈ shareLinks calls) := by
  induction calls with
  | nil =>
    intro c seen L h _ _
    exact ⟨seen, L, h, by simp, by simp [shareLinks]⟩
  | cons k rest ih =>
    intro c seen L h hwf hb
    obtain ⟨_, hnew, hshare, hrest⟩ := hwf
    simp only [List.length_cons, Nat.cast_add, Nat.cast_one] at hb
    have h0 := h.ids.1
    have hstep := creationInv_record c seen L k h hnew hshare (by omega)
    have hcnt := (idsBelow_record c k h.ids (by
      intro hz
      rcases hshare with e | hm
      · exact absurd e hz
      · exact (h.keys _).2 hm) (by omega)).2.2
    obtain ⟨seen', L', hinv, hseen, hL⟩ := ih _ _ _ hstep hrest (by omega)
    refine ⟨seen', L', hinv, ?_, ?_⟩
    · intro j
      rw [hseen j]
      simp only [List.mem_cons, List.map_cons]
      tauto
    · intro p
      rw [hL p, shareLinks_cons]
      by_cases hz : k.share = 0
      · simp [hz]
      · simp only [ne_eq, hz, not_false_eq_true, ↓reduceIte, List.mem_cons]
        tauto

theorem creationInv_empty : CreationInv ContextsInfo.empty [] [] := by
  refine ⟨?_, ⟨le_refl _, ?_⟩, ?_, ?_, ?_⟩
  · intro k; simp [ContextsInfo.empty, Registry.known, Registry.find]
  · intro k i h; simp [ContextsInfo.empty, Registry.find] at h
  · intro a b h; simp at h
  · intro a b h; simp at h
  · intro a b ia ib h; simp [ContextsInfo.empty, Registry.find] at h

/-- C5. Starting from the empty registry, after any sequence of context
creations whose share lists are null or contexts created earlier (fewer than
2^31 of them, the range of the `int` counter), two created contexts hold the
same share-group id exactly when they are connected through share-list
links, and a context created with share list `S` holds the id of `S`. -/
theorem sharegroup_eq_iff_connected (calls : List RecordCall)
    (hwf : WellFormedCreations [] calls) (hlen : calls.length < 2147483648) :
    (∀ a b, a ∈ calls.map (fun k => k.ctx) → b ∈ calls.map (fun k => k.ctx) →
      ((ContextsInfo.recordAll ContextsInfo.empty calls).sharegroupOf a =
          (ContextsInfo.recordAll ContextsInfo.empty calls).sharegroupOf b ↔
        Connected calls a b)) ∧
    (∀ k, k ∈ calls → k.share ≠ 0 →
      ∃ g, (ContextsInfo.recordAll ContextsInfo.empty calls).sharegroupOf k.ctx = some g ∧
        (ContextsInfo.recordAll ContextsInfo.empty calls).sharegroupOf k.share = some g) := by
  obtain ⟨seen', L', hinv, hseen, hL⟩ :=
    creationInv_recordAll calls ContextsInfo.empty [] [] creationInv_empty hwf
      (by simp [ContextsInfo.empty]; omega)
  have hmem : ∀ j, j ∈ calls.map (fun k => k.ctx) →
      ∃ i, Registry.find (ContextsInfo.recordAll ContextsInfo.empty calls).entries j = some i := by
    intro j hj
    exact (known_iff_find _ _).1 ((hinv.keys j).2 ((hseen j).2 (Or.inr hj)))
  have hLeq : ∀ p, p ∈ L' ↔ p ∈ shareLinks calls := by
    intro p; rw [hL p]; simp
  have hfwd : ∀ a b, Connected calls a b →
      (ContextsInfo.recordAll ContextsInfo.empty calls).sharegroupOf a =
        (ContextsInfo.recordAll ContextsInfo.empty calls).sharegroupOf b := by
    intro a b hab
    induction hab with
    | rel x y hxy => exact hinv.linked x y ((hLeq _).2 hxy)
    | refl x => rfl
    | symm x y _ ih => exact ih.symm
    | trans x y z _ _ ih1 ih2 => exact ih1.trans ih2
  refine ⟨?_, ?_⟩
  · intro a b ha hb
    obtain ⟨ia, hia⟩ := hmem a ha
    obtain ⟨ib, hib⟩ := hmem b hb
    constructor
    · intro heq
      simp only [ContextsInfo.sharegroupOf, hia, hib, Option.map_some', Option.some.injEq] at heq
      exact eqvGen_mono_links L' _ (fun p hp => (hLeq p).1 hp) a b (hinv.conn a b ia ib hia hib heq)
    · exact hfwd a b
  · intro k hk hz
    have hlink : (k.ctx, k.share) ∈ shareLinks calls := by
      simp only [shareLinks, List.mem_map, List.mem_filter]
      exact ⟨k, ⟨hk, by simpa using hz⟩, rfl⟩
    obtain ⟨i, hi⟩ := hmem k.ctx (List.mem_map_of_mem _ hk)
    refine ⟨i.sharegroup, by simp [ContextsInfo.sharegroupOf, hi], ?_⟩
    rw [← hfwd k.ctx k.share (Relation.EqvGen.rel _ _ hlink)]
    simp [ContextsInfo.sharegroupOf, hi]

/-- Witness for C5: three creations, the third sharing with the first. -/
theorem sharegroup_eq_iff_connected_witness :
    WellFormedCreations [] [⟨10, 1, 0⟩, ⟨11, 1, 0⟩, ⟨12, 2, 10⟩] ∧
    ((∀ a b, a ∈ ([⟨10, 1, 0⟩, ⟨11, 1, 0⟩, ⟨12, 2, 10⟩] : List RecordCall).map (fun k => k.ctx) →
        b ∈ ([⟨10, 1, 0⟩, ⟨11, 1, 0⟩, ⟨12, 2, 10⟩] : List RecordCall).map (fun k => k.ctx) →
      ((ContextsInfo.recordAll ContextsInfo.empty [⟨10, 1, 0⟩, ⟨11, 1, 0⟩, ⟨12, 2, 10⟩]).sharegroupOf a =
          (ContextsInfo.recordAll ContextsInfo.empty [⟨10, 1, 0⟩, ⟨11, 1, 0⟩, ⟨12, 2, 10⟩]).sharegroupOf b ↔
        Connected [⟨10, 1, 0⟩, ⟨11, 1, 0⟩, ⟨12, 2, 10⟩] a b)) ∧
    (∀ k, k ∈ ([⟨10, 1, 0⟩, ⟨11, 1, 0⟩, ⟨12, 2, 10⟩] : List RecordCall) → k.share ≠ 0 →
      ∃ g, (ContextsInfo.recordAll ContextsInfo.empty [⟨10, 1, 0⟩, ⟨11, 1, 0⟩, ⟨12, 2, 10⟩]).sharegroupOf k.ctx = some g ∧
        (ContextsInfo.recordAll ContextsInfo.empty [⟨10, 1, 0⟩, ⟨11, 1, 0⟩, ⟨12, 2, 10⟩]).sharegroupOf k.share = some g)) :=
  ⟨by simp [WellFormedCreations],
    sharegroup_eq_iff_connected [⟨10, 1, 0⟩, ⟨11, 1, 0⟩, ⟨12, 2, 10⟩]
      (by simp [WellFormedCreations]) (by simp)⟩

theorem recordAll_append (c : ContextsInfo) (xs ys : List RecordCall) :
    ContextsInfo.recordAll c (xs ++ ys) =
      ContextsInfo.recordAll (ContextsInfo.recordAll c xs) ys := by
  simp [ContextsInfo.recordAll, List.foldl_append]

theorem sharesRecorded_append (xs ys : List RecordCall) :
    ∀ c : ContextsInfo, SharesRecorded c (xs ++ ys) →
      SharesRecorded c xs ∧ SharesRecorded (ContextsInfo.recordAll c xs) ys := by
  induction xs with
  | nil => intro c h; exact ⟨trivial, by simpa [ContextsInfo.recordAll] using h⟩
  | cons k rest ih =>
    intro c h
    obtain ⟨h1, h2⟩ := h
    have := ih _ h2
    exact ⟨⟨h1, this.1⟩, by simpa [ContextsInfo.recordAll] using this.2⟩

theorem idsBelow_empty : IdsBelowCounter ContextsInfo.empty :=
  ⟨le_refl _, by intro k i h; simp [ContextsInfo.empty, Registry.find] at h⟩

/-- C6 as stated fails. After `record(1, 5, NULL)` the call `record(2, 5, 7)`
names a share list `7` that the registry does not hold; context `2` then gets
the share-group id `0` of the value-initialised entry that `operator[]`
inserts for `7`: the counter is not consulted (it stays `1`) and the id
equals the id of the other context `1`. -/
theorem record_unknown_share_not_fresh :
    Registry.known (ContextsInfo.recordAll ContextsInfo.empty [⟨1, 5, 0⟩]).entries 7 = false ∧
    (ContextsInfo.recordAll ContextsInfo.empty [⟨1, 5, 0⟩]).nsharegroups = 1 ∧
    (ContextsInfo.recordAll ContextsInfo.empty [⟨1, 5, 0⟩, ⟨2, 5, 7⟩]).nsharegroups = 1 ∧
    (ContextsInfo.recordAll ContextsInfo.empty [⟨1, 5, 0⟩, ⟨2, 5, 7⟩]).sharegroupOf 2 = some 0 ∧
    (ContextsInfo.recordAll ContextsInfo.empty [⟨1, 5, 0⟩, ⟨2, 5, 7⟩]).sharegroupOf 1 = some 0 := by
  decide

/-- C6, amended. Starting from the empty registry, along any sequence of
`record` calls whose non-null share arguments each name an entry held at the
time of the call (fewer than 2^31 - 1 calls, the range of the `int`
counter), a context recorded with a null share list receives the current
value of `nsharegroups`; the counter never decreases along the sequence and
is one larger after the call; and the id is larger than, so different from,
the id of every other context the registry holds at that moment. -/
theorem record_null_share_fresh (calls : List RecordCall) (k : RecordCall)
    (hs : SharesRecorded ContextsInfo.empty calls) (hlen : calls.length + 1 < 2147483648)
    (hk : k.share = 0) :
    (ContextsInfo.record (ContextsInfo.recordAll ContextsInfo.empty calls)
        k.ctx k.config k.share).sharegroupOf k.ctx =
      some (ContextsInfo.recordAll ContextsInfo.empty calls).nsharegroups ∧
    (ContextsInfo.record (ContextsInfo.recordAll ContextsInfo.empty calls)
        k.ctx k.config k.share).nsharegroups =
      (ContextsInfo.recordAll ContextsInfo.empty calls).nsharegroups + 1 ∧
    (∀ xs ys, calls = xs ++ ys →
      (ContextsInfo.recordAll ContextsInfo.empty xs).nsharegroups ≤
        (ContextsInfo.recordAll ContextsInfo.empty calls).nsharegroups) ∧
    (∀ j i, j ≠ k.ctx →
      Registry.find (ContextsInfo.record (ContextsInfo.recordAll ContextsInfo.empty calls)
        k.ctx k.config k.share).entries j = some i →
      i.sharegroup < (ContextsInfo.recordAll ContextsInfo.empty calls).nsharegroups) := by
  have hall := idsBelow_recordAll calls ContextsInfo.empty idsBelow_empty hs
    (by simp [ContextsInfo.empty]; omega)
  have hup : (ContextsInfo.recordAll ContextsInfo.empty calls).nsharegroups ≤ calls.length := by
    have := hall.2.2
    simpa [ContextsInfo.empty] using this
  rw [hk, record_fresh]
  refine ⟨?_, ?_, ?_, ?_⟩
  · simp [ContextsInfo.sharegroupOf, Registry.find_set_self]
  · exact wrapInt32_succ _ hall.1.1 (by omega)
  · intro xs ys hsplit
    subst hsplit
    obtain ⟨h1, h2⟩ := sharesRecorded_append xs ys _ hs
    have hx := idsBelow_recordAll xs ContextsInfo.empty idsBelow_empty h1
      (by simp [ContextsInfo.empty]; simp at hlen; omega)
    have hxu : (ContextsInfo.recordAll ContextsInfo.empty xs).nsharegroups ≤ xs.length := by
      simpa [ContextsInfo.empty] using hx.2.2
    have hy := idsBelow_recordAll ys _ hx.1 h2 (by simp at hlen; omega)
    rw [recordAll_append]
    exact hy.2.1
  · intro j i hj hfind
    rw [Registry.find_set_ne _ _ _ _ hj] at hfind
    exact (hall.1.2 j i hfind).2

/-- Witness for C6 (amended): a third context recorded with a null share
list after a fresh and a sharing creation. -/
theorem record_null_share_fresh_witness :
    SharesRecorded ContextsInfo.empty [⟨1, 5, 0⟩, ⟨2, 5, 1⟩] ∧
    (ContextsInfo.record (ContextsInfo.recordAll ContextsInfo.empty [⟨1, 5, 0⟩, ⟨2, 5, 1⟩])
        3 5 0).sharegroupOf 3 =
      some (ContextsInfo.recordAll ContextsInfo.empty [⟨1, 5, 0⟩, ⟨2, 5, 1⟩]).nsharegroups :=
  ⟨by decide,
    (record_null_share_fresh [⟨1, 5, 0⟩, ⟨2, 5, 1⟩] ⟨3, 5, 0⟩ (by decide) (by simp) rfl).1⟩

/-! ## Drawable registry: the claims -/

theorem glXMakeContextCurrent_backed (s s' : PrimusState) (geomDraw geomRead : Int × Int)
    (draw read ctx : Nat) (hs : StateOk s)
    (h : glXMakeContextCurrent s geomDraw geomRead draw read ctx = some s') :
    (draw ≠ 0 → ∃ di', Registry.find s'.drawables draw = some di' ∧ di'.pbuffer ≠ 0) ∧
      (read ≠ 0 → ∃ di', Registry.find s'.drawables read = some di' ∧ di'.pbuffer ≠ 0) := by
  unfold glXMakeContextCurrent at h
  by_cases hdr : draw = read
  · simp only [hdr, ↓reduceIte] at h
    have hk := (glXMakeCurrent_kept s s' geomDraw read ctx hs h).2
    rw [hdr]
    have hboth : read ≠ 0 → ∃ di', Registry.find s'.drawables read = some di' ∧
        di'.pbuffer ≠ 0 := by
      intro h0
      obtain ⟨di', h1, h2, _⟩ := hk h0
      exact ⟨di', h1, h2⟩
    exact ⟨hboth, hboth⟩
  · simp only [hdr, ↓reduceIte] at h
    cases hl : lookup_pbuffer s geomDraw draw ctx with
    | none => simp [hl] at h
    | some r1 =>
      obtain ⟨s1, pb1⟩ := r1
      simp only [hl] at h
      cases hl2 : lookup_pbuffer s1 geomRead read ctx with
      | none => simp [hl2] at h
      | some r2 =>
        obtain ⟨s2, pb2⟩ := r2
        simp only [hl2, Option.map_some', Option.some.injEq] at h
        have hk1 := lookup_pbuffer_kept s s1 geomDraw draw ctx pb1 hs hl
        have hk2 := lookup_pbuffer_kept s1 s2 geomRead read ctx pb2 hk1.1.ok hl2
        subst h
        refine ⟨?_, ?_⟩
        · intro h0
          obtain ⟨d1, hd1, hp1, hp1', _⟩ := hk1.2.2.1 h0
          obtain ⟨d2, hd2, _, _, _, hpd⟩ := hk2.1.entries draw d1 hd1
          exact ⟨d2, hd2, hpd (by rw [hp1]; exact hp1')⟩
        · intro h0
          obtain ⟨d2, hd2, hp2, hp2', _⟩ := hk2.2.2.1 h0
          exact ⟨d2, hd2, by rw [hp2]; exact hp2'⟩

/-- With every call an atomic step, which is exact in sync modes 1 and 2 (see
`glXSwapBuffers`) and leaves out the race of sync mode 0 (see
`glXSwapBuffersRace`): in every state reached through the entry
points and the events recorded by the display workers between the calls and
during the wait of `glXSwapBuffers`, (1) a window or raw window that has a
pbuffer has one that is live and was created with the width and height of
the entry, unless the entry has `reinit == RESIZE`; (2, 3) making a drawable
current gives it a pbuffer; (4) no step takes the pbuffer away from an entry
that stays registered; (5) at the end of a call of `glXSwapBuffers` on a
window that has a pbuffer the entry has `reinit == NONE`, a pbuffer, and
that pbuffer was created with the width and height of the entry. -/
theorem pbuffer_matches_size :
    (∀ s, Reachable s → ∀ k di, Registry.find s.drawables k = some di →
      di.kind.isWindow = true → di.pbuffer ≠ 0 →
      ∃ pa, Registry.find s.aside.pbuffers di.pbuffer = some pa ∧
        (di.reinit = ReinitTodo.RESIZE ∨ (pa.width = di.width ∧ pa.height = di.height))) ∧
    (∀ s s' geom k ctx, Reachable s → k ≠ 0 → glXMakeCurrent s geom k ctx = some s' →
      ∃ di', Registry.find s'.drawables k = some di' ∧ di'.pbuffer ≠ 0) ∧
    (∀ s s' geomDraw geomRead draw read ctx, Reachable s →
      glXMakeContextCurrent s geomDraw geomRead draw read ctx = some s' →
      (draw ≠ 0 → ∃ di', Registry.find s'.drawables draw = some di' ∧ di'.pbuffer ≠ 0) ∧
      (read ≠ 0 → ∃ di', Registry.find s'.drawables read = some di' ∧ di'.pbuffer ≠ 0)) ∧
    (∀ s s', Reachable s → Step s s' → StaysBacked s s') ∧
    (∀ s s' ctx evs geomDraw geomRead k di, Reachable s →
      Registry.find s.drawables k = some di → di.kind.isWindow = true → di.pbuffer ≠ 0 →
      glXSwapBuffers s ctx evs geomDraw geomRead k = some s' →
      ∃ di', Registry.find s'.drawables k = some di' ∧ di'.reinit = ReinitTodo.NONE ∧
        di'.pbuffer ≠ 0 ∧
        ∃ pa, Registry.find s'.aside.pbuffers di'.pbuffer = some pa ∧
          pa.width = di'.width ∧ pa.height = di'.height) := by
  refine ⟨?_, ?_, ?_, ?_, ?_⟩
  · intro s hr k di hf _ hp
    obtain ⟨_, pa, hpa, _, hdim⟩ := ((reachable_ok s hr).entries k di hf).backed hp
    exact ⟨pa, hpa, hdim⟩
  · intro s s' geom k ctx hr hk h
    obtain ⟨di', h1, h2, _⟩ := (glXMakeCurrent_kept s s' geom k ctx (reachable_ok s hr) h).2 hk
    exact ⟨di', h1, h2⟩
  · intro s s' geomDraw geomRead draw read ctx hr h
    exact glXMakeContextCurrent_backed s s' geomDraw geomRead draw read ctx (reachable_ok s hr) h
  · intro s s' hr hstep
    exact (step_ok s s' (reachable_ok s hr) hstep).2
  · intro s s' ctx evs geomDraw geomRead k di hr hf hkind hp h
    obtain ⟨_, di', hdi', hre, _, hback, _⟩ :=
      glXSwapBuffers_ok s s' ctx evs geomDraw geomRead k di (reachable_ok s hr) hf hkind h
    obtain ⟨hp', pa, hpa, _, hw, hh⟩ := hback hp
    exact ⟨di', hdi', hre, hp', pa, hpa, hw, hh⟩

theorem reachable_runCurrent : Reachable runCurrent :=
  Reachable.step _ _
    (Reachable.step _ _
      (Reachable.step _ _
        (Reachable.step _ _ Reachable.init (Step.createContext _ 1 6 0))
        (Step.createContext _ 2 5 0))
      (Step.createDrawable _ DrawableKind.Window 100 5 50 (320, 200) (by decide) (by decide)))
    (Step.makeCurrent runStart runCurrent (320, 200) 100 2 (by decide))

theorem reachable_runResized : Reachable runResized :=
  Reachable.step _ _
    (Reachable.step _ _ reachable_runCurrent
      (Step.swapBuffers runCurrent runSwapped 2 [] (320, 200) (320, 200) 100 (by decide)))
    (Step.configure runSwapped runResized 100 (640, 480) (by decide))

theorem reachable_runOrphaned : Reachable runOrphaned :=
  Reachable.step _ _ reachable_runResized (Step.destroyContext _ 2)

theorem reachable_runCurrentAgain : Reachable runCurrentAgain :=
  Reachable.step _ _
    (Reachable.step _ _
      (Reachable.step _ _ reachable_runCurrent
        (Step.makeCurrent runCurrent runReleased (0, 0) 0 0 (by decide)))
      (Step.swapBuffers runReleased runSwappedNoContext 0 [] (0, 0) (0, 0) 100 (by decide)))
    (Step.makeCurrent runSwappedNoContext runCurrentAgain (320, 200) 100 2 (by decide))

/-- An instance of `pbuffer_matches_size`: with no event during lines 625 to
634, the swap that follows the resize to 640 by 480 in the second run ends
with a pbuffer of that size. -/
theorem pbuffer_matches_size_witness :
    ∃ di', Registry.find
        ((glXSwapBuffers runResized 2 [] (320, 200) (320, 200) 100).getD runResized).drawables
        100 = some di' ∧ di'.reinit = ReinitTodo.NONE ∧ di'.pbuffer ≠ 0 ∧
      ∃ pa, Registry.find
        ((glXSwapBuffers runResized 2 [] (320, 200) (320, 200) 100).getD runResized).aside.pbuffers
        di'.pbuffer = some pa ∧ pa.width = di'.width ∧ pa.height = di'.height :=
  pbuffer_matches_size.2.2.2.2 runResized _ 2 [] (320, 200) (320, 200) 100
    ((Registry.find runResized.drawables 100).getD DrawableInfo.zero)
    reachable_runResized (by decide) (by decide) (by decide) (by decide)

/-- With no event between line 632 and line 633 the call is the atomic
one. -/
theorem glXSwapBuffersRace_nil (s : PrimusState) (ctx : Nat) (evs : List (Int × Int))
    (geomDraw geomRead : Int × Int) (drawable : Nat) :
    glXSwapBuffersRace s ctx evs [] geomDraw geomRead drawable =
      glXSwapBuffers s ctx evs geomDraw geomRead drawable := rfl

/-- C2 fails in sync mode 0. The window `100` of the second run has been made
current and swapped once; a resize to 640 by 480 is pending and its pbuffer
`1` has 320 by 200. The next call of `glXSwapBuffers` finds the resize at
line 627 and makes pbuffer `2` with 640 by 480; the display worker, which
runs on in sync mode 0, records a resize to 800 by 600 at line 376 before
the application thread reaches line 633, and line 634 then clears the
request. The call ends with `reinit == NONE`, width and height 800 by 600
and a pbuffer created with 640 by 480; no RESIZE is pending. In the
pipeline of sync mode 0 the interleaving is reached from the start: the
application thread stands before line 634 while the display worker stands
before the loop of lines 370 to 377, the next step of the display worker is
the store of RESIZE of line 376, and the next step of the application thread
clears it and returns. -/
theorem glXSwapBuffers_loses_resize :
    Reachable runResized ∧
    (Registry.find runResized.drawables 100).map
        (fun di => (di.kind, di.reinit, di.width, di.height, di.pbuffer)) =
      some (DrawableKind.Window, ReinitTodo.RESIZE, 640, 480, 1) ∧
    (Registry.find runResized.aside.pbuffers 1).map (fun pa => (pa.width, pa.height)) =
      some (320, 200) ∧
    ((glXSwapBuffersRace runResized 2 [] [(800, 600)] (640, 480) (640, 480) 100).bind
        (fun s' => Registry.find s'.drawables 100)).map
        (fun di => (di.reinit, di.width, di.height, di.pbuffer, di.r.reinit)) =
      some (ReinitTodo.NONE, 800, 600, 2, ReinitTodo.RESIZE) ∧
    ((glXSwapBuffersRace runResized 2 [] [(800, 600)] (640, 480) (640, 480) 100).bind
        (fun s' => Registry.find s'.aside.pbuffers 2)).map (fun pa => (pa.width, pa.height)) =
      some (640, 480) ∧
    PipeReachable (Pipe.init 0) (runSchedule raceSchedule (Pipe.init 0)) ∧
    ((runSchedule raceSchedule (Pipe.init 0)).ctl.app = AppPc.swapClear ∧
      (runSchedule raceSchedule (Pipe.init 0)).ctl.dp = DpPc.d370 ∧
      (runSchedule (raceSchedule ++ [2]) (Pipe.init 0)).ctl.app = AppPc.swapClear ∧
      (runSchedule (raceSchedule ++ [2]) (Pipe.init 0)).ctl.dp = DpPc.d379 ∧
      (runSchedule (raceSchedule ++ [2]) (Pipe.init 0)).ctl =
        { (runSchedule raceSchedule (Pipe.init 0)).ctl with
          reinit := ReinitTodo.RESIZE, dp := DpPc.d379 } ∧
      (runSchedule (raceSchedule ++ [2, 0]) (Pipe.init 0)).ctl.app = AppPc.idle ∧
      (runSchedule (raceSchedule ++ [2, 0]) (Pipe.init 0)).ctl.reinit = ReinitTodo.NONE ∧
      (runSchedule (raceSchedule ++ [2, 0]) (Pipe.init 0)).swapsDone = 2) :=
  ⟨reachable_runResized, by decide, by decide, by decide, by decide,
    runSchedule_reachable _ _ _ PipeReachable.start, by decide!⟩

theorem isEmpty_iff_nil {α : Type} (l : List α) : l.isEmpty = true ↔ l = [] := by
  cases l <;> simp

/-- C3. In every reachable state, `glXDestroyContext(ctx)` removes `ctx` from
the context registry; when the registry is empty after that, no drawable has
a worker left (`r.worker == 0` and `d.worker == 0` for every entry), and
when it is not empty the drawable registry is left as it was. -/
theorem glXDestroyContext_reaps (s : PrimusState) (hr : Reachable s) (ctx : Nat) :
    (glXDestroyContext s ctx).contexts.entries = Registry.erase s.contexts.entries ctx ∧
    Registry.find (glXDestroyContext s ctx).contexts.entries ctx = none ∧
    ((glXDestroyContext s ctx).contexts.entries = [] →
      ∀ k di, Registry.find (glXDestroyContext s ctx).drawables k = some di →
        di.r.worker = 0 ∧ di.d.worker = 0) ∧
    ((glXDestroyContext s ctx).contexts.entries ≠ [] →
      (glXDestroyContext s ctx).drawables = s.drawables) := by
  have hs := reachable_ok s hr
  refine ⟨rfl, Registry.find_erase_self _ _, ?_, ?_⟩
  · intro hempty k di hf
    have he : (Registry.erase s.contexts.entries ctx).isEmpty = true :=
      (isEmpty_iff_nil _).2 hempty
    unfold glXDestroyContext at hf
    simp only [he, ↓reduceIte, Registry.find_mapVals] at hf
    cases hf0 : Registry.find s.drawables k with
    | none => simp [hf0] at hf
    | some d0 =>
      simp only [hf0, Option.map_some', Option.some.injEq] at hf
      subst hf
      have hpair := hs.entries k d0 hf0
      unfold DrawableInfo.reap_workers
      by_cases hw : d0.r.worker = 0
      · simp [hw, hpair.paired.1 hw]
      · simp [hw]
  · intro hne
    have he : ¬ (Registry.erase s.contexts.entries ctx).isEmpty = true :=
      fun h => hne ((isEmpty_iff_nil _).1 h)
    unfold glXDestroyContext
    simp only [he, Bool.false_eq_true, ↓reduceIte]

/-- Witness for C3: destroying context `2` in the second run leaves context
`1` registered, and the workers of the window stay. -/
theorem glXDestroyContext_reaps_witness :
    (glXDestroyContext runResized 2).contexts.entries ≠ [] ∧
      (glXDestroyContext runResized 2).drawables = runResized.drawables :=
  ⟨by decide, (glXDestroyContext_reaps runResized reachable_runResized 2).2.2.2 (by decide)⟩

/-- C4 as stated fails in two ways. First run: workers were spawned by a swap
with no current context, so `di.actx` is null; the next swap, with context
`2` current, keeps these workers and the null `di.actx`, although the
share-group id that the registry yields for the null key (`0`) differs from
the one of context `2` (`1`). Second run: a resize is pending and context `2`
was destroyed while current; the swap re-makes the window current, finds the
fbconfig of the window different from the one the registry now yields for
the context, and reaps the workers: no worker runs after the call. -/
theorem glXSwapBuffers_workers_not_always :
    (Reachable runCurrentAgain ∧
      (Registry.find runCurrentAgain.drawables 100).map
        (fun di => (di.r.worker, di.d.worker, di.actx)) = some (2, 1, 0) ∧
      sharegroupAt runCurrentAgain.contexts.entries 0 = 0 ∧
      sharegroupAt runCurrentAgain.contexts.entries 2 = 1 ∧
      ((glXSwapBuffers runCurrentAgain 2 [] (320, 200) (320, 200) 100).bind
        (fun s => Registry.find s.drawables 100)).map
        (fun di => (di.r.worker, di.d.worker, di.actx)) = some (2, 1, 0)) ∧
    (Reachable runOrphaned ∧
      (Registry.find runOrphaned.drawables 100).map
        (fun di => (di.r.worker, di.d.worker, di.actx)) = some (2, 1, 2) ∧
      ((glXSwapBuffers runOrphaned 2 [] (320, 200) (320, 200) 100).bind
        (fun s => Registry.find s.drawables 100)).map
        (fun di => (di.r.worker, di.d.worker, di.actx)) = some (0, 0, 2)) :=
  ⟨⟨reachable_runCurrentAgain, by decide, by decide, by decide, by decide⟩,
    ⟨reachable_runOrphaned, by decide, by decide⟩⟩

/-- C4, amended. For a window or raw window in a reachable state and a call
of `glXSwapBuffers` with a context `ctx` current: existing workers are
reaped and two new threads are spawned exactly when `di.actx` is not null
and the registry yields different share-group ids for `di.actx` and `ctx`,
and are left untouched otherwise; workers are spawned when none exist; when
lines 606 to 620 are done two workers exist, `di.actx` is `ctx` after a
spawn, and `di.actx` has the share-group id of `ctx` unless workers existed
with a null `di.actx`. At the return of the call `di.actx` is the same, and
so are the two workers provided no resize was pending at the end of the wait
or the fbconfig of the window is the one the registry yields for `ctx`. -/
theorem glXSwapBuffers_workers (s s' : PrimusState) (ctx : Nat) (evs : List (Int × Int))
    (geomDraw geomRead : Int × Int) (k : Nat) (di : DrawableInfo)
    (hr : Reachable s) (hf : Registry.find s.drawables k = some di)
    (hkind : di.kind.isWindow = true) (hctx : ctx ≠ 0)
    (h : glXSwapBuffers s ctx evs geomDraw geomRead k = some s') :
    ((di.r.worker ≠ 0 ∧ di.actx ≠ 0 ∧
        sharegroupAt s.contexts.entries di.actx ≠ sharegroupAt s.contexts.entries ctx) →
      (ensureWorkers s.contexts.entries di ctx s.nthreads).1.r = ⟨s.nthreads + 2, ReinitTodo.RESIZE⟩ ∧
      (ensureWorkers s.contexts.entries di ctx s.nthreads).1.d = ⟨s.nthreads + 1, ReinitTodo.RESIZE⟩ ∧
      (ensureWorkers s.contexts.entries di ctx s.nthreads).1.actx = ctx ∧
      (ensureWorkers s.contexts.entries di ctx s.nthreads).1.r.worker ≠ di.r.worker ∧
      (ensureWorkers s.contexts.entries di ctx s.nthreads).1.d.worker ≠ di.d.worker) ∧
    ((di.r.worker ≠ 0 ∧ ¬ (di.actx ≠ 0 ∧
        sharegroupAt s.contexts.entries di.actx ≠ sharegroupAt s.contexts.entries ctx)) →
      (ensureWorkers s.contexts.entries di ctx s.nthreads).1 = di) ∧
    (di.r.worker = 0 →
      (ensureWorkers s.contexts.entries di ctx s.nthreads).1.r = ⟨s.nthreads + 2, ReinitTodo.RESIZE⟩ ∧
      (ensureWorkers s.contexts.entries di ctx s.nthreads).1.d = ⟨s.nthreads + 1, ReinitTodo.RESIZE⟩ ∧
      (ensureWorkers s.contexts.entries di ctx s.nthreads).1.actx = ctx) ∧
    ((ensureWorkers s.contexts.entries di ctx s.nthreads).1.r.worker ≠ 0 ∧
      (ensureWorkers s.contexts.entries di ctx s.nthreads).1.d.worker ≠ 0) ∧
    ((di.r.worker ≠ 0 → di.actx ≠ 0) →
      sharegroupAt s.contexts.entries (ensureWorkers s.contexts.entries di ctx s.nthreads).1.actx =
        sharegroupAt s.contexts.entries ctx) ∧
    (∃ di', Registry.find s'.drawables k = some di' ∧
      di'.actx = (ensureWorkers s.contexts.entries di ctx s.nthreads).1.actx ∧
      (((swapWaited s di ctx evs).reinit ≠ ReinitTodo.RESIZE ∨
          di.fbconfig = (ContextsInfo.index s.contexts.entries ctx).2.fbconfig) →
        di'.r.worker = (ensureWorkers s.contexts.entries di ctx s.nthreads).1.r.worker ∧
        di'.d.worker = (ensureWorkers s.contexts.entries di ctx s.nthreads).1.d.worker)) := by
  have hs := reachable_ok s hr
  have he := hs.entries k di hf
  have ht := hs.threads k di hf
  have hew := ensureWorkers_workers s.contexts.entries di ctx s.nthreads he.paired ht
  obtain ⟨h1, h2, _, _, _, hspawn, hkeep⟩ := hew
  have hneed : needsRespawn s.contexts.entries di ctx = true ↔
      (di.r.worker ≠ 0 ∧ di.actx ≠ 0 ∧
        sharegroupAt s.contexts.entries di.actx ≠ sharegroupAt s.contexts.entries ctx) := by
    unfold needsRespawn
    simp [hctx]
  refine ⟨?_, ?_, ?_, ⟨h1, h2⟩, ?_, ?_⟩
  · intro hc
    obtain ⟨hr', hd', ha'⟩ := hspawn (Or.inr (hneed.2 hc))
    refine ⟨hr', hd', ha', ?_, ?_⟩
    · rw [hr']; simp only; omega
    · rw [hd']; simp only; omega
  · intro hc
    have hn : needsRespawn s.contexts.entries di ctx = false := by
      cases hb : needsRespawn s.contexts.entries di ctx with
      | false => rfl
      | true => exact absurd (hneed.1 hb).2 hc.2
    exact (hkeep ⟨hc.1, hn⟩).1
  · intro h0
    exact hspawn (Or.inl h0)
  · intro hactx
    by_cases h0 : di.r.worker = 0
    · rw [(hspawn (Or.inl h0)).2.2]
    · cases hb : needsRespawn s.contexts.entries di ctx with
      | true => rw [(hspawn (Or.inr hb)).2.2]
      | false =>
        rw [(hkeep ⟨h0, hb⟩).1]
        by_contra hne
        have := hneed.2 ⟨h0, hactx h0, hne⟩
        rw [hb] at this
        exact Bool.noConfusion this
  · obtain ⟨_, di', hdi', _, _, _, hact, hwork, _⟩ :=
      glXSwapBuffers_ok s s' ctx evs geomDraw geomRead k di hs hf hkind h
    refine ⟨di', hdi', hact, ?_⟩
    intro hcond
    exact hwork (Or.inr hcond)

/-- Witness for C4 (amended): the first swap of the second run spawns the
two workers with `di.actx` set to the current context. -/
theorem glXSwapBuffers_workers_witness :
    (ensureWorkers runCurrent.contexts.entries
        ((Registry.find runCurrent.drawables 100).getD DrawableInfo.zero) 2
        runCurrent.nthreads).1.r.worker ≠ 0 ∧
      (ensureWorkers runCurrent.contexts.entries
        ((Registry.find runCurrent.drawables 100).getD DrawableInfo.zero) 2
        runCurrent.nthreads).1.d.worker ≠ 0 :=
  (glXSwapBuffers_workers runCurrent runSwapped 2 [] (320, 200) (320, 200) 100
    ((Registry.find runCurrent.drawables 100).getD DrawableInfo.zero)
    reachable_runCurrent (by decide) (by decide) (by decide) (by decide)).2.2.2.1

/-! ## The readback worker and its pixel-pack buffers -/

theorem run_append (a b : List RbOp) (st : RbState) :
    RbOp.run (a ++ b) st = RbOp.run b (RbOp.run a st) := by
  induction a generalizing st with
  | nil => rfl
  | cons op a ih => exact ih (op.exec st)

theorem atReads_append (a b : List RbOp) (st : RbState) :
    AtReads (a ++ b) st ↔ AtReads a st ∧ AtReads b (RbOp.run a st) := by
  induction a generalizing st with
  | nil => simp [AtReads, RbOp.run]
  | cons op a ih =>
    show ((op.isRead = true → Sized st) ∧ AtReads (a ++ b) (op.exec st)) ↔ _
    rw [ih]
    simp only [AtReads, RbOp.run, and_assoc]

theorem atReads_split (pre post : List RbOp) (op : RbOp) (st : RbState)
    (h : AtReads (pre ++ op :: post) st) (hop : op.isRead = true) :
    Sized (RbOp.run pre st) := by
  rw [atReads_append] at h
  exact h.2.1 hop

theorem xor_one_lt (c : Nat) (h : c < 2) : c ^^^ 1 < 2 := by
  have h01 : c = 0 ∨ c = 1 := by omega
  rcases h01 with h0 | h1
  · subst h0; decide
  · subst h1; decide

@[simp] theorem setMapped_rReinit (st : RbState) (i : Nat) (b : Bool) :
    (st.setMapped i b).rReinit = st.rReinit := by
  unfold RbState.setMapped; split <;> rfl

@[simp] theorem setMapped_dReinit (st : RbState) (i : Nat) (b : Bool) :
    (st.setMapped i b).dReinit = st.dReinit := by
  unfold RbState.setMapped; split <;> rfl

@[simp] theorem setMapped_diPixeldata (st : RbState) (i : Nat) (b : Bool) :
    (st.setMapped i b).diPixeldata = st.diPixeldata := by
  unfold RbState.setMapped; split <;> rfl

@[simp] theorem setMapped_width (st : RbState) (i : Nat) (b : Bool) :
    (st.setMapped i b).width = st.width := by
  unfold RbState.setMapped; split <;> rfl

@[simp] theorem setMapped_height (st : RbState) (i : Nat) (b : Bool) :
    (st.setMapped i b).height = st.height := by
  unfold RbState.setMapped; split <;> rfl

@[simp] theorem setMapped_cbuf (st : RbState) (i : Nat) (b : Bool) :
    (st.setMapped i b).cbuf = st.cbuf := by
  unfold RbState.setMapped; split <;> rfl

@[simp] theorem setMapped_pixeldata (st : RbState) (i : Nat) (b : Bool) :
    (st.setMapped i b).pixeldata = st.pixeldata := by
  unfold RbState.setMapped; split <;> rfl

@[simp] theorem setMapped_bound (st : RbState) (i : Nat) (b : Bool) :
    (st.setMapped i b).bound = st.bound := by
  unfold RbState.setMapped; split <;> rfl

@[simp] theorem setMapped_sizeLoads (st : RbState) (i : Nat) (b : Bool) :
    (st.setMapped i b).sizeLoads = st.sizeLoads := by
  unfold RbState.setMapped; split <;> rfl

@[simp] theorem setMapped_size0 (st : RbState) (i : Nat) (b : Bool) :
    (st.setMapped i b).size0 = st.size0 := by
  unfold RbState.setMapped; split <;> rfl

@[simp] theorem setMapped_size1 (st : RbState) (i : Nat) (b : Bool) :
    (st.setMapped i b).size1 = st.size1 := by
  unfold RbState.setMapped; split <;> rfl

@[simp] theorem alloc_rReinit (st : RbState) (i : Nat) (n : Int) :
    (st.alloc i n).rReinit = st.rReinit := by
  unfold RbState.alloc; split <;> rfl

@[simp] theorem alloc_dReinit (st : RbState) (i : Nat) (n : Int) :
    (st.alloc i n).dReinit = st.dReinit := by
  unfold RbState.alloc; split <;> rfl

@[simp] theorem alloc_diPixeldata (st : RbState) (i : Nat) (n : Int) :
    (st.alloc i n).diPixeldata = st.diPixeldata := by
  unfold RbState.alloc; split <;> rfl

@[simp] theorem alloc_width (st : RbState) (i : Nat) (n : Int) :
    (st.alloc i n).width = st.width := by
  unfold RbState.alloc; split <;> rfl

@[simp] theorem alloc_height (st : RbState) (i : Nat) (n : Int) :
    (st.alloc i n).height = st.height := by
  unfold RbState.alloc; split <;> rfl

@[simp] theorem alloc_cbuf (st : RbState) (i : Nat) (n : Int) :
    (st.alloc i n).cbuf = st.cbuf := by
  unfold RbState.alloc; split <;> rfl

@[simp] theorem alloc_pixeldata (st : RbState) (i : Nat) (n : Int) :
    (st.alloc i n).pixeldata = st.pixeldata := by
  unfold RbState.alloc; split <;> rfl

@[simp] theorem alloc_bound (st : RbState) (i : Nat) (n : Int) :
    (st.alloc i n).bound = st.bound := by
  unfold RbState.alloc; split <;> rfl

@[simp] theorem alloc_sizeLoads (st : RbState) (i : Nat) (n : Int) :
    (st.alloc i n).sizeLoads = st.sizeLoads := by
  unfold RbState.alloc; split <;> rfl

theorem exec_cbuf (op : RbOp) (st : RbState) (h : st.cbuf < 2) : (op.exec st).cbuf < 2 := by
  cases op <;> simp only [RbOp.exec] <;> (try cases st.bound) <;>
    first
    | exact h
    | exact xor_one_lt _ h
    | (simp only [setMapped_cbuf, alloc_cbuf]; exact h)

theorem run_cbuf (ops : List RbOp) (st : RbState) (h : st.cbuf < 2) :
    (RbOp.run ops st).cbuf < 2 := by
  induction ops generalizing st with
  | nil => exact h
  | cons op ops ih => exact ih _ (exec_cbuf op st h)

/-- A statement other than `glBufferData` leaves the size of both buffers as
it is. -/
theorem exec_size (op : RbOp) (st : RbState) (h : op ≠ RbOp.glBufferData) :
    (op.exec st).size 0 = st.size 0 ∧ (op.exec st).size 1 = st.size 1 := by
  cases op <;> simp only [RbOp.exec, RbState.size] <;> (try cases st.bound) <;>
    first
    | exact absurd rfl h
    | exact ⟨trivial, trivial⟩
    | exact ⟨rfl, rfl⟩
    | simp

/-- A statement other than line 438 leaves `width` and `height` as they
are. -/
theorem exec_dims (op : RbOp) (st : RbState) (h : ∀ w h, op ≠ RbOp.loadSize w h) :
    (op.exec st).width = st.width ∧ (op.exec st).height = st.height ∧
      (op.exec st).sizeLoads = st.sizeLoads := by
  cases op <;> simp only [RbOp.exec] <;> (try cases st.bound) <;>
    first
    | exact absurd rfl (h _ _)
    | exact ⟨trivial, trivial, trivial⟩
    | exact ⟨rfl, rfl, rfl⟩
    | simp

theorem exec_sized (op : RbOp) (st : RbState) (h : op.isAlloc = false) (hs : Sized st) :
    Sized (op.exec st) := by
  have h1 : op ≠ RbOp.glBufferData := by
    intro he; rw [he] at h; simp [RbOp.isAlloc] at h
  have h2 : ∀ w h', op ≠ RbOp.loadSize w h' := by
    intro w h' he; rw [he] at h; simp [RbOp.isAlloc] at h
  obtain ⟨hs0, hs1⟩ := exec_size op st h1
  obtain ⟨hw, hh, hl⟩ := exec_dims op st h2
  unfold Sized RbState.bytes at *
  rw [hs0, hs1, hw, hh, hl]
  exact hs

/-- Statements that neither allocate nor load the size keep the buffers
`Sized`, at each of them and at the end. -/
theorem quiet_sized (ops : List RbOp) (st : RbState)
    (h : ops.all (fun op => !op.isAlloc) = true) (hs : Sized st) :
    AtReads ops st ∧ Sized (RbOp.run ops st) := by
  induction ops generalizing st with
  | nil => exact ⟨trivial, hs⟩
  | cons op ops ih =>
    simp only [List.all_cons, Bool.and_eq_true, Bool.not_eq_true'] at h
    have h' := ih (op.exec st) h.2 (exec_sized op st h.1 hs)
    exact ⟨⟨fun _ => hs, h'.1⟩, h'.2⟩

/-- A sequence without `glReadPixels` and `glMapBuffer`. -/
theorem noReads_atReads (ops : List RbOp) (st : RbState)
    (h : ops.all (fun op => !op.isRead) = true) : AtReads ops st := by
  induction ops generalizing st with
  | nil => trivial
  | cons op ops ih =>
    simp only [List.all_cons, Bool.and_eq_true, Bool.not_eq_true'] at h
    refine ⟨fun hr => ?_, ih _ h.2⟩
    rw [h.1] at hr
    exact absurd hr (by decide)

/-- The RESIZE reinit, lines 437 to 443: both buffers get a data store of
`width*height*4` bytes for the size just read. -/
theorem resizeBlock_sized (w : Wake) (st : RbState) (h : st.cbuf < 2) :
    (RbOp.run (resizeBlock w) st).width = w.diWidth ∧
      (RbOp.run (resizeBlock w) st).height = w.diHeight ∧
      (RbOp.run (resizeBlock w) st).size 0 = wrapInt32 (w.diWidth * w.diHeight * 4) ∧
      (RbOp.run (resizeBlock w) st).size 1 = wrapInt32 (w.diWidth * w.diHeight * 4) ∧
      (RbOp.run (resizeBlock w) st).sizeLoads = st.sizeLoads + 1 ∧
      (RbOp.run (resizeBlock w) st).rReinit = ReinitTodo.NONE ∧
      (RbOp.run (resizeBlock w) st).cbuf = st.cbuf ∧
      (RbOp.run (resizeBlock w) st).bound = some st.cbuf ∧
      (RbOp.run (resizeBlock w) st).mapped 0 = false ∧
      (RbOp.run (resizeBlock w) st).mapped 1 = false := by
  have h01 : st.cbuf = 0 ∨ st.cbuf = 1 := by omega
  rcases h01 with h0 | h1
  · simp [resizeBlock, RbOp.run, RbOp.exec, RbState.pbo, RbState.alloc, RbState.size,
      RbState.bytes, RbState.mapped, h0]
  · simp [resizeBlock, RbOp.run, RbOp.exec, RbState.pbo, RbState.alloc, RbState.size,
      RbState.bytes, RbState.mapped, h1]

theorem resizeBlock_noReads (w : Wake) :
    (resizeBlock w).all (fun op => !op.isRead) = true := by
  simp [resizeBlock, RbOp.isRead]

theorem readback_frame_quiet (sync : Int) (w : Wake) :
    (readback_frame sync w).all (fun op => !op.isAlloc) = true := by
  unfold readback_frame
  by_cases h0 : sync = 0 <;> by_cases h1 : sync = 1 <;> cases w.late455 <;>
    simp [h0, h1, RbOp.isAlloc]

theorem readback_pass_noReads (sync : Int) (w : Wake) :
    (readback_pass sync w).all (fun op => !op.isRead) = true := by
  unfold readback_pass readback_waitD
  by_cases h0 : sync = 0 <;> cases w.late415 <;> simp [h0, RbOp.isRead]

/-- The body of `if (di.r.reinit)`: either it ends the thread or the
process without a read, or it is the handshake followed by the RESIZE
reinit. -/
theorem readback_reinit_shape (sync : Int) (reinit : ReinitTodo) (w : Wake) :
    ((readback_reinit sync reinit w).2 ≠ WorkEnd.again ∧
      (readback_reinit sync reinit w).1.all (fun op => !op.isRead) = true) ∨
    ((readback_reinit sync reinit w).2 = WorkEnd.again ∧
      (readback_reinit sync reinit w).1 = readback_pass sync w ++ resizeBlock w) := by
  unfold readback_reinit
  by_cases hx : sync = 0 ∧ w.late415 = true ∧ reinit ≠ ReinitTodo.SHUTDOWN
  · left
    rw [if_pos hx]
    refine ⟨by simp, ?_⟩
    unfold readback_waitD
    simp [hx.1, hx.2.1, RbOp.isRead, exitReap]
  · rw [if_neg hx]
    by_cases hs : reinit = ReinitTodo.SHUTDOWN
    · left
      rw [if_pos hs]
      refine ⟨by simp, ?_⟩
      have hp := readback_pass_noReads sync w
      simp only [List.all_append, hp, Bool.true_and]
      simp [RbOp.isRead]
    · right
      rw [if_neg hs]
      exact ⟨rfl, rfl⟩

theorem head_noReads :
    [RbOp.semWait Sem.rAcq, RbOp.tick true].all (fun op => !op.isRead) = true := by
  simp [RbOp.isRead]

theorem head_quiet :
    [RbOp.semWait Sem.rAcq, RbOp.tick true].all (fun op => !op.isAlloc) = true := by
  simp [RbOp.isAlloc]

theorem loopInv_of_sized (st : RbState) (hc : st.cbuf < 2) (hs : Sized st) : LoopInv st :=
  ⟨hc, fun h0 => absurd hs.1 (by omega), fun _ => hs⟩

/-- One iteration from the head of the loop: the buffers are `Sized` at
every read, and again at the head of the loop when the thread goes on. -/
theorem iteration_ok (sync : Int) (w : Wake) (st : RbState) (h : LoopInv st) :
    AtReads (readback_iteration sync st.rReinit w).1 st ∧
      ((readback_iteration sync st.rReinit w).2 = WorkEnd.again →
        LoopInv (RbOp.run (readback_iteration sync st.rReinit w).1 st)) := by
  unfold readback_iteration
  by_cases hn : st.rReinit ≠ ReinitTodo.NONE
  · rw [if_pos hn]
    rcases readback_reinit_shape sync st.rReinit w with ⟨hne, hnr⟩ | ⟨hag, heq⟩
    · cases hre : (readback_reinit sync st.rReinit w).2 with
      | again => exact absurd hre hne
      | returned =>
        refine ⟨?_, fun hc => by simp at hc⟩
        exact noReads_atReads _ _ (by rw [List.all_append, head_noReads, hnr]; rfl)
      | exited =>
        refine ⟨?_, fun hc => by simp at hc⟩
        exact noReads_atReads _ _ (by rw [List.all_append, head_noReads, hnr]; rfl)
    · simp only [hag, heq]
      have hpre : ([RbOp.semWait Sem.rAcq, RbOp.tick true] ++
          (readback_pass sync w ++ resizeBlock w)).all (fun op => !op.isRead) = true := by
        rw [List.all_append, List.all_append, head_noReads, readback_pass_noReads,
          resizeBlock_noReads]
        rfl
      have hrun : RbOp.run ([RbOp.semWait Sem.rAcq, RbOp.tick true] ++
          (readback_pass sync w ++ resizeBlock w)) st =
          RbOp.run (resizeBlock w)
            (RbOp.run ([RbOp.semWait Sem.rAcq, RbOp.tick true] ++ readback_pass sync w) st) := by
        rw [← List.append_assoc, run_append]
      have hc := run_cbuf ([RbOp.semWait Sem.rAcq, RbOp.tick true] ++ readback_pass sync w) st h.1
      obtain ⟨hw, hh, hs0, hs1, hl, _, _⟩ := resizeBlock_sized w _ hc
      have hsized : Sized (RbOp.run ([RbOp.semWait Sem.rAcq, RbOp.tick true] ++
          (readback_pass sync w ++ resizeBlock w)) st) := by
        rw [hrun]
        refine ⟨by omega, ?_, ?_⟩
        · rw [hs0]; unfold RbState.bytes; rw [hw, hh]
        · rw [hs1]; unfold RbState.bytes; rw [hw, hh]
      have hfr := quiet_sized (readback_frame sync w) _ (readback_frame_quiet sync w) hsized
      refine ⟨?_, fun _ => ?_⟩
      · rw [atReads_append]
        exact ⟨noReads_atReads _ _ hpre, hfr.1⟩
      · rw [run_append]
        exact loopInv_of_sized _ (run_cbuf _ _ (run_cbuf _ _ h.1)) hfr.2
  · rw [if_neg hn]
    have hnone : st.rReinit = ReinitTodo.NONE := by
      cases hr : st.rReinit with
      | NONE => rfl
      | RESIZE => exact absurd (by rw [hr]; simp) hn
      | SHUTDOWN => exact absurd (by rw [hr]; simp) hn
    have hl : 1 ≤ st.sizeLoads := by
      by_contra hc
      exact h.2.1 (by omega) hnone
    have hq : ([RbOp.semWait Sem.rAcq, RbOp.tick true] ++ readback_frame sync w).all
        (fun op => !op.isAlloc) = true := by
      rw [List.all_append, head_quiet, readback_frame_quiet]
      rfl
    have hfr := quiet_sized _ st hq (h.2.2 hl)
    exact ⟨hfr.1, fun _ => loopInv_of_sized _ (run_cbuf _ _ h.1) hfr.2⟩

/-- The store that comes with a signal keeps the invariant of the loop. -/
theorem signal_ok (sig : AppSignal) (st : RbState) (h : LoopInv st) :
    AtReads sig.ops st ∧ LoopInv (RbOp.run sig.ops st) := by
  cases sig with
  | swap => exact ⟨trivial, h⟩
  | resized =>
    refine ⟨⟨fun hc => by simp [RbOp.isRead] at hc, trivial⟩, ?_⟩
    exact ⟨h.1, fun _ => by simp [AppSignal.ops, RbOp.run, RbOp.exec], h.2.2⟩
  | reap =>
    refine ⟨⟨fun hc => by simp [RbOp.isRead] at hc, trivial⟩, ?_⟩
    exact ⟨h.1, fun _ => by simp [AppSignal.ops, RbOp.run, RbOp.exec], h.2.2⟩

theorem wake_ok (sync : Int) (w : Wake) (st : RbState) (h : LoopInv st) :
    AtReads (readback_wake sync w st).1 st ∧
      ((readback_wake sync w st).2 = WorkEnd.again →
        LoopInv (RbOp.run (readback_wake sync w st).1 st)) := by
  obtain ⟨hsa, hsi⟩ := signal_ok w.signal st h
  obtain ⟨hia, hii⟩ := iteration_ok sync w _ hsi
  unfold readback_wake
  refine ⟨?_, fun hend => ?_⟩
  · rw [atReads_append]
    exact ⟨hsa, hia⟩
  · rw [run_append]
    exact hii hend

theorem loop_ok (sync : Int) (wakes : List Wake) (st : RbState) (h : LoopInv st) :
    AtReads (readback_loop sync wakes st).1 st ∧
      ∀ st', (readback_loop sync wakes st).2 = some st' → LoopInv st' := by
  induction wakes generalizing st with
  | nil =>
    refine ⟨trivial, fun st' hst => ?_⟩
    simp only [readback_loop, Option.some.injEq] at hst
    rw [← hst]
    exact h
  | cons w ws ih =>
    obtain ⟨hwa, hwi⟩ := wake_ok sync w st h
    unfold readback_loop
    cases hend : (readback_wake sync w st).2 with
    | again =>
      simp only
      obtain ⟨hla, hli⟩ := ih _ (hwi hend)
      refine ⟨?_, hli⟩
      rw [atReads_append]
      exact ⟨hwa, hla⟩
    | returned => exact ⟨hwa, fun st' hst => by simp at hst⟩
    | exited => exact ⟨hwa, fun st' hst => by simp at hst⟩

theorem loopInv_start (w0 h0 : Int) : LoopInv (RbState.start w0 h0) :=
  ⟨by simp [RbState.start], fun _ => by simp [RbState.start],
    fun h => by simp [RbState.start] at h⟩

theorem prologue_run (sync : Int) (st : RbState) :
    RbOp.run (readback_prologue sync true).1 st = st := by
  unfold readback_prologue
  by_cases h0 : sync = 0 <;> simp [h0, RbOp.run, RbOp.exec]

theorem prologue_noReads (sync : Int) (direct : Bool) :
    (readback_prologue sync direct).1.all (fun op => !op.isRead) = true := by
  unfold readback_prologue
  by_cases h0 : sync = 0 <;> cases direct <;> simp [h0, RbOp.isRead, exitReap]

theorem work_ok (sync : Int) (direct : Bool) (w0 h0 : Int) (wakes : List Wake) :
    AtReads (readback_work sync direct w0 h0 wakes) (RbState.start w0 h0) := by
  cases direct with
  | true =>
    have hend : (readback_prologue sync true).2 = WorkEnd.again := by
      simp [readback_prologue]
    unfold readback_work
    simp only [hend]
    rw [atReads_append, prologue_run]
    exact ⟨noReads_atReads _ _ (prologue_noReads sync true),
      (loop_ok sync wakes _ (loopInv_start w0 h0)).1⟩
  | false =>
    have hend : (readback_prologue sync false).2 = WorkEnd.exited := by
      simp [readback_prologue]
    unfold readback_work
    simp only [hend]
    exact noReads_atReads _ _ (prologue_noReads sync false)

/-- C12. In every run of `readback_work` (every sync mode, every sequence of
wake-ups by the application, every size of the window, every outcome of the
timed waits, whatever the locals `width` and `height` held at the start):
whenever a `glReadPixels` or a `glMapBuffer` is executed, line 438 has run
before (the worker has been through a RESIZE reinit) and `pbos[0]` and
`pbos[1]` both have a data store of `width*height*4` bytes for the current
locals `width` and `height`. The RESIZE reinit, lines 437 to 443, leaves
`width` and `height` at the size it read and both buffers with a data store
of that many bytes, wherever it is executed; a statement other than
`glBufferData` changes the size of no buffer; and a statement other than
line 438 changes neither `width` nor `height`. -/
theorem pbo_sizes (sync : Int) (direct : Bool) (w0 h0 : Int) (wakes : List Wake) :
    (∀ (pre post : List RbOp) (op : RbOp),
        readback_work sync direct w0 h0 wakes = pre ++ op :: post →
        (op = RbOp.glReadPixels ∨ op = RbOp.glMapBuffer) →
        1 ≤ (RbOp.run pre (RbState.start w0 h0)).sizeLoads ∧
          (RbOp.run pre (RbState.start w0 h0)).size 0 =
            wrapInt32 ((RbOp.run pre (RbState.start w0 h0)).width *
              (RbOp.run pre (RbState.start w0 h0)).height * 4) ∧
          (RbOp.run pre (RbState.start w0 h0)).size 1 =
            wrapInt32 ((RbOp.run pre (RbState.start w0 h0)).width *
              (RbOp.run pre (RbState.start w0 h0)).height * 4)) ∧
    (∀ (pre : List RbOp) (w : Wake),
        (RbOp.run (pre ++ resizeBlock w) (RbState.start w0 h0)).width = w.diWidth ∧
          (RbOp.run (pre ++ resizeBlock w) (RbState.start w0 h0)).height = w.diHeight ∧
          (RbOp.run (pre ++ resizeBlock w) (RbState.start w0 h0)).size 0 =
            wrapInt32 (w.diWidth * w.diHeight * 4) ∧
          (RbOp.run (pre ++ resizeBlock w) (RbState.start w0 h0)).size 1 =
            wrapInt32 (w.diWidth * w.diHeight * 4)) ∧
    (∀ (op : RbOp) (st : RbState), op ≠ RbOp.glBufferData →
        (op.exec st).size 0 = st.size 0 ∧ (op.exec st).size 1 = st.size 1) ∧
    (∀ (op : RbOp) (st : RbState), (∀ w h, op ≠ RbOp.loadSize w h) →
        (op.exec st).width = st.width ∧ (op.exec st).height = st.height) := by
  refine ⟨?_, ?_, exec_size, fun op st h => ⟨(exec_dims op st h).1, (exec_dims op st h).2.1⟩⟩
  · intro pre post op hsplit hop
    have hall := work_ok sync direct w0 h0 wakes
    rw [hsplit] at hall
    have hread : op.isRead = true := by
      rcases hop with h | h <;> rw [h] <;> rfl
    exact atReads_split pre post op _ hall hread
  · intro pre w
    rw [run_append]
    have hc := run_cbuf pre (RbState.start w0 h0) (by simp [RbState.start])
    obtain ⟨hw, hh, hs0, hs1, _⟩ := resizeBlock_sized w _ hc
    exact ⟨hw, hh, hs0, hs1⟩

/-- Witness for C12: sync mode 1, two wake-ups, the second after a resize to
8 by 2; the second `glReadPixels` is the 44th statement, and both buffers
hold 64 bytes there. -/
theorem pbo_sizes_witness :
    (readback_work 1 true 7 7
        [⟨AppSignal.swap, 4, 3, false, false⟩, ⟨AppSignal.resized, 8, 2, false, false⟩]).get? 43 =
        some RbOp.glReadPixels ∧
      (RbOp.run ((readback_work 1 true 7 7
        [⟨AppSignal.swap, 4, 3, false, false⟩, ⟨AppSignal.resized, 8, 2, false, false⟩]).take 43)
        (RbState.start 7 7)).size 0 = 64 ∧
      (RbOp.run ((readback_work 1 true 7 7
        [⟨AppSignal.swap, 4, 3, false, false⟩, ⟨AppSignal.resized, 8, 2, false, false⟩]).take 43)
        (RbState.start 7 7)).size 0 =
        wrapInt32 ((RbOp.run ((readback_work 1 true 7 7
          [⟨AppSignal.swap, 4, 3, false, false⟩,
            ⟨AppSignal.resized, 8, 2, false, false⟩]).take 43) (RbState.start 7 7)).width *
          (RbOp.run ((readback_work 1 true 7 7
          [⟨AppSignal.swap, 4, 3, false, false⟩,
            ⟨AppSignal.resized, 8, 2, false, false⟩]).take 43) (RbState.start 7 7)).height * 4) :=
  ⟨by decide, by decide,
    ((pbo_sizes 1 true 7 7
      [⟨AppSignal.swap, 4, 3, false, false⟩, ⟨AppSignal.resized, 8, 2, false, false⟩]).1
      ((readback_work 1 true 7 7
        [⟨AppSignal.swap, 4, 3, false, false⟩, ⟨AppSignal.resized, 8, 2, false, false⟩]).take 43)
      ((readback_work 1 true 7 7
        [⟨AppSignal.swap, 4, 3, false, false⟩, ⟨AppSignal.resized, 8, 2, false, false⟩]).drop 44)
      RbOp.glReadPixels (by decide) (Or.inl rfl)).2.1⟩

/-! ## The lagged mode of the readback worker -/

theorem stateAt_append_skip (op : RbOp) (a b : List RbOp) (st : RbState)
    (h : a.all (fun o => decide (o ≠ op)) = true) :
    RbOp.stateAt op (a ++ b) st = RbOp.stateAt op b (RbOp.run a st) := by
  induction a generalizing st with
  | nil => rfl
  | cons o a ih =>
    simp only [List.all_cons, Bool.and_eq_true, decide_eq_true_eq] at h
    show RbOp.stateAt op (o :: (a ++ b)) st = _
    simp only [RbOp.stateAt, if_neg h.1, RbOp.run]
    exact ih _ h.2

/-- One frame of sync mode 1 from a state where `pbos[cbuf]` is bound and no
buffer is mapped: `glReadPixels` targets `pbos[cbuf]`, which is not mapped;
`glMapBuffer` maps `pbos[cbuf ^ 1]`, and that mapping is stored in
`di.pixeldata`; at the end `cbuf` is flipped, the new `pbos[cbuf]` is bound
and no buffer is mapped. -/
theorem frame_lagged (w : Wake) (st : RbState) (hc : st.cbuf < 2)
    (hb : st.bound = some st.cbuf) (hm0 : st.mapped0 = false) (hm1 : st.mapped1 = false) :
    (RbOp.stateAt RbOp.glReadPixels (readback_frame 1 w) st).map (fun s => s.bound) =
        some (some st.cbuf) ∧
      (RbOp.stateAt RbOp.glReadPixels (readback_frame 1 w) st).map
        (fun s => s.mapped st.cbuf) = some false ∧
      (RbOp.stateAt RbOp.glMapBuffer (readback_frame 1 w) st).map (fun s => s.bound) =
        some (some (st.cbuf ^^^ 1)) ∧
      (RbOp.run (readback_frame 1 w) st).diPixeldata = some (st.cbuf ^^^ 1) ∧
      (RbOp.run (readback_frame 1 w) st).cbuf = st.cbuf ^^^ 1 ∧
      (RbOp.run (readback_frame 1 w) st).bound = some (st.cbuf ^^^ 1) ∧
      (RbOp.run (readback_frame 1 w) st).mapped0 = false ∧
      (RbOp.run (readback_frame 1 w) st).mapped1 = false ∧
      (RbOp.run (readback_frame 1 w) st).rReinit = st.rReinit := by
  have h01 : st.cbuf = 0 ∨ st.cbuf = 1 := by omega
  rcases h01 with h0 | h1
  · rw [h0] at hb
    simp [readback_frame, RbOp.stateAt, RbOp.run, RbOp.exec, RbState.pbo, RbState.setMapped,
      RbState.mapped, h0, hb, hm0, hm1]
  · rw [h1] at hb
    simp [readback_frame, RbOp.stateAt, RbOp.run, RbOp.exec, RbState.pbo, RbState.setMapped,
      RbState.mapped, h1, hb, hm0, hm1]

/-- One wake-up in sync mode 1 that is not a shutdown, from the head of the
loop: a frame is read into `pbos[cbuf]`, the other buffer is mapped and
handed over, and `cbuf` is flipped. -/
theorem wake_lagged (w : Wake) (st : RbState) (h : LagInv st)
    (hs : w.signal ≠ AppSignal.reap) :
    (readback_wake 1 w st).2 = WorkEnd.again ∧
      (RbOp.stateAt RbOp.glReadPixels (readback_wake 1 w st).1 st).map (fun s => s.bound) =
        some (some st.cbuf) ∧
      (RbOp.stateAt RbOp.glReadPixels (readback_wake 1 w st).1 st).map
        (fun s => s.mapped st.cbuf) = some false ∧
      (RbOp.stateAt RbOp.glMapBuffer (readback_wake 1 w st).1 st).map (fun s => s.bound) =
        some (some (st.cbuf ^^^ 1)) ∧
      (RbOp.run (readback_wake 1 w st).1 st).diPixeldata = some (st.cbuf ^^^ 1) ∧
      (RbOp.run (readback_wake 1 w st).1 st).cbuf = st.cbuf ^^^ 1 ∧
      (RbOp.run (readback_wake 1 w st).1 st).rReinit = ReinitTodo.NONE ∧
      LagInv (RbOp.run (readback_wake 1 w st).1 st) := by
  obtain ⟨hc, hm0, hm1, hr⟩ := h
  have h01 : st.cbuf = 0 ∨ st.cbuf = 1 := by omega
  unfold LagInv
  cases hsig : w.signal with
  | reap => exact absurd hsig hs
  | swap =>
    rcases hr with ⟨hn, hb⟩ | hre <;> rcases h01 with h0 | h1
    · rw [h0] at hb
      simp [readback_wake, readback_iteration, readback_frame, AppSignal.ops, hsig, hn,
        RbOp.stateAt, RbOp.run, RbOp.exec, RbState.pbo, RbState.setMapped, RbState.mapped,
        h0, hb, hm0, hm1]
    · rw [h1] at hb
      simp [readback_wake, readback_iteration, readback_frame, AppSignal.ops, hsig, hn,
        RbOp.stateAt, RbOp.run, RbOp.exec, RbState.pbo, RbState.setMapped, RbState.mapped,
        h1, hb, hm0, hm1]
    · simp [readback_wake, readback_iteration, readback_reinit, readback_pass, readback_waitD,
        resizeBlock, readback_frame, AppSignal.ops, hsig, hre,
        RbOp.stateAt, RbOp.run, RbOp.exec, RbState.pbo, RbState.setMapped, RbState.mapped,
        RbState.alloc, h0, hm0, hm1]
    · simp [readback_wake, readback_iteration, readback_reinit, readback_pass, readback_waitD,
        resizeBlock, readback_frame, AppSignal.ops, hsig, hre,
        RbOp.stateAt, RbOp.run, RbOp.exec, RbState.pbo, RbState.setMapped, RbState.mapped,
        RbState.alloc, h1, hm0, hm1]
  | resized =>
    rcases h01 with h0 | h1
    · simp [readback_wake, readback_iteration, readback_reinit, readback_pass, readback_waitD,
        resizeBlock, readback_frame, AppSignal.ops, hsig,
        RbOp.stateAt, RbOp.run, RbOp.exec, RbState.pbo, RbState.setMapped, RbState.mapped,
        RbState.alloc, h0, hm0, hm1]
    · simp [readback_wake, readback_iteration, readback_reinit, readback_pass, readback_waitD,
        resizeBlock, readback_frame, AppSignal.ops, hsig,
        RbOp.stateAt, RbOp.run, RbOp.exec, RbState.pbo, RbState.setMapped, RbState.mapped,
        RbState.alloc, h1, hm0, hm1]

theorem wake_reap_ends (sync : Int) (w : Wake) (st : RbState)
    (h : w.signal = AppSignal.reap) : (readback_wake sync w st).2 ≠ WorkEnd.again := by
  unfold readback_wake readback_iteration readback_reinit
  by_cases h0 : sync = 0 <;> cases w.late415 <;>
    simp [h, h0, AppSignal.ops, RbOp.run, RbOp.exec]

theorem lagInv_start (w0 h0 : Int) : LagInv (RbState.start w0 h0) := by
  simp [LagInv, RbState.start]

theorem loop_lagged (wakes : List Wake) (st st' : RbState) (h : LagInv st)
    (hst : (readback_loop 1 wakes st).2 = some st') : LagInv st' := by
  induction wakes generalizing st with
  | nil =>
    simp only [readback_loop, Option.some.injEq] at hst
    rw [← hst]
    exact h
  | cons w ws ih =>
    unfold readback_loop at hst
    cases hend : (readback_wake 1 w st).2 with
    | again =>
      simp only [hend] at hst
      have hsig : w.signal ≠ AppSignal.reap := fun hr => wake_reap_ends 1 w st hr hend
      exact ih _ (wake_lagged w st h hsig).2.2.2.2.2.2.2 hst
    | returned => simp [hend] at hst
    | exited => simp [hend] at hst

theorem xor_one_ne (b : Nat) (h : b < 2) : b ^^^ 1 ≠ b ∧ (b ^^^ 1) ^^^ 1 = b := by
  have h01 : b = 0 ∨ b = 1 := by omega
  rcases h01 with h0 | h1
  · subst h0; decide
  · subst h1; decide

/-- C14. Sync mode 1, the worker at the head of its loop after any sequence
of wake-ups, then two wake-ups in a row, neither a shutdown and the second
with no reinit request (`glXSwapBuffers` without a resize in between). With
`b` the buffer bound as the target of `glReadPixels` in the earlier
iteration: the later iteration runs no reinit, the buffer bound at its
`glMapBuffer` is `b`, the mapping of `b` is what `di.pixeldata` holds when the
iteration is done, the buffer bound at its `glReadPixels` is the other one,
`b ^ 1`, and that buffer is not mapped at that time. -/
theorem lagged_buffers (w0 h0 : Int) (wakes : List Wake) (w1 w2 : Wake) (st : RbState)
    (hst : (readback_loop 1 wakes (RbState.start w0 h0)).2 = some st)
    (h1 : w1.signal ≠ AppSignal.reap) (h2 : w2.signal = AppSignal.swap) :
    ∃ b, b < 2 ∧
      (RbOp.stateAt RbOp.glReadPixels (readback_wake 1 w1 st).1 st).map (fun s => s.bound) =
        some (some b) ∧
      RbOp.clearRReinit ∉ (readback_wake 1 w2 (RbOp.run (readback_wake 1 w1 st).1 st)).1 ∧
      (RbOp.stateAt RbOp.glMapBuffer
        (readback_wake 1 w2 (RbOp.run (readback_wake 1 w1 st).1 st)).1
        (RbOp.run (readback_wake 1 w1 st).1 st)).map (fun s => s.bound) = some (some b) ∧
      (RbOp.run (readback_wake 1 w2 (RbOp.run (readback_wake 1 w1 st).1 st)).1
        (RbOp.run (readback_wake 1 w1 st).1 st)).diPixeldata = some b ∧
      (RbOp.stateAt RbOp.glReadPixels
        (readback_wake 1 w2 (RbOp.run (readback_wake 1 w1 st).1 st)).1
        (RbOp.run (readback_wake 1 w1 st).1 st)).map (fun s => s.bound) =
        some (some (b ^^^ 1)) ∧
      b ^^^ 1 ≠ b ∧
      (RbOp.stateAt RbOp.glReadPixels
        (readback_wake 1 w2 (RbOp.run (readback_wake 1 w1 st).1 st)).1
        (RbOp.run (readback_wake 1 w1 st).1 st)).map (fun s => s.mapped (b ^^^ 1)) =
        some false := by
  have hinv := loop_lagged wakes _ st (lagInv_start w0 h0) hst
  obtain ⟨_, hread1, _, _, _, hcbuf, hnone, hinv2⟩ := wake_lagged w1 st hinv h1
  have hs2 : w2.signal ≠ AppSignal.reap := by rw [h2]; decide
  obtain ⟨_, hread2, hmapped2, hmap2, hpix2, _, _, _⟩ :=
    wake_lagged w2 (RbOp.run (readback_wake 1 w1 st).1 st) hinv2 hs2
  obtain ⟨hne, hback⟩ := xor_one_ne st.cbuf hinv.1
  rw [hcbuf] at hread2 hmapped2 hmap2 hpix2
  rw [hback] at hmap2 hpix2
  refine ⟨st.cbuf, hinv.1, hread1, ?_, hmap2, hpix2, hread2, hne, hmapped2⟩
  generalize RbOp.run (readback_wake 1 w1 st).1 st = st2 at hnone ⊢
  simp [readback_wake, readback_iteration, readback_frame, h2, AppSignal.ops, RbOp.run, hnone]

/-- Witness for C14: the first two wake-ups of a worker; the first runs the
RESIZE reinit of `spawn_worker` and reads into `pbos[0]`. -/
theorem lagged_buffers_witness :
    (readback_loop 1 [] (RbState.start 7 7)).2 = some (RbState.start 7 7) ∧
      (⟨AppSignal.swap, 4, 3, false, false⟩ : Wake).signal ≠ AppSignal.reap ∧
      (RbOp.stateAt RbOp.glReadPixels
        (readback_wake 1 ⟨AppSignal.swap, 4, 3, false, false⟩ (RbState.start 7 7)).1
        (RbState.start 7 7)).map (fun s => s.bound) = some (some 0) ∧
      ∃ b, b < 2 ∧
        (RbOp.stateAt RbOp.glReadPixels
          (readback_wake 1 ⟨AppSignal.swap, 4, 3, false, false⟩ (RbState.start 7 7)).1
          (RbState.start 7 7)).map (fun s => s.bound) = some (some b) ∧
        (RbOp.run (readback_wake 1 ⟨AppSignal.swap, 4, 3, false, false⟩
          (RbOp.run (readback_wake 1 ⟨AppSignal.swap, 4, 3, false, false⟩
            (RbState.start 7 7)).1 (RbState.start 7 7))).1
          (RbOp.run (readback_wake 1 ⟨AppSignal.swap, 4, 3, false, false⟩
            (RbState.start 7 7)).1 (RbState.start 7 7))).diPixeldata = some b :=
  ⟨rfl, by decide, by decide,
    (lagged_buffers 7 7 [] ⟨AppSignal.swap, 4, 3, false, false⟩
      ⟨AppSignal.swap, 4, 3, false, false⟩ (RbState.start 7 7) rfl (by decide) rfl).imp
      (fun _ h => ⟨h.1, h.2.1, h.2.2.2.2.1⟩)⟩

/-! ## The posts of `di.r.relsem` by the readback worker -/

theorem frame_counts (sync : Int) (w : Wake) :
    (readback_frame sync w).count (RbOp.semPost Sem.rRel) = 1 ∧
      (readback_frame sync w).count (RbOp.semWait Sem.rAcq) = 0 := by
  unfold readback_frame
  by_cases h0 : sync = 0
  · subst h0
    cases w.late455 <;> simp
  · by_cases h1 : sync = 1
    · subst h1
      simp
    · simp [h0, h1]

theorem pass_counts (sync : Int) (w : Wake) :
    (readback_pass sync w).count (RbOp.semPost Sem.rRel) = 0 ∧
      (readback_pass sync w).count (RbOp.semWait Sem.rAcq) = 0 := by
  unfold readback_pass readback_waitD
  by_cases h0 : sync = 0
  · subst h0
    cases w.late415 <;> simp
  · simp [h0]

theorem waitD_counts (sync : Int) (w : Wake) :
    (readback_waitD sync w).count (RbOp.semPost Sem.rRel) = 0 ∧
      (readback_waitD sync w).count (RbOp.semWait Sem.rAcq) = 0 := by
  unfold readback_waitD
  by_cases h0 : sync = 0
  · subst h0
    cases w.late415 <;> simp
  · simp [h0]

theorem resizeBlock_counts (w : Wake) :
    (resizeBlock w).count (RbOp.semPost Sem.rRel) = 0 ∧
      (resizeBlock w).count (RbOp.semWait Sem.rAcq) = 0 := by
  unfold resizeBlock
  simp [List.count_cons]

/-- The body of `if (di.r.reinit)`: it posts `di.r.relsem` once when the
thread returns and not at all otherwise, and never waits on
`di.r.acqsem`. -/
theorem reinit_counts (sync : Int) (reinit : ReinitTodo) (w : Wake) :
    (readback_reinit sync reinit w).1.count (RbOp.semWait Sem.rAcq) = 0 ∧
      (readback_reinit sync reinit w).1.count (RbOp.semPost Sem.rRel) =
        (if (readback_reinit sync reinit w).2 = WorkEnd.returned then 1 else 0) := by
  unfold readback_reinit
  by_cases hx : sync = 0 ∧ w.late415 = true ∧ reinit ≠ ReinitTodo.SHUTDOWN
  · rw [if_pos hx]
    simp only [List.count_append, (waitD_counts sync w).1, (waitD_counts sync w).2]
    simp [List.count_cons, exitReap]
  · rw [if_neg hx]
    by_cases hs : reinit = ReinitTodo.SHUTDOWN
    · rw [if_pos hs]
      simp only [List.count_append, (pass_counts sync w).1, (pass_counts sync w).2]
      simp [List.count_cons]
    · rw [if_neg hs]
      simp only [List.count_append, (pass_counts sync w).1, (pass_counts sync w).2,
        (resizeBlock_counts w).1, (resizeBlock_counts w).2]
      simp

/-- One iteration of the loop of `readback_work`, whatever the sync mode, the
reinit request and the outcome of the timed waits: it starts with the wait
on `di.r.acqsem` and has no other; it posts `di.r.relsem` exactly once
unless the process exits, and then it has not posted it. -/
theorem iteration_posts_once (sync : Int) (reinit : ReinitTodo) (w : Wake) :
    (readback_iteration sync reinit w).1.head? = some (RbOp.semWait Sem.rAcq) ∧
      (readback_iteration sync reinit w).1.count (RbOp.semWait Sem.rAcq) = 1 ∧
      ((readback_iteration sync reinit w).2 ≠ WorkEnd.exited →
        (readback_iteration sync reinit w).1.count (RbOp.semPost Sem.rRel) = 1) ∧
      ((readback_iteration sync reinit w).2 = WorkEnd.exited →
        (readback_iteration sync reinit w).1.count (RbOp.semPost Sem.rRel) = 0) := by
  have hhead : [RbOp.semWait Sem.rAcq, RbOp.tick true].count (RbOp.semWait Sem.rAcq) = 1 := by
    decide
  have hhead2 : [RbOp.semWait Sem.rAcq, RbOp.tick true].count (RbOp.semPost Sem.rRel) = 0 := by
    decide
  obtain ⟨hf1, hf2⟩ := frame_counts sync w
  obtain ⟨hr1, hr2⟩ := reinit_counts sync reinit w
  unfold readback_iteration
  by_cases hn : reinit ≠ ReinitTodo.NONE
  · rw [if_pos hn]
    cases hre : (readback_reinit sync reinit w).2 with
    | again =>
      rw [hre] at hr2
      simp only [List.count_append, hhead, hhead2, hf1, hf2, hr1, hr2]
      simp
    | returned =>
      rw [hre] at hr2
      simp only [List.count_append, hhead, hhead2, hr1, hr2]
      simp
    | exited =>
      rw [hre] at hr2
      simp only [List.count_append, hhead, hhead2, hr1, hr2]
      simp
  · rw [if_neg hn]
    simp only [List.count_append, hhead, hhead2, hf1, hf2]
    simp

/-! ## The posts of `di.r.relsem` in the pipeline -/

theorem matched_app (c : PipeCtl) (h : Matched c) : ∀ m ∈ appSteps c, Matched m.1 := by
  obtain ⟨sync, racq, rrel, dacq, drel, rReinit, dReinit, reinit, rWorker, cancelled, aborted,
    app, rb, dp⟩ := c
  cases app with
  | reapJoinD k =>
    cases k <;> simp [appSteps, silent, AppCont.resume, Matched, AppPc.waiting] at h ⊢
    all_goals omega
  | swapSpawn =>
    cases rWorker <;>
      simp [appSteps, silent, Matched, AppPc.waiting, RbPc.owes] at h ⊢
    all_goals omega
  | swapTail =>
    by_cases hr : reinit = ReinitTodo.RESIZE <;>
      simp [appSteps, silent, Matched, AppPc.waiting, hr] at h ⊢ <;> omega
  | _ =>
    simp [appSteps, silent, AppCont.resume, Matched, AppPc.waiting] at h ⊢
    all_goals omega

theorem matched_rb (c : PipeCtl) (h : Matched c) : ∀ m ∈ rbSteps c, Matched m.1 := by
  obtain ⟨sync, racq, rrel, dacq, drel, rReinit, dReinit, reinit, rWorker, cancelled, aborted,
    app, rb, dp⟩ := c
  by_cases h0 : sync = 0
  · cases rb <;> simp [rbSteps, silent, Matched, RbPc.owes, h0] at h ⊢ <;>
      (try split_ifs) <;> (try simp) <;>
      (try (intro a a1 b ha _ _; subst ha; simp [RbPc.owes])) <;> (try omega)
  · cases rb <;> simp [rbSteps, silent, Matched, RbPc.owes, h0] at h ⊢ <;>
      (try split_ifs) <;> (try simp) <;>
      (try (intro a a1 b ha _ _; subst ha; simp [RbPc.owes, h0])) <;> (try omega)

theorem matched_dp (c : PipeCtl) (h : Matched c) : ∀ m ∈ dpSteps c, Matched m.1 := by
  obtain ⟨sync, racq, rrel, dacq, drel, rReinit, dReinit, reinit, rWorker, cancelled, aborted,
    app, rb, dp⟩ := c
  intro m hm
  have hkeep : m.1.racq = racq ∧ m.1.rrel = rrel ∧ m.1.rb = rb ∧ m.1.app = app ∧
      m.1.sync = sync := by
    cases dp <;> cases dReinit <;> cases cancelled <;>
      simp [dpSteps, silent] at hm <;> (try split_ifs at hm) <;> aesop
  obtain ⟨h1, h2, h3, h4, h5⟩ := hkeep
  unfold Matched at h ⊢
  rw [h1, h2, h3, h4, h5]
  exact h

theorem matched_step (c : PipeCtl) (h : Matched c) : ∀ m ∈ pipeMoves c, Matched m.1 := by
  intro m hm
  unfold pipeMoves at hm
  split at hm
  · simp at hm
  · rw [List.mem_append, List.mem_append] at hm
    rcases hm with (ha | hr) | hd
    · exact matched_app c h m ha
    · exact matched_rb c h m hr
    · exact matched_dp c h m hd

theorem matched_reachable (mode : Nat) (p : Pipe) (h : PipeReachable (Pipe.init mode) p) :
    Matched p.ctl := by
  induction h with
  | start => simp [Matched, Pipe.init, RbPc.owes, AppPc.waiting]
  | step p q _ hq ih =>
    unfold Pipe.steps at hq
    rw [List.mem_map] at hq
    obtain ⟨m, hm, hqm⟩ := hq
    rw [← hqm]
    exact matched_step p.ctl ih m hm

theorem waiting_le_one (a : AppPc) : a.waiting ≤ 1 := by
  cases a <;> simp [AppPc.waiting]

/-- In every state the pipeline reaches, in every sync mode and on the
`exit(1)` path too: the posts of `di.r.acqsem` not yet consumed, the post the
worker owes and the posts of `di.r.relsem` not yet consumed add up to `1`
while the application is between its post and the return of its wait, and to
`0` otherwise; the count of `di.r.relsem` never exceeds `1`. -/
theorem relsem_at_most_one (mode : Nat) (p : Pipe) (hp : PipeReachable (Pipe.init mode) p) :
    p.ctl.racq + p.ctl.rb.owes p.ctl.sync + p.ctl.rrel = p.ctl.app.waiting ∧
      p.ctl.rrel ≤ 1 ∧ (p.ctl.app.waiting = 0 → p.ctl.rrel = 0 ∧ p.ctl.racq = 0) := by
  have hm : p.ctl.racq + p.ctl.rb.owes p.ctl.sync + p.ctl.rrel = p.ctl.app.waiting :=
    matched_reachable mode p hp
  have hw := waiting_le_one p.ctl.app
  exact ⟨hm, by omega, fun h0 => ⟨by omega, by omega⟩⟩

/-- C16 fails in sync mode 0 when the timed wait of line 415 gives up with a
RESIZE request pending. The iteration cancels the display worker, posts
`di.d.relsem` and calls `exit(1)`; `exit` runs `~DrawableInfo` on the
readback thread, and `reap_workers` there posts `di.r.acqsem` and waits on
`di.r.relsem`, which only this thread would post. The wake-up has posted
`di.r.relsem` not once, and it neither reaches the next wait on
`di.r.acqsem` nor ends the thread or the process. In the pipeline the state
is reached from the start: the application is in the wait of line 624, the
readback thread in the wait of line 121, one post of `di.r.acqsem` is
unconsumed, `di.r.relsem` is zero, the process has not terminated, and no
thread can take a step, so the post-then-wait pair of `glXSwapBuffers` is
never matched. -/
theorem readback_exit_hangs :
    readback_iteration 0 ReinitTodo.RESIZE ⟨AppSignal.resized, 640, 480, true, false⟩ =
      ([RbOp.semWait Sem.rAcq, RbOp.tick true, RbOp.semTimedWait Sem.dRel true,
        RbOp.pthread_cancel, RbOp.semPost Sem.dRel, RbOp.primus_warn, RbOp.exit1,
        RbOp.setRReinit ReinitTodo.SHUTDOWN, RbOp.semPost Sem.rAcq, RbOp.semStuck Sem.rRel],
       WorkEnd.exited) ∧
    (readback_iteration 0 ReinitTodo.RESIZE ⟨AppSignal.resized, 640, 480, true, false⟩).1.count
      (RbOp.semPost Sem.rRel) = 0 ∧
    PipeReachable (Pipe.init 0) (runSchedule hangSchedule (Pipe.init 0)) ∧
    ((runSchedule hangSchedule (Pipe.init 0)).ctl.app = AppPc.swapWait ∧
    (runSchedule hangSchedule (Pipe.init 0)).ctl.rb = RbPc.x121 ∧
    (runSchedule hangSchedule (Pipe.init 0)).ctl.dp = DpPc.done ∧
    (runSchedule hangSchedule (Pipe.init 0)).ctl.racq = 1 ∧
    (runSchedule hangSchedule (Pipe.init 0)).ctl.rrel = 0 ∧
    (runSchedule hangSchedule (Pipe.init 0)).ctl.aborted = false ∧
    (runSchedule hangSchedule (Pipe.init 0)).swapsDone = 2 ∧
    (runSchedule hangSchedule (Pipe.init 0)).steps = []) :=
  ⟨by decide, by decide, runSchedule_reachable _ _ _ PipeReachable.start, by decide!⟩

/-! ## Visuals for fbconfigs -/

theorem set_getD_self (l : List Int) (n : Nat) : l.set n (l.getD n 0) = l := by
  induction l generalizing n with
  | nil => rfl
  | cons a l ih =>
    cases n with
    | zero => rfl
    | succ n =>
      simp only [List.set_cons_succ, List.getD_cons_succ]
      rw [ih]

theorem matchLoop_null (d : DSide) (fuel i : Nat) (attrs : List Int) :
    matchLoop d fuel i attrs 0 = (attrs, 0) := by
  cases fuel with
  | zero => rfl
  | succ fuel => simp [matchLoop]

/-- The loop of `match_visual` keeps a visual only when it has exactly the
values of the array, and then it leaves the array as it was. -/
theorem matchLoop_accepts (d : DSide) (fuel i : Nat) (attrs : List Int) (vis : Nat)
    (h : (matchLoop d fuel i attrs vis).2 ≠ 0) :
    matchLoop d fuel i attrs vis = (attrs, vis) ∧ exactFrom d vis fuel i attrs := by
  induction fuel generalizing i attrs with
  | zero => exact ⟨rfl, trivial⟩
  | succ fuel ih =>
    unfold matchLoop at h ⊢
    by_cases hc : attrs.getD i 0 ≠ 0 ∧ vis ≠ 0
    · rw [if_pos hc] at h ⊢
      by_cases hv : attrs.getD (i + 1) 0 ≠ d.getConfig vis (attrs.getD i 0)
      · rw [if_pos hv, matchLoop_null] at h
        exact absurd rfl h
      · rw [if_neg hv] at h ⊢
        have hv' : d.getConfig vis (attrs.getD i 0) = attrs.getD (i + 1) 0 := by
          by_contra hne
          exact hv (fun heq => hne heq.symm)
        rw [hv', set_getD_self] at h ⊢
        obtain ⟨h1, h2⟩ := ih (i + 2) attrs h
        exact ⟨h1, Or.inr ⟨hv', h2⟩⟩
    · rw [if_neg hc] at h ⊢
      refine ⟨rfl, ?_⟩
      by_cases h0 : attrs.getD i 0 = 0
      · exact Or.inl h0
      · have hvis : vis = 0 := by
          by_contra hne
          exact hc ⟨h0, hne⟩
        exact absurd hvis h

/-- What `match_visual` accepts: the visual that `glXChooseVisual` returned
for the array, when it has exactly the values the array holds; the array is
left as it was. -/
theorem match_visual_accepts (d : DSide) (attrs : List Int)
    (h : (match_visual d attrs).2 ≠ 0) :
    match_visual d attrs = (attrs, d.chooseVisual attrs) ∧
      exactFrom d (d.chooseVisual attrs) attrs.length 2 attrs :=
  matchLoop_accepts d attrs.length 2 attrs (d.chooseVisual attrs) h

/-- The loop of `glXGetVisualFromFBConfig`: when it ends with a visual, that
visual was accepted by the last call of `match_visual`, for the array of that
call, and every call before returned `NULL`. -/
theorem stripLoop_result (d : DSide) (fuel : Nat) (i : Int) (attrs : List Int)
    (tried : List (List Int)) (hall : ∀ a ∈ tried, (match_visual d a).2 = 0)
    (h : (stripLoop d fuel i attrs 0 tried).1 ≠ 0) :
    ∃ (before : List (List Int)) (last : List Int),
      (stripLoop d fuel i attrs 0 tried).2 = before ++ [last] ∧
        (∀ a ∈ before, (match_visual d a).2 = 0) ∧
        match_visual d last = (last, (stripLoop d fuel i attrs 0 tried).1) ∧
        d.chooseVisual last = (stripLoop d fuel i attrs 0 tried).1 ∧
        exactFrom d (stripLoop d fuel i attrs 0 tried).1 last.length 2 last := by
  induction fuel generalizing i attrs tried with
  | zero => exact absurd rfl h
  | succ fuel ih =>
    unfold stripLoop at h ⊢
    by_cases hc : 0 ≤ i ∧ (0 : Nat) = 0
    · rw [if_pos hc] at h ⊢
      by_cases hm : (match_visual d attrs).2 = 0
      · rw [hm] at h ⊢
        refine ih (i - 2) _ (tried ++ [attrs]) ?_ h
        intro a ha
        rw [List.mem_append, List.mem_singleton] at ha
        rcases ha with ha | ha
        · exact hall a ha
        · rw [ha]; exact hm
      · obtain ⟨hacc, hex⟩ := match_visual_accepts d attrs hm
        have hstop : ∀ (f : Nat) (j : Int) (as : List Int) (v : Nat) (t : List (List Int)),
            v ≠ 0 → stripLoop d f j as v t = (v, t) := by
          intro f j as v t hv
          cases f with
          | zero => rfl
          | succ f => simp [stripLoop, hv]
        rw [hstop _ _ _ _ _ hm]
        refine ⟨tried, attrs, rfl, hall, ?_, ?_, ?_⟩
        · rw [hacc]
        · rw [hacc]
        · rw [hacc]; exact hex
    · rw [if_neg hc] at h
      exact absurd rfl h

/-- What `glXGetVisualFromFBConfig` guarantees for a visual it returns: the
last call of `match_visual` got it from `glXChooseVisual` and found that it
has exactly the values of the array of that call; every earlier call returned
`NULL`. -/
theorem glXGetVisualFromFBConfig_result (g : GlxNames) (aVisual : Nat) (aAttrib : Int → Int)
    (d : DSide) (h : (glXGetVisualFromFBConfig g aVisual aAttrib d).1 ≠ 0) :
    ∃ (before : List (List Int)) (last : List Int),
      (glXGetVisualFromFBConfig g aVisual aAttrib d).2 = before ++ [last] ∧
        (∀ a ∈ before, (match_visual d a).2 = 0) ∧
        d.chooseVisual last = (glXGetVisualFromFBConfig g aVisual aAttrib d).1 ∧
        exactFrom d (glXGetVisualFromFBConfig g aVisual aAttrib d).1 last.length 2 last := by
  unfold glXGetVisualFromFBConfig at h ⊢
  by_cases ha : aVisual = 0
  · rw [if_pos ha] at h
    exact absurd rfl h
  · rw [if_neg ha] at h ⊢
    obtain ⟨before, last, h1, h2, _, h4, h5⟩ :=
      stripLoop_result d _ _ _ [] (fun a ha' => by simp at ha') h
    exact ⟨before, last, h1, h2, h4, h5⟩

/-- When `glXChooseVisual` finds nothing, `glXGetVisualFromFBConfig` passes
nine arrays to `match_visual`: the full list with the values of the
fbconfig, then the same list cut by one attribute from the tail each time,
down to `GLX_RGBA, GLX_DOUBLEBUFFER`; it returns `NULL`. -/
theorem glXGetVisualFromFBConfig_attempts :
    glXGetVisualFromFBConfig GlxNames.glx 1 fbconfigDepth24 dsideEmpty =
      (0, [[4, 5, 8, 8, 9, 8, 10, 8, 11, 0, 12, 24, 13, 8, 100000, 0, 100001, 0, 0],
           [4, 5, 8, 8, 9, 8, 10, 8, 11, 0, 12, 24, 13, 8, 100000, 0, 0, 0, 0],
           [4, 5, 8, 8, 9, 8, 10, 8, 11, 0, 12, 24, 13, 8, 0, 0, 0, 0, 0],
           [4, 5, 8, 8, 9, 8, 10, 8, 11, 0, 12, 24, 0, 8, 0, 0, 0, 0, 0],
           [4, 5, 8, 8, 9, 8, 10, 8, 11, 0, 0, 24, 0, 8, 0, 0, 0, 0, 0],
           [4, 5, 8, 8, 9, 8, 10, 8, 0, 0, 0, 24, 0, 8, 0, 0, 0, 0, 0],
           [4, 5, 8, 8, 9, 8, 0, 8, 0, 0, 0, 24, 0, 8, 0, 0, 0, 0, 0],
           [4, 5, 8, 8, 0, 8, 0, 8, 0, 0, 0, 24, 0, 8, 0, 0, 0, 0, 0],
           [4, 5, 0, 8, 0, 8, 0, 8, 0, 0, 0, 24, 0, 8, 0, 0, 0, 0, 0]]) := by
  decide

/-- C15 fails on an fbconfig with 24 bits of depth when the D-side answers a
request for at least 24 bits with a visual of 32 bits. The first call of
`match_visual` gets the visual `33` from `glXChooseVisual` and rejects it,
because its `GLX_DEPTH_SIZE` is 32 and not 24; in doing so it leaves 32 in
the array. The second call, with `GLX_SAMPLES` cut off, asks for 32 bits,
gets the same visual and accepts it. `glXGetVisualFromFBConfig` returns the
visual `33`: `GLX_DEPTH_SIZE` is in the list of the successful attempt
(index 10, before the terminator at index 16), the visual has 32 bits of
depth, the A-side reported 24. -/
theorem glXGetVisualFromFBConfig_accepts_rejected_visual :
    glXGetVisualFromFBConfig GlxNames.glx 1 fbconfigDepth24 dsideDepth32 =
      (33, [[4, 5, 8, 8, 9, 8, 10, 8, 11, 0, 12, 24, 13, 8, 100000, 0, 100001, 0, 0],
            [4, 5, 8, 8, 9, 8, 10, 8, 11, 0, 12, 32, 13, 8, 100000, 0, 0, 0, 0]]) ∧
    dsideDepth32.chooseVisual
        [4, 5, 8, 8, 9, 8, 10, 8, 11, 0, 12, 24, 13, 8, 100000, 0, 100001, 0, 0] = 33 ∧
    match_visual dsideDepth32
        [4, 5, 8, 8, 9, 8, 10, 8, 11, 0, 12, 24, 13, 8, 100000, 0, 100001, 0, 0] =
      ([4, 5, 8, 8, 9, 8, 10, 8, 11, 0, 12, 32, 13, 8, 100000, 0, 100001, 0, 0], 0) ∧
    match_visual dsideDepth32
        [4, 5, 8, 8, 9, 8, 10, 8, 11, 0, 12, 32, 13, 8, 100000, 0, 0, 0, 0] =
      ([4, 5, 8, 8, 9, 8, 10, 8, 11, 0, 12, 32, 13, 8, 100000, 0, 0, 0, 0], 33) ∧
    dsideDepth32.getConfig 33 GlxNames.glx.depth_size = 32 ∧
    fbconfigDepth24 GlxNames.glx.depth_size = 24 := by
  decide

/-! ## `lookup_pbuffer` -/

theorem lookup_pbuffer_total (s : PrimusState) (geom : Int × Int) (draw ctx : Nat)
    (hctx : ctx ≠ 0) : ∃ r, lookup_pbuffer s geom draw ctx = some r := by
  unfold lookup_pbuffer
  by_cases hd : draw = 0
  · exact ⟨_, if_pos hd⟩
  · rw [if_neg hd]
    cases Registry.find s.drawables draw with
    | none => exact ⟨_, if_neg hctx⟩
    | some di => exact ⟨_, rfl⟩

/-- A pbuffer whose fbconfig differs from the one of the context is destroyed
on the A-side and another handle is returned. -/
theorem lookupKnown_replaces (s : PrimusState) (hs : StateOk s) (draw ctx : Nat)
    (di : DrawableInfo) (hf : Registry.find s.drawables draw = some di)
    (hctx : ctx ≠ 0) (hp : di.pbuffer ≠ 0)
    (hne : di.fbconfig ≠ (ContextsInfo.index s.contexts.entries ctx).2.fbconfig) :
    (lookupKnown s draw ctx di).2 ≠ di.pbuffer ∧
      Registry.find (lookupKnown s draw ctx di).1.aside.pbuffers di.pbuffer = none := by
  have hlt := ((hs.entries draw di hf).backed hp).1
  have hne' : ¬ (s.aside.next = di.pbuffer) := by omega
  have hne2 : ¬ (di.pbuffer = s.aside.next) := by omega
  unfold lookupKnown
  simp only [hctx, ne_eq, not_false_eq_true, ↓reduceIte, hne, and_self, adoptFbconfig, hp,
    ensureBacking, create_pbuffer, ASide.createPbuffer, ASide.destroyPbuffer,
    PrimusState.withEntry]
  refine ⟨hne', ?_⟩
  rw [Registry.find_set_ne _ _ _ _ hne2]
  exact Registry.find_erase_self _ _

/-- C11. In every reachable state of the registries, for every drawable
handle `draw ≠ 0` and every non-null context `ctx`, `lookup_pbuffer(dpy, draw,
ctx)` returns, and after the call: `draw` has an entry in the drawable
registry; the fbconfig of the entry is the fbconfig the context registry
holds for `ctx` (before and after the call); the returned value is the
pbuffer of the entry and is not null; that pbuffer is live on the A-side and
was created with the fbconfig of the entry; and a pbuffer that the entry held
under a different fbconfig is destroyed on the A-side and is not the returned
one. With `draw = 0` the call returns `0` and leaves the state as it is, for
every context. -/
theorem lookup_pbuffer_spec (s : PrimusState) (hs : Reachable s) (geom : Int × Int)
    (draw ctx : Nat) (hdraw : draw ≠ 0) (hctx : ctx ≠ 0) :
    (∀ (g : Int × Int) (c : Nat), lookup_pbuffer s g 0 c = some (s, 0)) ∧
    ∃ s' pb di' pa, lookup_pbuffer s geom draw ctx = some (s', pb) ∧
      Registry.find s'.drawables draw = some di' ∧
      di'.fbconfig = (ContextsInfo.index s.contexts.entries ctx).2.fbconfig ∧
      di'.fbconfig = (ContextsInfo.index s'.contexts.entries ctx).2.fbconfig ∧
      pb = di'.pbuffer ∧ pb ≠ 0 ∧
      Registry.find s'.aside.pbuffers pb = some pa ∧ pa.fbconfig = di'.fbconfig ∧
      (∀ di, Registry.find s.drawables draw = some di → di.pbuffer ≠ 0 →
        di.fbconfig ≠ (ContextsInfo.index s.contexts.entries ctx).2.fbconfig →
        pb ≠ di.pbuffer ∧ Registry.find s'.aside.pbuffers di.pbuffer = none) := by
  have hok := reachable_ok s hs
  refine ⟨fun g c => by simp [lookup_pbuffer], ?_⟩
  obtain ⟨⟨s', pb⟩, hr⟩ := lookup_pbuffer_total s geom draw ctx hctx
  obtain ⟨hkept, _, hentry, _, _⟩ := lookup_pbuffer_kept s s' geom draw ctx pb hok hr
  obtain ⟨di', hfind, hpb, hpb0, hcfg⟩ := hentry hdraw
  have hback := (hkept.ok.entries draw di' hfind).backed (by rw [hpb]; exact hpb0)
  obtain ⟨_, pa, hpa, hpacfg, _⟩ := hback
  refine ⟨s', pb, di', pa, hr, hfind, hcfg hctx, ?_, hpb.symm, hpb0, ?_, hpacfg, ?_⟩
  · rw [hkept.context hctx]
    exact hcfg hctx
  · rw [← hpb]
    exact hpa
  · intro di hf hp hne
    unfold lookup_pbuffer at hr
    rw [if_neg hdraw, hf] at hr
    simp only [Option.some.injEq] at hr
    have h := lookupKnown_replaces s hok draw ctx di hf hctx hp hne
    rw [hr] at h
    exact h

/-- Witness for C11: the window `100` of the second run holds a pbuffer made
with fbconfig `5`; `lookup_pbuffer` with context `1`, recorded with fbconfig
`6`, replaces it. -/
theorem lookup_pbuffer_spec_witness :
    (Registry.find runCurrent.drawables 100).map (fun di => (di.fbconfig, di.pbuffer)) =
        some (5, 1) ∧
      (lookup_pbuffer runCurrent (320, 200) 100 1).map (fun r => r.2) = some 2 ∧
      ∃ s' pb di' pa, lookup_pbuffer runCurrent (320, 200) 100 1 = some (s', pb) ∧
        Registry.find s'.drawables 100 = some di' ∧
        di'.fbconfig = (ContextsInfo.index runCurrent.contexts.entries 1).2.fbconfig ∧
        di'.fbconfig = (ContextsInfo.index s'.contexts.entries 1).2.fbconfig ∧
        pb = di'.pbuffer ∧ pb ≠ 0 ∧
        Registry.find s'.aside.pbuffers pb = some pa ∧ pa.fbconfig = di'.fbconfig ∧
        (∀ di, Registry.find runCurrent.drawables 100 = some di → di.pbuffer ≠ 0 →
          di.fbconfig ≠ (ContextsInfo.index runCurrent.contexts.entries 1).2.fbconfig →
          pb ≠ di.pbuffer ∧ Registry.find s'.aside.pbuffers di.pbuffer = none) :=
  ⟨by decide, by decide,
    (lookup_pbuffer_spec runCurrent reachable_runCurrent (320, 200) 100 1
      (by decide) (by decide)).2⟩
/-! ## The display worker and `di.d.relsem` -/

theorem drainEvents_count (events : List (Option (Int × Int))) :
    (drainEvents events).count (DpOp.semPost Sem.dRel) = 0 := by
  induction events with
  | nil => rfl
  | cons ev rest ih =>
    cases ev with
    | none => simp [drainEvents, ih]
    | some e => simp [drainEvents, ih]

/-- C13 as stated fails in sync mode 1. A frame iteration with one pending
`ConfigureNotify` event: the statement after the upload is the profiler
tick, the events are drained, the quad is drawn and presented and `ctex` is
flipped, and only then `di.d.relsem` is posted. -/
theorem display_post_late_in_mode_1 :
    (display_iteration 1 ReinitTodo.NONE (0, 0) [some (640, 480)]).1 =
      [DpOp.semWait Sem.dAcq, DpOp.tick true, DpOp.glTexSubImage2D, DpOp.tick false,
       DpOp.XPending, DpOp.XNextEvent, DpOp.storeResize 640 480, DpOp.glDrawArrays,
       DpOp.glXSwapBuffers, DpOp.flipCtex, DpOp.glBindTexture Sel.cur,
       DpOp.semPost Sem.dRel, DpOp.tick false] ∧
    (display_iteration 1 ReinitTodo.NONE (0, 0) [some (640, 480)]).1.indexOf
        DpOp.glXSwapBuffers <
      (display_iteration 1 ReinitTodo.NONE (0, 0) [some (640, 480)]).1.indexOf
        (DpOp.semPost Sem.dRel) := by
  decide

/-- C13, amended. A frame iteration of the display worker (`di.d.reinit ==
NONE`), for every size and every sequence of pending events: in sync mode 0
`di.d.relsem` is posted right after the texture upload, before the events
are drained, the quad is drawn and the frame is presented; in every other
sync mode (1 and 2) it is posted only after the presentation and the flip of
`ctex`, as the last statement before the closing profiler tick. In every
sync mode and for every value of `di.d.reinit` an iteration posts
`di.d.relsem` exactly once. -/
theorem display_post_spec (sync : Int) (size : Int × Int)
    (events : List (Option (Int × Int))) :
    (sync = 0 →
      (display_iteration sync ReinitTodo.NONE size events).1 =
        [DpOp.semWait Sem.dAcq, DpOp.tick true, DpOp.glTexSubImage2D, DpOp.semPost Sem.dRel] ++
          ([DpOp.tick false, DpOp.XPending] ++ drainEvents events ++
            [DpOp.glDrawArrays, DpOp.glXSwapBuffers, DpOp.flipCtex,
             DpOp.glBindTexture Sel.cur, DpOp.tick false])) ∧
    (sync ≠ 0 →
      (display_iteration sync ReinitTodo.NONE size events).1 =
        [DpOp.semWait Sem.dAcq, DpOp.tick true, DpOp.glTexSubImage2D, DpOp.tick false,
         DpOp.XPending] ++ drainEvents events ++
          [DpOp.glDrawArrays, DpOp.glXSwapBuffers, DpOp.flipCtex, DpOp.glBindTexture Sel.cur] ++
          [DpOp.semPost Sem.dRel, DpOp.tick false]) ∧
    (∀ reinit : ReinitTodo,
      (display_iteration sync reinit size events).1.count (DpOp.semPost Sem.dRel) = 1) := by
  refine ⟨fun h0 => ?_, fun h0 => ?_, fun reinit => ?_⟩
  · simp [display_iteration, h0]
  · simp [display_iteration, h0]
  · cases reinit with
    | SHUTDOWN => simp [display_iteration]
    | RESIZE => simp [display_iteration]
    | NONE =>
      by_cases h0 : sync = 0
      · simp [display_iteration, h0, List.count_append, drainEvents_count]
      · simp [display_iteration, h0, List.count_append, drainEvents_count]

/-- Witness for C13 (amended): sync mode 2 with one pending event of another
type. -/
theorem display_post_spec_witness :
    (2 : Int) ≠ 0 ∧
      (display_iteration 2 ReinitTodo.NONE (320, 200) [none]).1 =
        [DpOp.semWait Sem.dAcq, DpOp.tick true, DpOp.glTexSubImage2D, DpOp.tick false,
         DpOp.XPending] ++ drainEvents [none] ++
          [DpOp.glDrawArrays, DpOp.glXSwapBuffers, DpOp.flipCtex, DpOp.glBindTexture Sel.cur] ++
          [DpOp.semPost Sem.dRel, DpOp.tick false] :=
  ⟨by decide, (display_post_spec 2 (320, 200) [none]).2.1 (by decide)⟩


end Primus
